import Mathlib

/-!
Formal model of the `nccid_cleaning` repository (files `cleaning.py` and
`etl.py`): a shallow embedding of the cleaning pipeline over tabular record
sets, together with theorems about its stages.

Cells of a record set are modelled by an inductive `Cell` covering the value
kinds that occur (missing/NaN/NaT, str, int, float, bool, datetime).  Floats
are modelled as exact rationals.  A record set (`pandas.DataFrame`) is an
association list from column name to column (list of cells); lookup takes the
first matching column, assignment overwrites the first matching column in
place or appends a new one, and `rename` relabels every matching column —
mirroring pandas label semantics.

Library calls (`pandas.to_datetime`, `str.isnumeric`, `float(...)`,
`round(...)`, regular-expression search) are modelled explicitly below, each
next to a comment stating the modelled behaviour.
-/

namespace NCCID

/-- A cell of a record set: missing (`NaN`/`None`/`NaT` are conflated, as all
behave as "missing" in the pipeline), a Python `str`, `int`, `float`
(modelled as an exact rational), `bool`, or a datetime (year, month, day). -/
inductive Cell where
  | na : Cell
  | str (s : String) : Cell
  | int (n : ℤ) : Cell
  | num (q : ℚ) : Cell
  | bool (b : Bool) : Cell
  | date (y m d : ℕ) : Cell
deriving DecidableEq, Repr

abbrev Col := List Cell

/-! ## Character and string helpers (Python `str` methods, ASCII fragment) -/

def digitVal (c : Char) : ℕ := c.toNat - 48

def natOfDigits (l : List Char) : ℕ := l.foldl (fun a c => 10 * a + digitVal c) 0

/-- Python `s.isdigit()` / `s.isnumeric()` on the ASCII fragment: nonempty and
all characters are decimal digits. -/
def pyIsDigit (s : String) : Bool := !s.toList.isEmpty && s.toList.all Char.isDigit

/-- Python `str.replace(old, new, 1)` specialised to removing the first `"."`. -/
def removeFirstDot : List Char → List Char
  | [] => []
  | c :: t => if c = '.' then t else c :: removeFirstDot t

/-- Does the character list start with the given pattern? -/
def startsWithSeg : List Char → List Char → Bool
  | [], _ => true
  | _ :: _, [] => false
  | p :: ps, c :: cs => p = c && startsWithSeg ps cs

/-- Python `pat in s` (substring containment) on character lists. -/
def containsSeg (pat : List Char) : List Char → Bool
  | [] => startsWithSeg pat []
  | c :: cs => startsWithSeg pat (c :: cs) || containsSeg pat cs

/-- Python `sub in s` for strings. -/
def strContains (s sub : String) : Bool := containsSeg sub.toList s.toList

/-- ASCII lowercasing of one character. -/
def charLower (c : Char) : Char :=
  if 'A' ≤ c ∧ c ≤ 'Z' then Char.ofNat (c.toNat + 32) else c

/-- Python `s.lower()` (ASCII fragment), computed character-wise. -/
def pyLower (s : String) : String := ⟨s.toList.map charLower⟩

/-- Python `s.rstrip("l")`: drop trailing `'l'` characters. -/
def rstripL (s : String) : String :=
  ⟨(s.toList.reverse.dropWhile (· = 'l')).reverse⟩

def isSpaceChar (c : Char) : Bool := c = ' ' || c = '\t' || c = '\n' || c = '\r'

def stripSpaces (l : List Char) : List Char :=
  (l.dropWhile isSpaceChar).reverse.dropWhile isSpaceChar |>.reverse

/-! ## Python `float(...)` (model)

`float` strips whitespace, accepts an optional sign, then a mantissa of
decimal digits with an optional single point (at least one digit overall),
with an optional decimal exponent.  Special values (`inf`, `nan`, underscores)
are outside the modelled fragment and parse to `none` (a `ValueError`). -/

def splitAtExpChar : List Char → (List Char × Option (List Char))
  | [] => ([], none)
  | c :: t =>
    if c = 'e' || c = 'E' then ([], some t)
    else
      let (m, e) := splitAtExpChar t
      (c :: m, e)

/-- Parse an optional sign; returns whether it was negative, and the rest. -/
def takeSign : List Char → (Bool × List Char)
  | [] => (false, [])
  | c :: t =>
    if c = '+' then (false, t)
    else if c = '-' then (true, t)
    else (false, c :: t)

/-- Parse `digits [. digits]` with at least one digit in total and nothing
left over; returns the value.  `D.F` denotes `(D * 10^|F| + F) / 10^|F|`,
written with `Rat.divInt` (integer numerator over integer denominator) so
that the kernel can evaluate it. -/
def parseMantissa? (l : List Char) : Option ℚ :=
  match l.dropWhile Char.isDigit with
  | [] =>
    if (l.takeWhile Char.isDigit).isEmpty then none
    else some (natOfDigits (l.takeWhile Char.isDigit) : ℚ)
  | '.' :: t =>
    if t.all Char.isDigit && !((l.takeWhile Char.isDigit).isEmpty && t.isEmpty) then
      some (Rat.divInt
        ((natOfDigits (l.takeWhile Char.isDigit) : ℤ) * 10 ^ t.length +
          (natOfDigits t : ℤ))
        ((10 : ℤ) ^ t.length))
    else none
  | _ => none

def parseExponent? (l : List Char) : Option ℤ :=
  match l with
  | '+' :: t => if !t.isEmpty && t.all Char.isDigit then some (natOfDigits t : ℤ) else none
  | '-' :: t => if !t.isEmpty && t.all Char.isDigit then some (-(natOfDigits t : ℤ)) else none
  | t => if !t.isEmpty && t.all Char.isDigit then some (natOfDigits t : ℤ) else none

/-- `q * 10^k` for an integer `k`, written as a decimal shift on the
numerator or denominator so that the kernel can evaluate it. -/
def scalePow10 (q : ℚ) : ℤ → ℚ
  | .ofNat n => Rat.divInt (q.num * 10 ^ n) (q.den : ℤ)
  | .negSucc n => Rat.divInt q.num ((q.den : ℤ) * 10 ^ (n + 1))

/-- Model of Python `float(s)`: `none` is a `ValueError`. -/
def pyFloat? (s : String) : Option ℚ :=
  match takeSign (stripSpaces s.toList) with
  | (neg, l) =>
    match splitAtExpChar l with
    | (mant, expPart) =>
      match parseMantissa? mant, expPart with
      | some m, none => some (if neg then -m else m)
      | some m, some e =>
        match parseExponent? e with
        | some k => some (if neg then -(scalePow10 m k) else scalePow10 m k)
        | none => none
      | none, _ => none

/-- Python 3 `round(q)`: round half to even, returning an integer.  The
fractional part `q - ⌊q⌋` equals `(q.num - ⌊q⌋ * q.den) / q.den`, so the
comparisons with `1/2` are carried out on integers (kernel-evaluable). -/
def pyRound (q : ℚ) : ℤ :=
  if 2 * (q.num - ⌊q⌋ * (q.den : ℤ)) < (q.den : ℤ) then ⌊q⌋
  else if (q.den : ℤ) < 2 * (q.num - ⌊q⌋ * (q.den : ℤ)) then ⌊q⌋ + 1
  else if ⌊q⌋ % 2 = 0 then ⌊q⌋ else ⌊q⌋ + 1

/-! ## Python `str(x)` (model)

`str` of a missing value is `"nan"` (the `repr` of `numpy.nan`), of a string
is the string itself, of an int its decimal form, of a bool `"True"/"False"`,
of a timestamp its ISO form.  For floats, the decimal form with a point is
produced when the rational has a finite decimal expansion (the case for every
float-typed cell that arises here); otherwise a fraction form is used as a
stand-in (such cells never parse as anything downstream, like real float
reprs of non-decimal values). -/

def padTwo (n : ℕ) : String := if n < 10 then "0" ++ toString n else toString n

def padFour (n : ℕ) : String :=
  if n < 10 then "000" ++ toString n
  else if n < 100 then "00" ++ toString n
  else if n < 1000 then "0" ++ toString n else toString n

/-- Smallest `k ≤ 30` with `q * 10^k` integral, if any. -/
def decExp (q : ℚ) : Option ℕ :=
  (List.range 31).find? (fun k => q.den ∣ 10 ^ k)

def pyFloatStr (q : ℚ) : String :=
  match decExp q with
  | some 0 => toString q.num ++ ".0"
  | some (k + 1) =>
    let n := q.num * 10 ^ (k + 1) / (q.den : ℤ)
    let sgn := if n < 0 then "-" else ""
    let a := n.natAbs
    let ip := a / 10 ^ (k + 1)
    let fp := a % 10 ^ (k + 1)
    let fs := toString fp
    let fpad := String.mk (List.replicate (k + 1 - fs.length) '0') ++ fs
    sgn ++ toString ip ++ "." ++ fpad
  | none => toString q.num ++ "/" ++ toString q.den

def pyStr : Cell → String
  | .na => "nan"
  | .str s => s
  | .int n => toString n
  | .num q => pyFloatStr q
  | .bool b => if b then "True" else "False"
  | .date y m d => padFour y ++ "-" ++ padTwo m ++ "-" ++ padTwo d ++ " 00:00:00"

/-! ## Dates -/

def isLeapYear (y : ℕ) : Bool := y % 4 = 0 && (y % 100 ≠ 0 || y % 400 = 0)

def daysInMonth (y m : ℕ) : ℕ :=
  if m = 2 then (if isLeapYear y then 29 else 28)
  else if m = 4 || m = 6 || m = 9 || m = 11 then 30 else 31

def validDate (y m d : ℕ) : Bool :=
  1 ≤ m && m ≤ 12 && 1 ≤ d && d ≤ daysInMonth y m && 1 ≤ y && y ≤ 9999

/-- Key for comparing dates (lexicographic on year, month, day). -/
def dateKey (y m d : ℕ) : ℕ := y * 10000 + m * 100 + d

/-- Two-digit years are windowed by `dateutil` around the current year; the
stable part of that convention maps `yy ≤ 68` to `20yy` and `yy ≥ 69` to
`19yy`.  Years given with three or more digits are taken literally. -/
def expandYear (digits : List Char) : ℕ :=
  let y := natOfDigits digits
  if digits.length ≤ 2 then (if y ≤ 68 then 2000 + y else 1900 + y) else y

/-! ## Regular-expression searches used by `cleaning.py` (models)

Each of the following functions models `re.search` for one concrete pattern,
scanning left to right and returning the first position at which the pattern
matches (with the usual greedy/backtracking semantics, resolved here into an
explicit characterisation per pattern). -/

/-- Maximal leading digit run: the digits, and the rest. -/
def digitRun (l : List Char) : List Char × List Char :=
  (l.takeWhile Char.isDigit, l.dropWhile Char.isDigit)

/-- Try to match `(\d+\.?\d+)\]` at the head of `l` (the part of the pattern
`\[(\d+\.?\d+)\]` after the opening bracket).  The group matches `digits`
(at least two) or `digits.digits` (both runs nonempty), immediately followed
by `]`. -/
def matchBracketNumAt (l : List Char) : Option ℚ :=
  let (a, rest) := digitRun l
  match rest with
  | ']' :: _ => if a.length ≥ 2 then some (natOfDigits a : ℚ) else none
  | '.' :: t =>
    let (b, rest2) := digitRun t
    match rest2 with
    | ']' :: _ =>
      if !a.isEmpty && !b.isEmpty then
        some (Rat.divInt
          ((natOfDigits a : ℤ) * 10 ^ b.length + (natOfDigits b : ℤ))
          ((10 : ℤ) ^ b.length))
      else none
    | _ => none
  | _ => none

/-- `re.search(r"\[(\d+\.?\d+)\]", x)`: first bracketed number. -/
def searchBracketNum : List Char → Option ℚ
  | [] => none
  | '[' :: t =>
    match matchBracketNumAt t with
    | some q => some q
    | none => searchBracketNum t
  | _ :: t => searchBracketNum t

/-- Match `(\d{2,3})/(\d{2,3})\]` at the head of `l`. -/
def matchBpPairAt (l : List Char) : Option (ℚ × ℚ) :=
  let (a, rest) := digitRun l
  match rest with
  | '/' :: t =>
    let (b, rest2) := digitRun t
    match rest2 with
    | ']' :: _ =>
      if 2 ≤ a.length && a.length ≤ 3 && 2 ≤ b.length && b.length ≤ 3 then
        some ((natOfDigits a : ℚ), (natOfDigits b : ℚ))
      else none
    | _ => none
  | _ => none

/-- `re.search(r"\[(?P<systolic>\d{2,3})/(?P<diastolic>\d{2,3})\]", x)`. -/
def searchBpPair : List Char → Option (ℚ × ℚ)
  | [] => none
  | '[' :: t =>
    match matchBpPairAt t with
    | some p => some p
    | none => searchBpPair t
  | _ :: t => searchBpPair t

/-- Try to match `\d{1,2}/\d{1,2}/\d{2,4}` at the head of `l`, greedy with
backtracking; returns the three digit groups. -/
def matchSlashDateAt (l : List Char) : Option (List Char × List Char × List Char) :=
  let tryMonth := fun (mlen : ℕ) =>
    let a := l.take mlen
    if a.length = mlen && a.all Char.isDigit then
      match l.drop mlen with
      | '/' :: t1 =>
        let tryDay := fun (dlen : ℕ) =>
          let b := t1.take dlen
          if b.length = dlen && b.all Char.isDigit then
            match t1.drop dlen with
            | '/' :: t2 =>
              let (yrun, _) := digitRun t2
              let c := yrun.take 4
              if c.length ≥ 2 then some (a, b, c) else none
            | _ => none
          else none
        (tryDay 2).orElse fun _ => tryDay 1
      | _ => none
    else none
  (tryMonth 2).orElse fun _ => tryMonth 1

/-- `re.search(r"\d{1,2}/\d{1,2}/\d{2,4}", x)`. -/
def searchSlashDate : List Char → Option (List Char × List Char × List Char)
  | [] => none
  | c :: t =>
    match matchSlashDateAt (c :: t) with
    | some g => some g
    | none => searchSlashDate t

/-- Match `\d{4}-\d{2}-\d{2}` at the head of `l`. -/
def matchIsoDateAt (l : List Char) : Option (ℕ × ℕ × ℕ) :=
  let a := l.take 4
  if a.length = 4 && a.all Char.isDigit then
    match l.drop 4 with
    | '-' :: t1 =>
      let b := t1.take 2
      if b.length = 2 && b.all Char.isDigit then
        match t1.drop 2 with
        | '-' :: t2 =>
          let c := t2.take 2
          if c.length = 2 && c.all Char.isDigit then
            some (natOfDigits a, natOfDigits b, natOfDigits c)
          else none
        | _ => none
      else none
    | _ => none
  else none

/-- `re.search(r"\d{4}-\d{2}-\d{2}", x)`. -/
def searchIsoDate : List Char → Option (ℕ × ℕ × ℕ)
  | [] => none
  | c :: t =>
    match matchIsoDateAt (c :: t) with
    | some g => some g
    | none => searchIsoDate t

/-- `re.search(r"(\d+)", x)` / `Series.str.extract(r"(\d+)")`: the first
maximal digit run. -/
def searchDigits : List Char → Option (List Char)
  | [] => none
  | c :: t =>
    if c.isDigit then some ((c :: t).takeWhile Char.isDigit) else searchDigits t

/-! ## `pandas.to_datetime` (model)

`to_datetime` on a slash-separated date string resolves field roles the way
`dateutil` does: with `dayfirst=False` the first field is the month when it
can be (≤ 12), otherwise it is taken as the day; with `dayfirst=True`
symmetrically.  An impossible date yields `NaT` under `errors="coerce"`. -/

/-- Month/day role assignment for a two-field slash date, as `dateutil`
does it: the preferred field takes the month role when it can (≤ 12),
otherwise the roles swap, otherwise parsing fails. -/
def usRoles (dayfirst : Bool) (av bv : ℕ) : Option (ℕ × ℕ) :=
  if dayfirst then
    if bv ≤ 12 then some (bv, av) else if av ≤ 12 then some (av, bv) else none
  else
    if av ≤ 12 then some (av, bv) else if bv ≤ 12 then some (bv, av) else none

def toDatetimeOfGroups (dayfirst : Bool) (a b y : List Char) : Cell :=
  match usRoles dayfirst (natOfDigits a) (natOfDigits b) with
  | some (m, d) =>
    if validDate (expandYear y) m d then .date (expandYear y) m d else .na
  | none => .na

def toDatetimeIso (y m d : ℕ) : Cell :=
  if validDate y m d then .date y m d else .na

/-- Model of `pd.to_datetime(s, dayfirst=..., errors="coerce")` on one whole
string: a full slash date, a full ISO date, or `NaT`.  (The full parser
accepts further verbose formats that do not occur in this data.) -/
def toDatetimeStr (dayfirst : Bool) (s : String) : Cell :=
  match matchSlashDateAt (stripSpaces s.toList) with
  | some (a, b, y) =>
    if (stripSpaces s.toList).length = a.length + b.length + y.length + 2 then
      toDatetimeOfGroups dayfirst a b y
    else .na
  | none =>
    match matchIsoDateAt (stripSpaces s.toList) with
    | some (y, m, d) =>
      if (stripSpaces s.toList).length = 10 then toDatetimeIso y m d else .na
    | none => .na

/-- Model of `pd.to_datetime` applied to a whole column (`errors="coerce"`):
strings are parsed, datetimes pass through, everything else coerces to
`NaT`.  (Numeric cells would be read as epoch offsets, far outside the
modelled date range; they are coerced to missing here.) -/
def toDatetimeCell (dayfirst : Bool) : Cell → Cell
  | .str s => toDatetimeStr dayfirst s
  | .date y m d => .date y m d
  | _ => .na

/-! ## Record sets

A record set is an association list from column name to column.  `dfFind`
returns the first column with the given label (pandas lookup on possibly
duplicated labels), `dfSet` overwrites the first column with that label in
place or appends a fresh one at the end (`df[col] = ...`), and `dfRename`
relabels every column with the old label (`df.rename(columns=...)`). -/

abbrev Df := List (String × Col)

def dfFind : Df → String → Option Col
  | [], _ => none
  | (n, col) :: t, c => if n = c then some col else dfFind t c

/-- Python `col in df`. -/
def dfContains (df : Df) (c : String) : Bool := (dfFind df c).isSome

def dfSet : Df → String → Col → Df
  | [], c, v => [(c, v)]
  | (n, col) :: t, c, v => if n = c then (n, v) :: t else (n, col) :: dfSet t c v

def dfRename (df : Df) (a b : String) : Df :=
  df.map fun p => if p.1 = a then (b, p.2) else p

theorem dfFind_dfSet_self (df : Df) (c : String) (v : Col) :
    dfFind (dfSet df c v) c = some v := by
  induction df with
  | nil => simp [dfSet, dfFind]
  | cons p t ih =>
    obtain ⟨n, col⟩ := p
    by_cases h : n = c <;> simp [dfSet, dfFind, h, ih]

theorem dfFind_dfSet_ne (df : Df) (c c' : String) (v : Col) (h : c' ≠ c) :
    dfFind (dfSet df c v) c' = dfFind df c' := by
  induction df with
  | nil =>
    simp only [dfSet, dfFind]
    rw [if_neg (fun hh : c = c' => h hh.symm)]
  | cons p t ih =>
    obtain ⟨n, col⟩ := p
    by_cases hn : n = c
    · subst hn
      simp only [dfSet, if_pos rfl, dfFind]
      rw [if_neg (fun hh : n = c' => h hh.symm), if_neg (fun hh : n = c' => h hh.symm)]
    · simp only [dfSet, if_neg hn, dfFind]
      by_cases hc : n = c' <;> simp [hc, ih]

/-- Overwriting a column with the value it already holds is a no-op. -/
theorem dfSet_eq_self (df : Df) (c : String) (v : Col)
    (h : dfFind df c = some v) : dfSet df c v = df := by
  induction df with
  | nil => simp [dfFind] at h
  | cons p t ih =>
    obtain ⟨n, col⟩ := p
    by_cases hn : n = c
    · subst hn
      simp [dfFind] at h
      simp [dfSet, h]
    · simp [dfFind, hn] at h
      simp [dfSet, hn, ih h]

theorem dfSet_dfSet_same (df : Df) (c : String) (v w : Col) :
    dfSet (dfSet df c v) c w = dfSet df c w := by
  induction df with
  | nil => simp [dfSet]
  | cons p t ih =>
    obtain ⟨n, col⟩ := p
    by_cases hn : n = c <;> simp [dfSet, hn, ih]

theorem dfContains_dfSet (df : Df) (c c' : String) (v : Col) :
    dfContains (dfSet df c v) c' = (c' = c || dfContains df c') := by
  by_cases h : c' = c
  · subst h; simp [dfContains, dfFind_dfSet_self]
  · simp [dfContains, dfFind_dfSet_ne df c c' v h, h]

theorem dfFind_dfRename_of_ne (df : Df) (a b c : String) (hca : c ≠ a)
    (hcb : c ≠ b) : dfFind (dfRename df a b) c = dfFind df c := by
  induction df with
  | nil => simp [dfRename, dfFind]
  | cons p t ih =>
    obtain ⟨n, col⟩ := p
    simp only [dfRename, List.map_cons] at ih ⊢
    by_cases hn : n = a
    · subst hn
      rw [if_pos rfl]
      show dfFind ((b, col) :: _) c = _
      simp only [dfFind]
      rw [if_neg (fun h : b = c => hcb h.symm), if_neg (fun h : n = c => hca h.symm)]
      exact ih
    · rw [if_neg hn]
      show dfFind ((n, col) :: _) c = _
      simp only [dfFind]
      by_cases hc : n = c <;> simp [hc, ih]

/-- `pandas.Series.unique`: distinct cells in order of first occurrence. -/
def uniqCells (col : Col) : List Cell :=
  col.foldl (fun acc c => if c ∈ acc then acc else acc ++ [c]) []

theorem mem_uniqCells_aux (col : Col) (acc : List Cell) (c : Cell) :
    c ∈ col.foldl (fun a x => if x ∈ a then a else a ++ [x]) acc ↔
      c ∈ col ∨ c ∈ acc := by
  induction col generalizing acc with
  | nil => simp
  | cons x t ih =>
    by_cases hx : x ∈ acc
    · simp only [List.foldl_cons, if_pos hx, ih]
      constructor
      · rintro (h | h)
        · exact Or.inl (List.mem_cons_of_mem _ h)
        · exact Or.inr h
      · rintro (h | h)
        · rcases List.mem_cons.mp h with rfl | h
          · exact Or.inr hx
          · exact Or.inl h
        · exact Or.inr h
    · simp only [List.foldl_cons, if_neg hx, ih, List.mem_append,
        List.mem_singleton, List.mem_cons]
      tauto

theorem mem_uniqCells (col : Col) (c : Cell) : c ∈ uniqCells col ↔ c ∈ col := by
  simpa [uniqCells] using mem_uniqCells_aux col [] c

/-! ## Cell-level helpers shared by the stages -/

def isStrCell : Cell → Bool
  | .str _ => true
  | _ => false

/-- A column supports the `.str` accessor when its inferred dtype is
`object`: some cell is a string, or the column is empty (`read_csv` yields
`object` for empty frames).  An all-missing or all-numeric column is typed
`float64`/`int64`/`bool` and `.str` raises `AttributeError`. -/
def colHasStrDtype (col : Col) : Bool := col.any isStrCell || col.isEmpty

/-- `Series.str.lower()`: lowercases strings, every other cell becomes
missing. -/
def strLowerCell : Cell → Cell
  | .str s => .str (pyLower s)
  | _ => .na

/-- `str(x).lower()` for a cell. -/
def pyStrLower (c : Cell) : String := pyLower (pyStr c)

/-- `pd.to_numeric(x, errors="coerce")` on one cell. -/
def toNumeric? : Cell → Option ℚ
  | .num q => some q
  | .int n => some (n : ℚ)
  | .bool b => some (if b then 1 else 0)
  | .str s => pyFloat? s
  | _ => none

/-! ## Category maps

`category_maps.json` (under the repository's `data/` directory, not under
`src/`) provides the literal ethnicity, sex and test-result tables; the code
lowercases their keys, adds the lowercased canonical values as keys, and adds
a missing-value fallback.  The ethnicity table enters every theorem as an
arbitrary `EthMap` parameter, so its contents are never needed.  The sex and
test-result tables are fixed below. -/

/-- The mutable global `_ETHNICITY_MAPPING`, as a partial map on
(lowercased) string keys.  The `np.nan ↦ "Unknown"` entry installed at import
time is kept implicit: missing cells are handled structurally where the map
is applied. -/
abbrev EthMap := String → Option String

/-- Modelled from the spec: `category_maps.json`, the sex table, is not under
`src/`; §4.1 says sex is remapped to F/M/Unknown with case-insensitive keys
and the lowercased canonical values also present as keys. -/
def sexMap : String → Option String := fun s =>
  if s = "f" || s = "female" then some "F"
  else if s = "m" || s = "male" then some "M"
  else if s = "unknown" then some "Unknown"
  else none

/-- Modelled from the spec: `category_maps.json`, the test-result table, is
not under `src/`; §4.7 says free-text lab results such as
`'RNA DETECTED (SARS-CoV-2)'` map into {Positive, Negative, ...}.  The
integer entries `0 ↦ Negative, 1 ↦ Positive` are added in `cleaning.py`
itself; dict lookup is by value equality, so `True`/`1.0` hit the key `1`. -/
def testResultMapCell : Cell → Cell
  | .int n => if n = 0 then .str "Negative" else if n = 1 then .str "Positive" else .na
  | .num q => if q = 0 then .str "Negative" else if q = 1 then .str "Positive" else .na
  | .bool b => .str (if b then "Positive" else "Negative")
  | .str s =>
    if s = "Positive" || s = "RNA DETECTED (SARS-CoV-2)" then .str "Positive"
    else if s = "Negative" then .str "Negative"
    else .na
  | _ => .na

/-! ## Column name lists (verbatim from `cleaning.py`) -/

def usDateCols : List String :=
  ["Date of Positive Covid Swab", "Date of acquisition of 1st RT-PCR",
   "Date of acquisition of 2nd RT-PCR", "Date of result of 1st RT-PCR",
   "Date of result of 2nd RT-PCR", "Date of admission", "Date of ITU admission",
   "Date of intubation", "Date of 1st CXR", "Date of 2nd CXR",
   "Date last known alive", "Date of death"]

/-- `_clean_name`: lowercase, spaces to underscores, commas removed. -/
def cleanName (s : String) : String :=
  ⟨((s.toList.map charLower).map fun c => if c = ' ' then '_' else c).filter (· ≠ ',')⟩

def clinicalColumns : List String :=
  ["Duration of symptoms", "Respiratory rate on admission",
   "Heart rate on admission", "NEWS2 score on arrival",
   "APACHE score on ITU arrival", "PaO2", "Creatinine on admission",
   "D-dimer on admission", "Fibrinogen  if d-dimer not performed",
   "WCC on admission", "Lymphocyte count on admission",
   "Platelet count on admission", "CRP on admission", "Urea on admission",
   "O2 saturation", "Temperature on admission", "Ferritin", "Troponin I",
   "Troponin T"]

def cols100range : List String :=
  ["fibrinogen__if_d-dimer_not_performed", "urea_on_admission", "o2_saturation"]

def binaryColumns : List String :=
  ["PMH hypertension", "PMH CKD", "Current ACEi use",
   "Current Angiotension receptor blocker use", "Current NSAID used",
   "ITU admission", "Intubation", "Death"]

def schemaValues : List (String × List String) :=
  [("Smoking status", ["0", "1", "2"]),
   ("If CKD, stage", ["2", "3", "4", "5"]),
   ("PMH CVS disease", ["0", "1", "2", "3", "4"]),
   ("PMH Lung disease", ["0", "1", "2", "3", "4", "5"]),
   ("CXR severity", ["1", "2", "3"]),
   ("CXR severity 3", ["1", "2", "3"]),
   ("COVID CODE", ["0", "1", "2", "3"]),
   ("COVID CODE 2", ["0", "1", "2", "3"])]

def resultColumns : List String :=
  ["1st RT-PCR result", "2nd RT-PCR result", "Final COVID Status"]

/-! ## Generic column loop

Each stage's `for col in [col for col in NAMES if col in patients_df]` loop:
the name list is filtered against the input frame, then for each name the
current frame's column is read, transformed (possibly raising), and written
to the target name. -/

/-- One iteration of a stage's column loop: read the current frame's column
`n`, transform it (possibly raising), write the result to `g n`. -/
def applyStep (g : String → String) (f : String → Col → Option Col)
    (d : Df) (n : String) : Option Df :=
  match dfFind d n with
  | some cl => (f n cl).map (dfSet d (g n))
  | none => some d

def applyCols (names : List String) (g : String → String)
    (f : String → Col → Option Col) (df : Df) : Option Df :=
  (names.filter (dfContains df)).foldlM (applyStep g f) df

/-! ## Stage 1: `_remap_ethnicity`

The three `_ETHNICITY_MAPPING.update(...)` calls extend the process-wide map
from the distinct values of the current frame's `Ethnicity` column: values
containing "mixed"/"multiple" map to "Multiple", values containing "white"
to "White" (overriding the previous rule), and any distinct value whose
`str(e).lower()` is still unmapped to "Unknown".  Only string cells can pass
the substring guards (`str(...)` of a non-string never contains letters that
spell them), matching the source where `e.lower()` on a non-string would
raise.  `patients_df["Ethnicity"]` itself raises `KeyError` when the column
is absent; the `.str.lower()` `AttributeError` on a non-object column is
caught and the assignment skipped. -/

def isMixedKey (k : String) : Bool := strContains k "mixed" || strContains k "multiple"

def isWhiteKey (k : String) : Bool := strContains k "white"

def ethUpd1 (m : EthMap) (u : List Cell) : EthMap := fun x =>
  if u.any (fun e => isStrCell e && pyStrLower e == x && isMixedKey (pyStrLower e)) then
    some "Multiple"
  else m x

def ethUpd2 (m : EthMap) (u : List Cell) : EthMap := fun x =>
  if u.any (fun e => isStrCell e && pyStrLower e == x && isWhiteKey (pyStrLower e)) then
    some "White"
  else m x

def ethUpd3 (m : EthMap) (u : List Cell) : EthMap := fun x =>
  if u.any (fun e => pyStrLower e == x) && (m x).isNone then some "Unknown" else m x

def ethUpdatedMap (m : EthMap) (col : Col) : EthMap :=
  let u := uniqCells col
  ethUpd3 (ethUpd2 (ethUpd1 m u) u) u

/-- `.str.lower().replace(_ETHNICITY_MAPPING)` on one cell: missing (and
non-string, lowered to missing) cells hit the `np.nan ↦ "Unknown"` entry;
strings are looked up lowercased and left as-is when unmapped. -/
def ethReplaceCell (m : EthMap) (c : Cell) : Cell :=
  match strLowerCell c with
  | .str s => match m s with
    | some v => .str v
    | none => .str s
  | _ => .str "Unknown"

def remapEthnicity (m : EthMap) (df : Df) : Option (EthMap × Df) :=
  match dfFind df "Ethnicity" with
  | none => none
  | some col =>
    let m' := ethUpdatedMap m col
    if colHasStrDtype col then
      some (m', dfSet df "ethnicity" (col.map (ethReplaceCell m')))
    else
      some (m', df)

/-! ## Stage 2: `_remap_sex` -/

/-- `.str.lower().map(_SEX_MAPPING).replace({np.nan: "Unknown"})` on one
cell. -/
def sexCell (c : Cell) : Cell :=
  match strLowerCell c with
  | .str s => match sexMap s with
    | some v => .str v
    | none => .str "Unknown"
  | _ => .str "Unknown"

def remapSex (df : Df) : Option Df :=
  match dfFind df "Sex" with
  | none => none
  | some col =>
    if colHasStrDtype col then some (dfSet df "sex" (col.map sexCell))
    else some df

/-! ## Stage 3: `_coerce_numeric_columns` -/

/-- `_extract_clinical_values(x, kind)` on a string. -/
def extractClinicalValues (x : String) (kind : String) : Option ℚ :=
  if pyIsDigit ⟨removeFirstDot x.toList⟩ then pyFloat? x
  else if kind = "single" then searchBracketNum x.toList
  else
    match searchBpPair x.toList with
    | some p =>
      if kind = "systolic" then some p.1
      else if kind = "diastolic" then some p.2
      else none
    | none => none

def coerceCell (kind : String) (c : Cell) : Cell :=
  match extractClinicalValues (pyStr c) kind with
  | some q => .num q
  | none => .na

/-- `pd.to_numeric(..., errors="coerce").apply(np.floor)` on one cell. -/
def ageCell (c : Cell) : Cell :=
  match toNumeric? c with
  | some q => .num (⌊q⌋ : ℚ)
  | none => .na

def coerceNumericColumns (df : Df) : Option Df := do
  let df ← applyCols clinicalColumns cleanName
    (fun _ cl => some (cl.map (coerceCell "single"))) df
  let df := match dfFind df "Systolic BP" with
    | some cl => dfSet df "systolic_bp" (cl.map (coerceCell "systolic"))
    | none => df
  let df := match dfFind df "Diastolic BP" with
    | some cl => dfSet df "diastolic_bp" (cl.map (coerceCell "diastolic"))
    | none => df
  let df := match dfFind df "Age" with
    | some cl => dfSet df "age" (cl.map ageCell)
    | none => df
  pure df

/-! ## Stage 4: `_clip_numeric_values` -/

/-- `lambda x: x if 25 <= x <= 45 else np.nan`: comparisons with missing are
false (so missing stays missing), bools compare as 0/1, and a chained
comparison against a string or timestamp raises `TypeError`. -/
def clipTempCell : Cell → Option Cell
  | .na => some .na
  | .num q => some (if 25 ≤ q ∧ q ≤ 45 then .num q else .na)
  | .int n => some (if 25 ≤ n ∧ n ≤ 45 then .int n else .na)
  | .bool _ => some .na
  | _ => none

/-- `lambda x: x if 0 <= x <= 100 else np.nan`. -/
def clipRangeCell : Cell → Option Cell
  | .na => some .na
  | .num q => some (if 0 ≤ q ∧ q ≤ 100 then .num q else .na)
  | .int n => some (if 0 ≤ n ∧ n ≤ 100 then .int n else .na)
  | .bool b => some (.bool b)
  | _ => none

def clipNumericValues (df : Df) : Option Df := do
  let df ← match dfFind df "temperature_on_admission" with
    | some cl => (cl.mapM clipTempCell).map (dfSet df "temperature_on_admission")
    | none => some df
  applyCols cols100range id (fun _ cl => cl.mapM clipRangeCell) df

/-! ## Stage 5: `_parse_date_columns` -/

/-- `_clean_us_dates`: search for `\d{1,2}/\d{1,2}/\d{2,4}` and parse it with
`dayfirst=False`; otherwise search for `\d{4}-\d{2}-\d{2}` and parse that;
otherwise (including non-string input) `NaT`. -/
def cleanUsDates (c : Cell) : Cell :=
  match c with
  | .str x =>
    match searchSlashDate x.toList with
    | some (a, b, y) => toDatetimeOfGroups false a b y
    | none =>
      match searchIsoDate x.toList with
      | some (y, m, d) => toDatetimeIso y m d
      | none => .na
  | _ => .na

/-- Python string comparison: lexicographic on code points. -/
def charListLe : List Char → List Char → Bool
  | [], _ => true
  | _ :: _, [] => false
  | a :: as_, b :: bs =>
    if a.toNat < b.toNat then true
    else if b.toNat < a.toNat then false
    else charListLe as_ bs

/-- Row-wise `DataFrame.max(axis=1)` over two cells (`skipna=True`): missing
values are dropped, comparable values are compared, an unorderable mix
raises `TypeError`. -/
def cellMax : Cell → Cell → Option Cell
  | .na, c => some c
  | .str a, .str b => some (if charListLe a.toList b.toList then .str b else .str a)
  | .int a, .int b => some (if a ≤ b then .int b else .int a)
  | .num a, .num b => some (if a ≤ b then .num b else .num a)
  | .bool a, .bool b => some (.bool (a || b))
  | .date y m d, .date y' m' d' =>
    some (if dateKey y m d ≤ dateKey y' m' d' then .date y' m' d' else .date y m d)
  | c, .na => some c
  | _, _ => none

def zipWithE (f : Cell → Cell → Option Cell) : Col → Col → Option Col
  | [], _ => some []
  | _, [] => some []
  | a :: as_, b :: bs => do
    let c ← f a b
    let t ← zipWithE f as_ bs
    pure (c :: t)

def parseDateColumns (df : Df) : Option Df := do
  let df ← applyCols usDateCols cleanName
    (fun _ cl => some (cl.map cleanUsDates)) df
  match dfFind df "SwabDate" with
  | none =>
    -- The closing `return patients_df` is indented under `if "SwabDate" in
    -- patients_df`: with the column absent the function returns `None`, and
    -- `clean_data_df` crashes piping `None` into the next stage.
    none
  | some cl =>
    let sw := cl.map (toDatetimeCell true)
    let df := dfSet df "swabdate" sw
    -- `if "swabdate" and "date_of_positive_covid_swab" in patients_df`: the
    -- string literal `"swabdate"` is truthy, so only the second test counts
    -- (and the swabdate column was unconditionally created just above).
    match dfFind df "date_of_positive_covid_swab" with
    | some us => (zipWithE cellMax us sw).map (dfSet df "latest_swab_date")
    | none => some df

/-! ## Stage 6: `_parse_binary_columns` -/

/-- `.map({0: False, "0": False, "0.0": False, 1: True, "1": True,
"1.0": True})`: dict lookup is by value equality, so `False`/`0.0` hit the
key `0` and `True`/`1.0` hit the key `1`; everything else maps to missing. -/
def binMapCell : Cell → Cell
  | .int n => if n = 0 then .bool false else if n = 1 then .bool true else .na
  | .num q => if q = 0 then .bool false else if q = 1 then .bool true else .na
  | .bool b => .bool b
  | .str s =>
    if s = "0" || s = "0.0" then .bool false
    else if s = "1" || s = "1.0" then .bool true
    else .na
  | _ => .na

/-- `.map({"1": True, "1es": True})` (string keys only). -/
def h1Cell : Cell → Cell
  | .str s => if s = "1" || s = "1es" then .bool true else .na
  | _ => .na

/-- `a.fillna(b)` cell-wise. -/
def fillnaCell (a b : Cell) : Cell :=
  match a with
  | .na => b
  | x => x

def zipFill (a b : Col) : Col := List.zipWith fillnaCell a b

def parseBinaryColumns (df : Df) : Option Df := do
  let df ← applyCols binaryColumns cleanName
    (fun _ cl => some (cl.map binMapCell)) df
  let df ← match dfFind df "PMH h1pertension" with
    | some h1 =>
      match dfFind df "pmh_hypertension" with
      | some ph => some (dfSet df "pmh_hypertension" (zipFill ph (h1.map h1Cell)))
      | none =>
        -- `patients_df["pmh_hypertension"]` raises `KeyError` when neither
        -- the raw `PMH hypertension` column nor a pre-existing cleaned
        -- column provided it.
        none
    | none => some df
  match dfFind df "PMH diabetes mellitus type II" with
  | some d2 =>
    let df := dfSet df "pmh_diabetes_mellitus_type_2" d2
    let df := match dfFind df "PMH diabetes mellitus TYPE II" with
      | some dC =>
        match dfFind df "pmh_diabetes_mellitus_type_2" with
        | some cur => dfSet df "pmh_diabetes_mellitus_type_2" (zipFill cur dC)
        | none => df
      | none => df
    match dfFind df "pmh_diabetes_mellitus_type_2" with
    | some cur => some (dfSet df "pmh_diabetes_mellitus_type_2" (cur.map binMapCell))
    | none => some df
  | none => some df

/-! ## Stage 7: `_parse_cat_columns` -/

/-- `.str.extract(r"(\d+)")` on an object column: first digit run of string
cells, missing for the rest. -/
def extractDigitsCell : Cell → Cell
  | .str s =>
    match searchDigits s.toList with
    | some ds => .str ⟨ds⟩
    | none => .na
  | _ => .na

def schemaLookup (n : String) : List String :=
  match schemaValues.find? (fun p => p.1 = n) with
  | some p => p.2
  | none => []

/-- The two assignments of the schema loop fused per cell: `astype(str)` then
digit extraction, then the `.loc[... .isin(allowed)]` re-assignment, which
realigns excluded rows to missing. -/
def schemaCell (allowed : List String) (c : Cell) : Cell :=
  match extractDigitsCell (.str (pyStr c)) with
  | .str s => if allowed.contains s then .str s else .na
  | _ => .na

def parseCatColumns (df : Df) : Option Df := do
  let df ← match dfFind df "Pack year history" with
    | some cl =>
      if colHasStrDtype cl then
        some (dfSet df "pack_year_history" (cl.map extractDigitsCell))
      else
        -- `.str.extract` on a non-object column raises `AttributeError`,
        -- uncaught in this stage.
        none
    | none => some df
  applyCols (schemaValues.map Prod.fst) cleanName
    (fun n cl => some (cl.map (schemaCell (schemaLookup n)))) df

/-! ## Stage 8: `_remap_test_result_columns` -/

def remapTestResultColumns (df : Df) : Option Df :=
  applyCols resultColumns cleanName
    (fun _ cl => some (cl.map testResultMapCell)) df

/-! ## Stage 9: `_rescale_fio2` -/

def fiO2Table : List (String × String) :=
  [("1", "25"), ("2", "29"), ("3", "33"), ("4", "37"), ("5", "41"),
   ("6", "45"), ("7", "41"), ("8", "47"), ("9", "53"), ("10", "60"),
   ("11", "80"), ("12", "85"), ("13", "90"), ("14", "95"), ("15", "100"),
   ("blue", "24"), ("white", "28"), ("orange", "31"), ("yellow", "35"),
   ("red", "40"), ("green", "60")]

def fiO2Lookup (k : String) : Option String :=
  (fiO2Table.find? (fun p => p.1 = k)).map Prod.snd

/-- The reassignments of `_x` in `_fiO2_mapping`: `none` is Python `None`
(a caught `ValueError` in the decimal branch or a caught `KeyError` in the
device-level branch). -/
def fiO2Adjust (x : String) : Option String :=
  if strContains x "." then
    match pyFloat? x with
    | some q => some (toString (pyRound (scalePow10 q 2)))
    | none => none
  else if strContains (pyLower x) "l" then
    fiO2Lookup (rstripL (pyLower x))
  else if (fiO2Lookup x).isSome then fiO2Lookup x
  else some x

/-- `_fiO2_mapping(x)`.  The outer `none` is an uncaught exception: when
`_x` has become `None`, the closing `_x.isdigit()` raises
`AttributeError`. -/
def fiO2Mapping (x : String) : Option (Option ℤ) :=
  match fiO2Adjust x with
  | none => none
  | some s =>
    some (if pyIsDigit s && natOfDigits s.toList ≤ 100 then
        some (natOfDigits s.toList : ℤ)
      else none)

def fiO2Cell (c : Cell) : Option Cell :=
  (fiO2Mapping (pyStr c)).map fun r =>
    match r with
    | some n => .int n
    | none => .na

def rescaleFio2 (df : Df) : Option Df :=
  match dfFind df "FiO2" with
  | some cl => (cl.mapM fiO2Cell).map (dfSet df "fio2")
  | none => some df

/-! ## Stage 10: `_fix_headers` -/

def fixHeaders (df : Df) : Df :=
  if dfContains df "cxr_severity_3" then dfRename df "cxr_severity_3" "cxr_severity_2"
  else df

/-! ## `clean_data_df` applied to `patient_df_pipeline`

The runner folds the frame through the ten stages.  The process-wide
ethnicity map is threaded explicitly; `none` is an uncaught exception (or
the pipeline crashing on the `None` returned by `_parse_date_columns`). -/

def cleanDataDf (m : EthMap) (df : Df) : Option (EthMap × Df) := do
  let (m, df) ← remapEthnicity m df
  let df ← remapSex df
  let df ← coerceNumericColumns df
  let df ← clipNumericValues df
  let df ← parseDateColumns df
  let df ← parseBinaryColumns df
  let df ← parseCatColumns df
  let df ← remapTestResultColumns df
  let df ← rescaleFio2 df
  pure (m, fixHeaders df)

/-! ## Lemmas on the float-parsing fragment -/

theorem dropWhile_eq_self_of_all {p : Char → Bool} {l : List Char}
    (h : ∀ c ∈ l, p c = false) : l.dropWhile p = l := by
  cases l with
  | nil => rfl
  | cons a t => simp [List.dropWhile_cons, h a (List.mem_cons_self a t)]

theorem stripSpaces_eq_self {l : List Char}
    (h : ∀ c ∈ l, isSpaceChar c = false) : stripSpaces l = l := by
  unfold stripSpaces
  rw [dropWhile_eq_self_of_all h,
    dropWhile_eq_self_of_all (fun c hc => h c (List.mem_reverse.mp hc)),
    List.reverse_reverse]

theorem splitAtExpChar_eq_self {l : List Char}
    (h : ∀ c ∈ l, c ≠ 'e' ∧ c ≠ 'E') : splitAtExpChar l = (l, none) := by
  induction l with
  | nil => rfl
  | cons a t ih =>
    have ha := h a (List.mem_cons_self a t)
    simp [splitAtExpChar, ha.1, ha.2, ih (fun c hc => h c (List.mem_cons_of_mem a hc))]

theorem takeSign_eq_self {l : List Char}
    (h : ∀ c ∈ l, c ≠ '+' ∧ c ≠ '-') : takeSign l = (false, l) := by
  cases l with
  | nil => rfl
  | cons a t =>
    have ha := h a (List.mem_cons_self a t)
    simp [takeSign, ha.1, ha.2]

theorem removeFirstDot_of_no_dot {l : List Char} (h : ∀ c ∈ l, c ≠ '.') :
    removeFirstDot l = l := by
  induction l with
  | nil => rfl
  | cons a t ih =>
    simp only [removeFirstDot, h a (List.mem_cons_self a t), if_false]
    rw [ih (fun c hc => h c (List.mem_cons_of_mem a hc))]

theorem removeFirstDot_append {a : List Char} (b : List Char)
    (h : ∀ c ∈ a, c ≠ '.') : removeFirstDot (a ++ '.' :: b) = a ++ b := by
  induction a with
  | nil => simp [removeFirstDot]
  | cons x t ih =>
    simp [List.cons_append, removeFirstDot, h x (List.mem_cons_self x t),
      ih (fun c hc => h c (List.mem_cons_of_mem x hc))]

theorem isDigit_ne_special {c : Char} (h : c.isDigit = true) :
    c ≠ '.' ∧ c ≠ '+' ∧ c ≠ '-' ∧ c ≠ 'e' ∧ c ≠ 'E' ∧ isSpaceChar c = false := by
  refine ⟨?_, ?_, ?_, ?_, ?_, ?_⟩
  · rintro rfl; exact absurd h (by decide)
  · rintro rfl; exact absurd h (by decide)
  · rintro rfl; exact absurd h (by decide)
  · rintro rfl; exact absurd h (by decide)
  · rintro rfl; exact absurd h (by decide)
  · unfold isSpaceChar
    by_cases h1 : c = ' '
    · subst h1; exact absurd h (by decide)
    by_cases h2 : c = '\t'
    · subst h2; exact absurd h (by decide)
    by_cases h3 : c = '\n'
    · subst h3; exact absurd h (by decide)
    by_cases h4 : c = '\r'
    · subst h4; exact absurd h (by decide)
    simp [h1, h2, h3, h4]

/-- The successful shapes of `parseMantissa?`: all digits, or digits around a
single point. -/
theorem parseMantissa_shape {l : List Char} {q : ℚ}
    (h : parseMantissa? l = some q) :
    (l.all Char.isDigit ∧ l ≠ [] ∧ q = natOfDigits l) ∨
    (∃ a t, l = a ++ '.' :: t ∧ a.all Char.isDigit ∧ t.all Char.isDigit ∧
      ¬(a = [] ∧ t = []) ∧
      q = Rat.divInt ((natOfDigits a : ℤ) * 10 ^ t.length + (natOfDigits t : ℤ))
        ((10 : ℤ) ^ t.length)) := by
  have hl : l = l.takeWhile Char.isDigit ++ l.dropWhile Char.isDigit :=
    (@List.takeWhile_append_dropWhile _ Char.isDigit l).symm
  have hTake : ∀ c ∈ l.takeWhile Char.isDigit, c.isDigit = true :=
    fun c hc => List.mem_takeWhile_imp hc
  unfold parseMantissa? at h
  split at h
  · next hdrop =>
    left
    rw [hdrop, List.append_nil] at hl
    split at h
    · exact absurd h (by simp)
    · next hne =>
      refine ⟨?_, ?_, ?_⟩
      · rw [List.all_eq_true]
        intro c hc
        exact hTake c (hl ▸ hc)
      · intro h0
        subst h0
        exact hne (by simp)
      · rw [hl]
        exact (Option.some_injective _ h).symm
  · next t hdrop =>
    right
    refine ⟨l.takeWhile Char.isDigit, t, ?_, ?_, ?_, ?_, ?_⟩
    · rw [← hdrop]; exact hl
    · rw [List.all_eq_true]; exact hTake
    · split at h
      · next hcond =>
        rw [Bool.and_eq_true] at hcond
        exact hcond.1
      · exact absurd h (by simp)
    · split at h
      · next hcond =>
        rw [Bool.and_eq_true, Bool.not_eq_true'] at hcond
        rintro ⟨ha, ht⟩
        have h2 := hcond.2
        rw [ha, ht] at h2
        simp at h2
      · exact absurd h (by simp)
    · split at h
      · exact (Option.some_injective _ h).symm
      · exact absurd h (by simp)
  · exact absurd h (by simp)

/-- On a string whose characters are digits and at most one point, the
direct-parse branch of `_extract_clinical_values` fires and returns the
parsed float. -/
theorem extractClinicalValues_of_mantissa (s : String) (q : ℚ)
    (h : parseMantissa? s.toList = some q) (k : String) :
    extractClinicalValues s k = some q := by
  have hfloat : pyFloat? s = some q := by
    rcases parseMantissa_shape h with ⟨hall, _, _⟩ | ⟨a, t, hl, hA, hT, _, _⟩
    · rw [List.all_eq_true] at hall
      have hchar := fun c hc => isDigit_ne_special (hall c hc)
      simp only [pyFloat?,
        stripSpaces_eq_self (fun c hc => (hchar c hc).2.2.2.2.2),
        takeSign_eq_self (fun c hc => ⟨(hchar c hc).2.1, (hchar c hc).2.2.1⟩),
        splitAtExpChar_eq_self (fun c hc => ⟨(hchar c hc).2.2.2.1, (hchar c hc).2.2.2.2.1⟩),
        h]
      simp
    · rw [List.all_eq_true] at hA hT
      have hchar : ∀ c ∈ s.toList, c.isDigit = true ∨ c = '.' := by
        intro c hc
        rw [hl] at hc
        rcases List.mem_append.mp hc with hc | hc
        · exact Or.inl (hA c hc)
        · rcases List.mem_cons.mp hc with rfl | hc
          · exact Or.inr rfl
          · exact Or.inl (hT c hc)
      have hprops : ∀ c ∈ s.toList,
          c ≠ '+' ∧ c ≠ '-' ∧ c ≠ 'e' ∧ c ≠ 'E' ∧ isSpaceChar c = false := by
        intro c hc
        rcases hchar c hc with hd | rfl
        · have := isDigit_ne_special hd
          exact ⟨this.2.1, this.2.2.1, this.2.2.2.1, this.2.2.2.2.1, this.2.2.2.2.2⟩
        · exact ⟨by decide, by decide, by decide, by decide, by decide⟩
      simp only [pyFloat?,
        stripSpaces_eq_self (fun c hc => (hprops c hc).2.2.2.2),
        takeSign_eq_self (fun c hc => ⟨(hprops c hc).1, (hprops c hc).2.1⟩),
        splitAtExpChar_eq_self (fun c hc => ⟨(hprops c hc).2.2.1, (hprops c hc).2.2.2.1⟩),
        h]
      simp
  have hguard : pyIsDigit ⟨removeFirstDot s.toList⟩ = true := by
    rcases parseMantissa_shape h with ⟨hall, hne, _⟩ | ⟨a, t, hl, hA, hT, hne, _⟩
    · rw [List.all_eq_true] at hall
      rw [removeFirstDot_of_no_dot (fun c hc => (isDigit_ne_special (hall c hc)).1)]
      show (!(s.toList).isEmpty && (s.toList).all Char.isDigit) = true
      rw [Bool.and_eq_true, Bool.not_eq_true', List.isEmpty_eq_false,
        List.all_eq_true]
      exact ⟨hne, hall⟩
    · rw [List.all_eq_true] at hA hT
      rw [hl, removeFirstDot_append t (fun c hc => (isDigit_ne_special (hA c hc)).1)]
      show (!(a ++ t).isEmpty && (a ++ t).all Char.isDigit) = true
      rw [Bool.and_eq_true, Bool.not_eq_true', List.isEmpty_eq_false,
        List.all_eq_true]
      constructor
      · intro hcon
        rcases List.append_eq_nil.mp hcon with ⟨h1, h2⟩
        exact hne ⟨h1, h2⟩
      · intro c hc
        rcases List.mem_append.mp hc with hc | hc
        · exact hA c hc
        · exact hT c hc
  unfold extractClinicalValues
  rw [if_pos hguard]
  exact hfloat

/-- C3 counterexample: the claim says a bracketed single value "[number]" is
extracted, with `'[5]'` yielding `5.0`; but the pattern `\[(\d+\.?\d+)\]`
needs at least two digits, so `_extract_clinical_values("[5]")` returns
`None` (missing), not `5.0`. -/
theorem C3_bracket_single_digit_missing :
    extractClinicalValues "[5]" "single" = none ∧
    extractClinicalValues "[5]" "single" ≠ some 5 := by
  constructor
  · decide
  · decide

/-- C3 (amended): numeric coercion parses a plain decimal directly (any text
of shape `digits[.digits]` yields its float value); a bracketed value with at
least two digits of the shape `\d+\.?\d+` is extracted ("[123.4] - ..." gives
123.4, "[55]" gives 55, but the single-digit "[5]" gives missing); for blood
pressure a bracketed `[NN/NN]` pair gives the systolic (left) and diastolic
(right) numbers; anything else is missing, not zero. -/
theorem C3_clinical_value_extraction :
    (∀ (s : String) (q : ℚ), parseMantissa? s.toList = some q →
      ∀ k, extractClinicalValues s k = some q) ∧
    extractClinicalValues "12.5" "single" = some (25 / 2) ∧
    extractClinicalValues "[123.4] - 2020-03-04" "single" = some (617 / 5) ∧
    extractClinicalValues "[55]" "single" = some 55 ∧
    extractClinicalValues "[5]" "single" = none ∧
    extractClinicalValues "[170/70] - 2020-03-04" "systolic" = some 170 ∧
    extractClinicalValues "[170/70] - 2020-03-04" "diastolic" = some 70 ∧
    extractClinicalValues "" "single" = none ∧
    extractClinicalValues "n/a" "single" = none ∧
    extractClinicalValues "n/a" "systolic" = none := by
  refine ⟨fun s q h k => extractClinicalValues_of_mantissa s q h k,
    ?_, ?_, rfl, rfl, rfl, rfl, rfl, rfl, rfl⟩
  · norm_num [show extractClinicalValues "12.5" "single" =
      some (Rat.divInt ((12 : ℤ) * 10 ^ (1 : ℕ) + 5) ((10 : ℤ) ^ (1 : ℕ))) from rfl,
      Rat.divInt_eq_div]
  · norm_num [show extractClinicalValues "[123.4] - 2020-03-04" "single" =
      some (Rat.divInt ((123 : ℤ) * 10 ^ (1 : ℕ) + 4) ((10 : ℤ) ^ (1 : ℕ))) from rfl,
      Rat.divInt_eq_div]

/-- C2: `_fiO2_mapping` crashes on `"."` and on an unrecognised value ending
in `"l"`: the caught `ValueError`/`KeyError` leaves `_x = None`, and
`_x.isdigit()` then raises `AttributeError`, halting the stage (the comment
in the source says the `try` is there precisely to catch `"."`).  Values the
function does return are integers in [0, 100] or missing. -/
theorem C2_fio2_crash_and_range :
    fiO2Mapping "." = none ∧
    fiO2Mapping "xyzl" = none ∧
    rescaleFio2 [("FiO2", [Cell.str "."])] = none ∧
    fiO2Mapping "0.5" = some (some 50) ∧
    fiO2Mapping "150" = some none ∧
    (∀ (s : String) (n : ℤ), fiO2Mapping s = some (some n) → 0 ≤ n ∧ n ≤ 100) := by
  refine ⟨by decide, by decide, rfl, by decide, by decide, ?_⟩
  intro s n h
  unfold fiO2Mapping at h
  cases hA : fiO2Adjust s with
  | none => rw [hA] at h; exact absurd h (by simp)
  | some t =>
    rw [hA] at h
    simp only [Option.some.injEq] at h
    split at h
    · next hc =>
      rw [Bool.and_eq_true] at hc
      rw [← Option.some_injective _ h]
      exact ⟨Int.natCast_nonneg _, by exact_mod_cast of_decide_eq_true hc.2⟩
    · exact absurd h (by simp)

/-- C7: range clipping.  `temperature_on_admission` passes values in the
inclusive range [25, 45] through unchanged and sends everything outside to
missing (24.9, written 249/10, becomes missing; 25 and 45 survive; 45.1
becomes missing); the fibrinogen, urea and O2-saturation columns do the same
with the range [0, 100]; missing stays missing.  The final conjunct runs the
stage itself on a record set exercising both rules. -/
theorem C7_clip_ranges :
    (∀ q : ℚ, 25 ≤ q → q ≤ 45 → clipTempCell (.num q) = some (.num q)) ∧
    (∀ q : ℚ, ¬(25 ≤ q ∧ q ≤ 45) → clipTempCell (.num q) = some .na) ∧
    clipTempCell .na = some .na ∧
    clipTempCell (.num (Rat.divInt 249 10)) = some .na ∧
    clipTempCell (.num 25) = some (.num 25) ∧
    clipTempCell (.num 45) = some (.num 45) ∧
    clipTempCell (.num (Rat.divInt 451 10)) = some .na ∧
    (∀ q : ℚ, 0 ≤ q → q ≤ 100 → clipRangeCell (.num q) = some (.num q)) ∧
    (∀ q : ℚ, ¬(0 ≤ q ∧ q ≤ 100) → clipRangeCell (.num q) = some .na) ∧
    clipRangeCell .na = some .na ∧
    clipNumericValues
        [("temperature_on_admission", [.num 24, .num 25, .num 45, .num 46, .na]),
         ("urea_on_admission", [.num 101, .num 100, .num 0, .num (-1), .na]),
         ("o2_saturation", [.num 50, .na, .num 200, .num 3, .num 100]),
         ("fibrinogen__if_d-dimer_not_performed", [.num 200, .num 17, .na, .num 99, .num 100])] =
      some
        [("temperature_on_admission", [.na, .num 25, .num 45, .na, .na]),
         ("urea_on_admission", [.na, .num 100, .num 0, .na, .na]),
         ("o2_saturation", [.num 50, .na, .na, .num 3, .num 100]),
         ("fibrinogen__if_d-dimer_not_performed", [.na, .num 17, .na, .num 99, .num 100])] := by
  refine ⟨?_, ?_, rfl, by decide, by decide, by decide, by decide, ?_, ?_, rfl, by decide⟩
  · intro q h1 h2; simp [clipTempCell, h1, h2]
  · intro q h; simp only [clipTempCell, if_neg h]
  · intro q h1 h2; simp [clipRangeCell, h1, h2]
  · intro q h; simp only [clipRangeCell, if_neg h]

/-- C10: the binary-flag dict maps by Python value equality, so `True`,
`1.0`, `1`, `"1"`, `"1.0"` all give `True`; `False`, `0.0`, `0`, `"0"`,
`"0.0"` give `False`; everything else gives missing; and the merged
diabetes-type-II column applies the same dict after its fill-missing
merge. -/
theorem C10_binary_value_equality :
    binMapCell (.bool true) = .bool true ∧
    binMapCell (.bool false) = .bool false ∧
    binMapCell (.num 1) = .bool true ∧
    binMapCell (.num 0) = .bool false ∧
    binMapCell (.int 1) = .bool true ∧
    binMapCell (.int 0) = .bool false ∧
    binMapCell (.str "1.0") = .bool true ∧
    binMapCell (.str "0.0") = .bool false ∧
    binMapCell (.str "0") = .bool false ∧
    binMapCell (.str "2") = .na ∧
    binMapCell (.str "yes") = .na ∧
    binMapCell (.num 2) = .na ∧
    (∀ q : ℚ, q ≠ 0 → q ≠ 1 → binMapCell (.num q) = .na) ∧
    parseBinaryColumns
        [("PMH diabetes mellitus type II", [.na, .bool true, .str "0", .na]),
         ("PMH diabetes mellitus TYPE II", [.num 1, .na, .num 1, .str "x"])] =
      some
        [("PMH diabetes mellitus type II", [.na, .bool true, .str "0", .na]),
         ("PMH diabetes mellitus TYPE II", [.num 1, .na, .num 1, .str "x"]),
         ("pmh_diabetes_mellitus_type_2", [.bool true, .bool true, .bool false, .na])] := by
  refine ⟨by decide, by decide, by decide, by decide, by decide, by decide, by decide,
    by decide, by decide, by decide, by decide, by decide, ?_, by decide⟩
  intro q h0 h1
  simp [binMapCell, h0, h1]

/-- The claim's date algorithm read literally (spec §4.4): a text containing
the `M/D/Y` pattern is parsed strictly month-first (first field is the
month), else an embedded ISO date is parsed, else missing.  Stated for
comparison with `cleanUsDates`, which models the code. -/
def specUsDateParse (s : String) : Cell :=
  match searchSlashDate s.toList with
  | some (a, b, y) =>
    if validDate (expandYear y) (natOfDigits a) (natOfDigits b) then
      .date (expandYear y) (natOfDigits a) (natOfDigits b)
    else .na
  | none =>
    match searchIsoDate s.toList with
    | some (y, m, d) => toDatetimeIso y m d
    | none => .na

/-- C6 counterexample: on `"25/12/20"` the code yields 2020-12-25 — the
`dayfirst=False` preference of `pd.to_datetime` is not strict, and a first
field over 12 falls back to being the day — while the claim's strict
month-first algorithm would find month 25 invalid and yield missing. -/
theorem C6_dayfirst_fallback :
    cleanUsDates (.str "25/12/20") = .date 2020 12 25 ∧
    specUsDateParse "25/12/20" = .na ∧
    cleanUsDates (.str "25/12/20") ≠ specUsDateParse "25/12/20" := by
  refine ⟨by decide, by decide, by decide⟩

theorem toDatetimeIso_na_or_valid (y m d : ℕ) :
    toDatetimeIso y m d = .na ∨
    ∃ y' m' d', toDatetimeIso y m d = .date y' m' d' ∧
      validDate y' m' d' = true := by
  unfold toDatetimeIso
  split
  · next hv => exact Or.inr ⟨_, _, _, rfl, hv⟩
  · exact Or.inl rfl

theorem toDatetimeOfGroups_na_or_valid (df : Bool) (a b y : List Char) :
    toDatetimeOfGroups df a b y = .na ∨
    ∃ y' m' d', toDatetimeOfGroups df a b y = .date y' m' d' ∧
      validDate y' m' d' = true := by
  unfold toDatetimeOfGroups
  cases hr : usRoles df (natOfDigits a) (natOfDigits b) with
  | none => exact Or.inl rfl
  | some p =>
    obtain ⟨m, d⟩ := p
    dsimp only
    split
    · next hv => exact Or.inr ⟨_, _, _, rfl, hv⟩
    · exact Or.inl rfl

/-- C6 (amended): per-cell US date parsing is total and never raises: a text
containing the slash pattern is parsed with a month-first *preference*
("3/4/20" gives 2020-03-04; the fallback takes the first field as the day
when it exceeds 12, so "25/12/20" gives 2020-12-25; impossible dates give
missing); otherwise an embedded ISO date is recovered ("[bad] - 2020-03-04"
gives 2020-03-04); otherwise (non-strings, "." and other junk included) the
result is missing; every non-missing result is a valid calendar date. -/
theorem C6_us_date_parsing :
    cleanUsDates (.str "3/4/20") = .date 2020 3 4 ∧
    cleanUsDates (.str "[bad] - 2020-03-04") = .date 2020 3 4 ∧
    cleanUsDates (.str ".") = .na ∧
    cleanUsDates (.str "25/12/20") = .date 2020 12 25 ∧
    cleanUsDates (.str "13/13/20") = .na ∧
    cleanUsDates (.str "2/30/20") = .na ∧
    cleanUsDates .na = .na ∧
    (∀ q : ℚ, cleanUsDates (.num q) = .na) ∧
    (∀ n : ℤ, cleanUsDates (.int n) = .na) ∧
    (∀ b, cleanUsDates (.bool b) = .na) ∧
    (∀ y m d, cleanUsDates (.date y m d) = .na) ∧
    (∀ s a b y, searchSlashDate s.toList = some (a, b, y) →
      natOfDigits a ≤ 12 →
      cleanUsDates (.str s) =
        (if validDate (expandYear y) (natOfDigits a) (natOfDigits b) then
          .date (expandYear y) (natOfDigits a) (natOfDigits b)
        else .na)) ∧
    (∀ c, cleanUsDates c = .na ∨
      ∃ y m d, cleanUsDates c = .date y m d ∧ validDate y m d = true) := by
  refine ⟨by decide, by decide, by decide, by decide, by decide, by decide, rfl,
    fun _ => rfl, fun _ => rfl, fun _ => rfl, fun _ _ _ => rfl, ?_, ?_⟩
  · intro s a b y hsearch hm
    have h1 : cleanUsDates (.str s) = toDatetimeOfGroups false a b y := by
      simp only [cleanUsDates]
      rw [hsearch]
    rw [h1]
    unfold toDatetimeOfGroups usRoles
    rw [if_neg Bool.false_ne_true, if_pos hm]
  · intro c
    cases c with
    | str s =>
      simp only [cleanUsDates]
      cases hs : searchSlashDate s.toList with
      | some g =>
        obtain ⟨a, b, y⟩ := g
        exact toDatetimeOfGroups_na_or_valid false a b y
      | none =>
        cases hi : searchIsoDate s.toList with
        | some g =>
          obtain ⟨y, m, d⟩ := g
          exact toDatetimeIso_na_or_valid y m d
        | none => exact Or.inl rfl
    | na => exact Or.inl rfl
    | int n => exact Or.inl rfl
    | num q => exact Or.inl rfl
    | bool b => exact Or.inl rfl
    | date y m d => exact Or.inl rfl

/-- C1: stages do not skip absent source columns, and the pipeline does not
always return a record set.  With `SwabDate` absent, `_parse_date_columns`
falls off its misindented `return` and yields `None`, so the whole pipeline
crashes; `_remap_ethnicity` and `_remap_sex` raise `KeyError` when
`Ethnicity`/`Sex` are absent; and with `PMH h1pertension` present but
`PMH hypertension` absent, the merge raises `KeyError` reading
`pmh_hypertension`. -/
theorem C1_absent_columns_crash :
    cleanDataDf (fun _ => none)
      [("Ethnicity", [.str "White"]), ("Sex", [.str "F"]), ("Age", [.str "42"])] = none ∧
    remapEthnicity (fun _ => none) [("Sex", [.str "F"])] = none ∧
    remapSex [("Ethnicity", [.str "White"])] = none ∧
    parseDateColumns [("Age", [.str "42"])] = none ∧
    parseBinaryColumns [("PMH h1pertension", [.str "1"])] = none :=
  ⟨rfl, rfl, rfl, rfl, rfl⟩

/-! ## C8: the derived latest swab date -/

/-- A cell that is a datetime or missing. -/
def isDateNa : Cell → Bool
  | .na => true
  | .date _ _ _ => true
  | _ => false

/-- The claim's derived latest swab date, following the spec's words: the
maximum of the two dates with missing values excluded; if one is missing the
result is the other; if both are missing the result is missing.  Stated for
comparison with the stage's row-wise `max`. -/
def specLatestSwab : Cell → Cell → Cell
  | .na, b => b
  | a, .na => a
  | .date y m d, .date y' m' d' =>
    if dateKey y m d ≤ dateKey y' m' d' then .date y' m' d' else .date y m d
  | _, _ => .na

theorem isDateNa_toDatetimeOfGroups (dayfirst : Bool) (a b y : List Char) :
    isDateNa (toDatetimeOfGroups dayfirst a b y) = true := by
  unfold toDatetimeOfGroups
  cases hr : usRoles dayfirst (natOfDigits a) (natOfDigits b) with
  | none => rfl
  | some p =>
    obtain ⟨m, d⟩ := p
    dsimp only
    split <;> rfl

theorem isDateNa_toDatetimeIso (y m d : ℕ) :
    isDateNa (toDatetimeIso y m d) = true := by
  unfold toDatetimeIso
  split <;> rfl

theorem isDateNa_toDatetimeCell (dayfirst : Bool) (c : Cell) :
    isDateNa (toDatetimeCell dayfirst c) = true := by
  cases c with
  | str s =>
    show isDateNa (toDatetimeStr dayfirst s) = true
    unfold toDatetimeStr
    split
    · split
      · exact isDateNa_toDatetimeOfGroups dayfirst _ _ _
      · rfl
    · split
      · split
        · exact isDateNa_toDatetimeIso _ _ _
        · rfl
      · rfl
  | na => rfl
  | int n => rfl
  | num q => rfl
  | bool b => rfl
  | date y m d => rfl

theorem cellMax_dateNa {a b : Cell} (ha : isDateNa a = true)
    (hb : isDateNa b = true) : cellMax a b = some (specLatestSwab a b) := by
  cases a with
  | na => cases b <;> rfl
  | date y m d =>
    cases b with
    | na => rfl
    | date y' m' d' => rfl
    | str s => exact absurd hb Bool.false_ne_true
    | int n => exact absurd hb Bool.false_ne_true
    | num q => exact absurd hb Bool.false_ne_true
    | bool v => exact absurd hb Bool.false_ne_true
  | str s => exact absurd ha Bool.false_ne_true
  | int n => exact absurd ha Bool.false_ne_true
  | num q => exact absurd ha Bool.false_ne_true
  | bool v => exact absurd ha Bool.false_ne_true

theorem zipWithE_cellMax_dates {as bs lat : Col}
    (ha : ∀ c ∈ as, isDateNa c = true) (hb : ∀ c ∈ bs, isDateNa c = true)
    (h : zipWithE cellMax as bs = some lat) :
    lat = List.zipWith specLatestSwab as bs := by
  induction as generalizing bs lat with
  | nil =>
    cases bs <;> simp only [zipWithE] at h <;>
      simp [← Option.some_injective _ h]
  | cons a as_ ih =>
    cases bs with
    | nil =>
      simp only [zipWithE] at h
      simp [← Option.some_injective _ h]
    | cons b bs_ =>
      have ha' : isDateNa a = true := ha a (List.mem_cons_self a as_)
      have hb' : isDateNa b = true := hb b (List.mem_cons_self b bs_)
      have hmax : cellMax a b = some (specLatestSwab a b) :=
        cellMax_dateNa ha' hb'
      simp only [zipWithE, hmax, Option.bind_eq_bind, Option.some_bind] at h
      cases hz : zipWithE cellMax as_ bs_ with
      | none => rw [hz] at h; exact absurd h (by simp)
      | some t =>
        rw [hz] at h
        simp only [Option.some_bind, Option.some.injEq] at h
        rw [List.zipWith_cons_cons,
          ← ih (fun c hc => ha c (List.mem_cons_of_mem a hc))
            (fun c hc => hb c (List.mem_cons_of_mem b hc)) hz]
        exact (Option.some_injective _ h).symm

/-- C8: when the stage succeeds and both the `date_of_positive_covid_swab`
and `swabdate` columns are present in its output, the derived
`latest_swab_date` column holds, for every record, the maximum of the two
dates with missing values excluded (one missing gives the other, both
missing gives missing). -/
theorem C8_latest_swab_date (df df' : Df) (us sw : Col)
    (hp : parseDateColumns df = some df')
    (hus : dfFind df' "date_of_positive_covid_swab" = some us)
    (hsw : dfFind df' "swabdate" = some sw)
    (husd : ∀ c ∈ us, isDateNa c = true) :
    dfFind df' "latest_swab_date" = some (List.zipWith specLatestSwab us sw) := by
  unfold parseDateColumns at hp
  cases happly : applyCols usDateCols cleanName
      (fun _ cl => some (cl.map cleanUsDates)) df with
  | none => rw [happly] at hp; exact absurd hp (by simp)
  | some df1 =>
    rw [happly] at hp
    simp only [Option.bind_eq_bind, Option.some_bind] at hp
    cases hcl : dfFind df1 "SwabDate" with
    | none => rw [hcl] at hp; exact absurd hp (by simp)
    | some cl =>
      rw [hcl] at hp
      dsimp only at hp
      cases hdp : dfFind (dfSet df1 "swabdate" (cl.map (toDatetimeCell true)))
          "date_of_positive_covid_swab" with
      | none =>
        rw [hdp] at hp
        dsimp only at hp
        have hdf' : df' = dfSet df1 "swabdate" (cl.map (toDatetimeCell true)) :=
          (Option.some_injective _ hp).symm
        rw [hdf',
          dfFind_dfSet_ne df1 "swabdate" "date_of_positive_covid_swab" _
            (by decide)] at hus
        rw [dfFind_dfSet_ne df1 "swabdate" "date_of_positive_covid_swab" _
          (by decide)] at hdp
        rw [hdp] at hus
        exact absurd hus (by simp)
      | some us0 =>
        rw [hdp] at hp
        dsimp only at hp
        cases hz : zipWithE cellMax us0 (cl.map (toDatetimeCell true)) with
        | none => rw [hz] at hp; exact absurd hp (by simp)
        | some lat =>
          rw [hz] at hp
          have hdf' : df' = dfSet (dfSet df1 "swabdate" (cl.map (toDatetimeCell true)))
              "latest_swab_date" lat := (Option.some_injective _ hp).symm
          have hus0 : us = us0 := by
            rw [hdf', dfFind_dfSet_ne _ "latest_swab_date"
              "date_of_positive_covid_swab" _ (by decide), hdp] at hus
            exact (Option.some_injective _ hus).symm
          have hsw0 : sw = cl.map (toDatetimeCell true) := by
            rw [hdf', dfFind_dfSet_ne _ "latest_swab_date" "swabdate" _ (by decide),
              dfFind_dfSet_self] at hsw
            exact (Option.some_injective _ hsw).symm
          rw [hdf', dfFind_dfSet_self]
          subst hus0 hsw0
          rw [← zipWithE_cellMax_dates husd
            (fun c hc => by
              obtain ⟨c0, _, rfl⟩ := List.mem_map.mp hc
              exact isDateNa_toDatetimeCell true c0) hz]

/-- C8 witness: the theorem applied to a concrete record set with a
UK-format swab date column and a pre-existing US-parsed swab date column. -/
theorem C8_latest_swab_date_witness :
    dfFind
      [("SwabDate", [Cell.str "01/02/2020", Cell.str "."]),
       ("date_of_positive_covid_swab", [Cell.na, Cell.date 2020 3 4]),
       ("swabdate", [Cell.date 2020 2 1, Cell.na]),
       ("latest_swab_date", [Cell.date 2020 2 1, Cell.date 2020 3 4])]
      "latest_swab_date" =
      some (List.zipWith specLatestSwab [Cell.na, Cell.date 2020 3 4]
        [Cell.date 2020 2 1, Cell.na]) :=
  C8_latest_swab_date
    [("SwabDate", [Cell.str "01/02/2020", Cell.str "."]),
     ("date_of_positive_covid_swab", [Cell.na, Cell.date 2020 3 4])]
    [("SwabDate", [Cell.str "01/02/2020", Cell.str "."]),
     ("date_of_positive_covid_swab", [Cell.na, Cell.date 2020 3 4]),
     ("swabdate", [Cell.date 2020 2 1, Cell.na]),
     ("latest_swab_date", [Cell.date 2020 2 1, Cell.date 2020 3 4])]
    [Cell.na, Cell.date 2020 3 4] [Cell.date 2020 2 1, Cell.na]
    (by rfl) (by rfl) (by rfl) (by decide)

/-! ## C5: noninterference of the mutated ethnicity map across runs -/

/-- The process-wide ethnicity map after `_remap_ethnicity` ran on a frame:
the three updates are computed from the `Ethnicity` column's distinct values;
when the column is absent the `KeyError` fires before any update, leaving
the map unchanged. -/
def ethStateAfter (m : EthMap) (df : Df) : EthMap :=
  match dfFind df "Ethnicity" with
  | some col => ethUpdatedMap m col
  | none => m

theorem remapEthnicity_state (m : EthMap) (df : Df) (p : EthMap × Df)
    (h : remapEthnicity m df = some p) : p.1 = ethStateAfter m df := by
  unfold remapEthnicity at h
  unfold ethStateAfter
  cases hc : dfFind df "Ethnicity" with
  | none => rw [hc] at h; exact absurd h (by simp)
  | some col =>
    rw [hc] at h
    dsimp only at h
    split at h
    · rw [← Option.some_injective _ h]
    · rw [← Option.some_injective _ h]

/-- A `u.any` condition of the substring-rule updates, evaluated at a key
that is itself the lowered form of a string cell of `u`: the condition
reduces to the keyword test on the key alone. -/
theorem any_key_eq (p : String → Bool) {u : List Cell} {k : String}
    (hw : ∃ c, c ∈ u ∧ isStrCell c = true ∧ pyStrLower c = k) :
    (u.any fun e => isStrCell e && pyStrLower e == k && p (pyStrLower e)) = p k := by
  obtain ⟨c, hcu, hcs, hck⟩ := hw
  cases hp : p k with
  | true =>
    rw [List.any_eq_true]
    exact ⟨c, hcu, by simp [hcs, hck, hp]⟩
  | false =>
    rw [List.any_eq_false]
    intro e he
    by_cases hek : pyStrLower e = k
    · simp [hek, hp]
    · simp [hek]

/-- A true substring-rule condition forces the keyword to occur in the key
itself. -/
theorem any_key_imp (p : String → Bool) {u : List Cell} {k : String}
    (h : (u.any fun e => isStrCell e && pyStrLower e == k && p (pyStrLower e)) = true) :
    p k = true := by
  rw [List.any_eq_true] at h
  obtain ⟨e, _, he⟩ := h
  rw [Bool.and_eq_true, Bool.and_eq_true] at he
  obtain ⟨⟨_, hek⟩, hp⟩ := he
  rw [beq_iff_eq] at hek
  rw [← hek]
  exact hp

theorem any_lower_true {u : List Cell} {k : String}
    (hw : ∃ c, c ∈ u ∧ pyStrLower c = k) :
    (u.any fun e => pyStrLower e == k) = true := by
  obtain ⟨c, hcu, hck⟩ := hw
  rw [List.any_eq_true]
  exact ⟨c, hcu, by simp [hck]⟩

/-- Lookup of the updated map at the lowered form of a string cell of the
current column does not depend on updates a previous run added for a
different column: the substring rules depend only on the key, and the
"Unknown" fallback fires exactly when the base map misses the key. -/
theorem ethUpdatedMap_lookup_stable (m : EthMap) (col1 col : Col) (s : String)
    (hc : Cell.str s ∈ col) :
    ethUpdatedMap (ethUpdatedMap m col1) col (pyLower s) =
    ethUpdatedMap m col (pyLower s) := by
  have hu : Cell.str s ∈ uniqCells col := (mem_uniqCells col _).mpr hc
  have hwit : ∃ c, c ∈ uniqCells col ∧ isStrCell c = true ∧ pyStrLower c = pyLower s :=
    ⟨Cell.str s, hu, rfl, rfl⟩
  have hany : ((uniqCells col).any fun e => pyStrLower e == pyLower s) = true :=
    any_lower_true ⟨Cell.str s, hu, rfl⟩
  show ethUpd3 (ethUpd2 (ethUpd1 (ethUpdatedMap m col1) (uniqCells col)) (uniqCells col))
      (uniqCells col) (pyLower s) =
    ethUpd3 (ethUpd2 (ethUpd1 m (uniqCells col)) (uniqCells col))
      (uniqCells col) (pyLower s)
  unfold ethUpd3 ethUpd2 ethUpd1
  rw [any_key_eq isMixedKey hwit, any_key_eq isWhiteKey hwit, hany]
  cases hwk : isWhiteKey (pyLower s) with
  | true => simp
  | false =>
    cases hmk : isMixedKey (pyLower s) with
    | true => simp
    | false =>
      simp only [Bool.false_eq_true, if_false, if_true, Bool.true_and]
      have hN : ethUpdatedMap m col1 (pyLower s) =
          (if ((uniqCells col1).any fun e => pyStrLower e == pyLower s) &&
              (m (pyLower s)).isNone then some "Unknown" else m (pyLower s)) := by
        show ethUpd3 (ethUpd2 (ethUpd1 m (uniqCells col1)) (uniqCells col1))
            (uniqCells col1) (pyLower s) = _
        unfold ethUpd3 ethUpd2 ethUpd1
        cases hw1 : ((uniqCells col1).any
            fun e => isStrCell e && pyStrLower e == pyLower s &&
              isWhiteKey (pyStrLower e)) with
        | true => exact absurd (any_key_imp isWhiteKey hw1) (by rw [hwk]; decide)
        | false =>
          cases hm1 : ((uniqCells col1).any
              fun e => isStrCell e && pyStrLower e == pyLower s &&
                isMixedKey (pyStrLower e)) with
          | true => exact absurd (any_key_imp isMixedKey hm1) (by rw [hmk]; decide)
          | false => simp
      rw [hN]
      cases hm0 : m (pyLower s) with
      | some v => simp
      | none =>
        cases h1any : ((uniqCells col1).any fun e => pyStrLower e == pyLower s) <;> simp

theorem ethReplaceCell_stable (m : EthMap) (col1 col : Col) (c : Cell)
    (hc : c ∈ col) :
    ethReplaceCell (ethUpdatedMap (ethUpdatedMap m col1) col) c =
    ethReplaceCell (ethUpdatedMap m col) c := by
  cases c with
  | str s =>
    show (match ethUpdatedMap (ethUpdatedMap m col1) col (pyLower s) with
      | some v => Cell.str v
      | none => Cell.str (pyLower s)) = _
    rw [ethUpdatedMap_lookup_stable m col1 col s hc]
    rfl
  | na => rfl
  | int n => rfl
  | num q => rfl
  | bool b => rfl
  | date y m d => rfl

/-- C5: the dynamic ethnicity substring-rule extension considers only values
observed in the current frame and does not contaminate results across runs:
running `_remap_ethnicity` on a frame yields the same `ethnicity` column
whether or not the stage previously ran on a different frame with the same
process-wide map (first conjunct, for every base map, both frames and both
outcomes including failure); the stage's returned map state is exactly the
three updates applied to the current frame's distinct values (second
conjunct). -/
theorem C5_ethnicity_noninterference :
    (∀ (m0 : EthMap) (d1 d2 : Df),
      (remapEthnicity (ethStateAfter m0 d1) d2).map (fun p => dfFind p.2 "ethnicity") =
      (remapEthnicity m0 d2).map (fun p => dfFind p.2 "ethnicity")) ∧
    (∀ (m : EthMap) (df : Df) (p : EthMap × Df),
      remapEthnicity m df = some p → p.1 = ethStateAfter m df) := by
  refine ⟨?_, remapEthnicity_state⟩
  intro m0 d1 d2
  unfold ethStateAfter
  cases h1 : dfFind d1 "Ethnicity" with
  | none => rfl
  | some col1 =>
    unfold remapEthnicity
    cases h2 : dfFind d2 "Ethnicity" with
    | none => rfl
    | some col =>
      dsimp only
      cases hd : colHasStrDtype col with
      | false => simp
      | true =>
        simp only [if_true, Option.map_some', dfFind_dfSet_self]
        rw [List.map_congr_left
          (fun c hc => ethReplaceCell_stable m0 col1 col c hc)]

/-! ## `etl.py`: demographic backfill from imaging metadata

`patient_data_dicom_update` concatenates the per-modality metadata frames
(projected to Pseudonym / PatientSex / PatientAge), parses the DICOM age
strings, deduplicates by Pseudonym, and backfills unknown sex and missing
age per patient.  A modality frame row is an `ImageRec`; after the parsed
age is added, a row of `demo` is a `DemoRow` carrying its frame index.
Pandas keeps the per-modality indices through `pd.concat`; the model indexes
by overall position — which record survives deduplication for a pseudonym
does not depend on the index values. -/

structure ImageRec where
  pseudonym : String
  patientSex : Cell
  patientAge : Cell
deriving DecidableEq, Repr

structure DemoRow where
  idx : ℕ
  pseudonym : String
  patientSex : Cell
  parsedAge : Cell
deriving DecidableEq, Repr

structure PatientRec where
  pseudonym : String
  sex : Cell
  age : Cell
deriving DecidableEq, Repr

/-- `q / n`, written on the numerator/denominator so the kernel can
evaluate it. -/
def ratDivNat (q : ℚ) (n : ℕ) : ℚ := Rat.divInt q.num ((q.den : ℤ) * n)

/-- `dicom_age_in_years`: last character is the unit, the rest the value;
an empty string raises a caught `IndexError`, an unparseable value a caught
`ValueError`, an unknown unit returns `None`. -/
def dicomAgeInYears (s : String) : Option ℚ :=
  match s.toList.getLast? with
  | none => none
  | some u =>
    match pyFloat? ⟨s.toList.dropLast⟩ with
    | none => none
    | some age =>
      if u = 'Y' then some age
      else if u = 'M' then some (ratDivNat age 12)
      else if u = 'W' then some (ratDivNat age 52)
      else if u = 'D' then some (ratDivNat age 365)
      else none

/-- `demo["PatientAge"].map(dicom_age_in_years)` applies the function to
every cell, missing ones included; subscripting a non-string raises an
uncaught `TypeError` (`none`). -/
def parsedAgeCell : Cell → Option Cell
  | .str s =>
    some (match dicomAgeInYears s with
      | some q => .num q
      | none => .na)
  | _ => none

def buildDemo (images : List (List ImageRec)) : Option (List DemoRow) :=
  (images.flatten.enum).mapM fun p =>
    (parsedAgeCell p.2.patientAge).map fun a =>
      ⟨p.1, p.2.pseudonym, p.2.patientSex, a⟩

/-- The sort key of `sort_values("ParsedPatientAge", ascending=True)`:
parsed ages ascending, missing values last (`na_position="last"`).  Cells
that are neither floats nor missing cannot occur as parsed ages; they are
given an arbitrary fixed key. -/
def ageKey : Cell → Option ℚ
  | .na => none
  | .num q => some q
  | _ => some 0

def optLe : Option ℚ → Option ℚ → Bool
  | _, none => true
  | none, some _ => false
  | some a, some b => decide (a ≤ b)

def ageRowLe (a b : DemoRow) : Bool := optLe (ageKey a.parsedAge) (ageKey b.parsedAge)

def idxRowLe (a b : DemoRow) : Bool := decide (a.idx ≤ b.idx)

/-- Stable insertion sort (pandas' quicksort leaves tie order unspecified;
every property proved below is stated through the sort key only, so it does
not depend on the tie order). -/
def insertSortedBy (le : α → α → Bool) (x : α) : List α → List α
  | [] => [x]
  | y :: t => if le x y then x :: y :: t else y :: insertSortedBy le x t

def sortListBy (le : α → α → Bool) : List α → List α
  | [] => []
  | x :: t => insertSortedBy le x (sortListBy le t)

/-- `drop_duplicates(subset=["Pseudonym"], keep="last")`: a row survives
exactly when no later row has the same pseudonym. -/
def dropDupKeepLast : List DemoRow → List DemoRow
  | [] => []
  | x :: t =>
    if t.any (fun y => y.pseudonym == x.pseudonym) then dropDupKeepLast t
    else x :: dropDupKeepLast t

/-- `demo.sort_values("ParsedPatientAge").drop_duplicates(subset=["Pseudonym"],
keep="last").sort_index()`. -/
def demoDedup (demo : List DemoRow) : List DemoRow :=
  sortListBy idxRowLe (dropDupKeepLast (sortListBy ageRowLe demo))

/-- `df_dicom.loc[df_dicom["Pseudonym"] == x["Pseudonym"]][...].values[0]`:
the first matching row; `none` is the caught `IndexError`. -/
def lookupPseudo (demo : List DemoRow) (p : String) : Option DemoRow :=
  demo.find? fun r => r.pseudonym == p

/-- `_fill_sex`: replaced only when the cleaned sex is exactly "Unknown". -/
def fillSex (x : PatientRec) (demo : List DemoRow) : Cell :=
  if x.sex = .str "Unknown" then
    match lookupPseudo demo x.pseudonym with
    | some r => r.patientSex
    | none => x.sex
  else x.sex

/-- `_fill_age`: replaced only when the age is missing. -/
def fillAge (x : PatientRec) (demo : List DemoRow) : Cell :=
  match x.age with
  | .na =>
    match lookupPseudo demo x.pseudonym with
    | some r => r.parsedAge
    | none => Cell.na
  | a => a

def patientDataDicomUpdate (patients : List PatientRec)
    (images : List (List ImageRec)) : Option (List (PatientRec × Cell × Cell)) :=
  (buildDemo images).map fun demo =>
    patients.map fun x =>
      (x, fillAge x (demoDedup demo), fillSex x (demoDedup demo))

/-! ## Sorting and deduplication lemmas for C4 -/

theorem optLe_total (a b : Option ℚ) : optLe a b = true ∨ optLe b a = true := by
  cases a with
  | none => cases b with
    | none => exact Or.inl rfl
    | some y => exact Or.inr rfl
  | some x => cases b with
    | none => exact Or.inl rfl
    | some y =>
      rcases le_total x y with h | h
      · exact Or.inl (by simp [optLe, h])
      · exact Or.inr (by simp [optLe, h])

theorem optLe_trans {a b c : Option ℚ} (h1 : optLe a b = true)
    (h2 : optLe b c = true) : optLe a c = true := by
  cases a with
  | none =>
    cases b with
    | none => exact h2
    | some y =>
      cases c with
      | none => rfl
      | some z => exact absurd h1 (by simp [optLe])
  | some x =>
    cases c with
    | none => rfl
    | some z =>
      cases b with
      | none => exact absurd h2 (by simp [optLe])
      | some y =>
        simp only [optLe, decide_eq_true_eq] at h1 h2 ⊢
        exact le_trans h1 h2

theorem optLe_refl (a : Option ℚ) : optLe a a = true := by
  cases a with
  | none => rfl
  | some x => simp [optLe]

theorem ageRowLe_total (a b : DemoRow) : ageRowLe a b = true ∨ ageRowLe b a = true :=
  optLe_total _ _

theorem ageRowLe_trans {a b c : DemoRow} (h1 : ageRowLe a b = true)
    (h2 : ageRowLe b c = true) : ageRowLe a c = true :=
  optLe_trans h1 h2

theorem mem_insertSortedBy {le : α → α → Bool} {x a : α} {l : List α} :
    a ∈ insertSortedBy le x l ↔ a = x ∨ a ∈ l := by
  induction l with
  | nil => simp [insertSortedBy]
  | cons y t ih =>
    unfold insertSortedBy
    split
    · simp
    · simp only [List.mem_cons, ih]
      tauto

theorem mem_sortListBy {le : α → α → Bool} {a : α} {l : List α} :
    a ∈ sortListBy le l ↔ a ∈ l := by
  induction l with
  | nil => simp [sortListBy]
  | cons x t ih =>
    unfold sortListBy
    rw [mem_insertSortedBy, ih, List.mem_cons]

theorem pairwise_insertSortedBy {le : α → α → Bool}
    (htrans : ∀ a b c, le a b = true → le b c = true → le a c = true)
    (htot : ∀ a b, le a b = true ∨ le b a = true) (x : α) {l : List α}
    (hl : l.Pairwise fun a b => le a b = true) :
    (insertSortedBy le x l).Pairwise fun a b => le a b = true := by
  induction l with
  | nil => simp [insertSortedBy]
  | cons y t ih =>
    rw [List.pairwise_cons] at hl
    obtain ⟨hy, ht⟩ := hl
    unfold insertSortedBy
    split
    · next hxy =>
      rw [List.pairwise_cons]
      refine ⟨?_, List.Pairwise.cons hy ht⟩
      intro z hz
      rcases List.mem_cons.mp hz with rfl | hz
      · exact hxy
      · exact htrans x y z hxy (hy z hz)
    · next hxy =>
      rw [List.pairwise_cons]
      refine ⟨?_, ih ht⟩
      intro z hz
      rcases mem_insertSortedBy.mp hz with rfl | hz
      · rcases htot z y with h | h
        · exact absurd h hxy
        · exact h
      · exact hy z hz

theorem pairwise_sortListBy {le : α → α → Bool}
    (htrans : ∀ a b c, le a b = true → le b c = true → le a c = true)
    (htot : ∀ a b, le a b = true ∨ le b a = true) (l : List α) :
    (sortListBy le l).Pairwise fun a b => le a b = true := by
  induction l with
  | nil => simp [sortListBy]
  | cons x t ih => exact pairwise_insertSortedBy htrans htot x ih

theorem mem_dropDupKeepLast {l : List DemoRow} {r : DemoRow}
    (h : r ∈ dropDupKeepLast l) : r ∈ l := by
  induction l with
  | nil => simp [dropDupKeepLast] at h
  | cons x t ih =>
    unfold dropDupKeepLast at h
    split at h
    · exact List.mem_cons_of_mem x (ih h)
    · rcases List.mem_cons.mp h with rfl | h
      · exact List.mem_cons_self r t
      · exact List.mem_cons_of_mem x (ih h)

/-- In an age-sorted list, the row `drop_duplicates(keep="last")` keeps for
a pseudonym has the greatest age key among that pseudonym's rows. -/
theorem dropDupKeepLast_max {l : List DemoRow}
    (hp : l.Pairwise fun a b => ageRowLe a b = true) {r : DemoRow}
    (hr : r ∈ dropDupKeepLast l) :
    ∀ r' ∈ l, r'.pseudonym = r.pseudonym → ageRowLe r' r = true := by
  induction l with
  | nil => simp [dropDupKeepLast] at hr
  | cons x t ih =>
    rw [List.pairwise_cons] at hp
    obtain ⟨hx, ht⟩ := hp
    unfold dropDupKeepLast at hr
    split at hr
    · next hAny =>
      intro r' hr' hpseu
      rcases List.mem_cons.mp hr' with rfl | hr'mem
      · exact hx r (mem_dropDupKeepLast hr)
      · exact ih ht hr r' hr'mem hpseu
    · next hAny =>
      rw [Bool.not_eq_true, List.any_eq_false] at hAny
      rcases List.mem_cons.mp hr with rfl | hrmem
      · intro r' hr' hpseu
        rcases List.mem_cons.mp hr' with rfl | hr'mem
        · exact optLe_refl _
        · exact absurd (by simp [hpseu]) (hAny r' hr'mem)
      · intro r' hr' hpseu
        rcases List.mem_cons.mp hr' with rfl | hr'mem
        · have : r.pseudonym = r'.pseudonym := hpseu.symm
          exact absurd (by simp [this])
            (hAny r (mem_dropDupKeepLast hrmem))
        · exact ih ht hrmem r' hr'mem hpseu

/-- C4 counterexample: for two imaging records of the same subject with
parsed ages 30 and 40, `patient_data_dicom_update` backfills from the
record with the *largest* parsed age (sex "F", age 40), not the smallest
("M", 30) as the claim states. -/
theorem C4_backfill_uses_largest_age :
    patientDataDicomUpdate [⟨"covid1", .str "Unknown", .na⟩]
        [[⟨"covid1", .str "M", .str "030Y"⟩, ⟨"covid1", .str "F", .str "040Y"⟩]] =
      some [(⟨"covid1", .str "Unknown", .na⟩, .num 40, .str "F")] ∧
    patientDataDicomUpdate [⟨"covid1", .str "Unknown", .na⟩]
        [[⟨"covid1", .str "M", .str "030Y"⟩, ⟨"covid1", .str "F", .str "040Y"⟩]] ≠
      some [(⟨"covid1", .str "Unknown", .na⟩, .num 30, .str "M")] := by
  constructor
  · decide
  · decide

/-- C4 (amended): deduplication keeps, for each subject, the record whose
parsed age is greatest under the sort key (missing/unparseable ages sort
after all parsed ages and are therefore preferred when present), and that
record is the one used to backfill unknown sex and missing age for that
subject. -/
theorem C4_dedup_keeps_max (rows : List DemoRow) (p : String) (r : DemoRow)
    (h : lookupPseudo (demoDedup rows) p = some r) :
    r.pseudonym = p ∧ r ∈ rows ∧
    (∀ r' ∈ rows, r'.pseudonym = p → ageRowLe r' r = true) ∧
    (∀ x : PatientRec, x.pseudonym = p → x.sex = .str "Unknown" →
      fillSex x (demoDedup rows) = r.patientSex) ∧
    (∀ x : PatientRec, x.pseudonym = p → x.age = .na →
      fillAge x (demoDedup rows) = r.parsedAge) := by
  have hpred := List.find?_some h
  have hmem := List.mem_of_find?_eq_some h
  have hrp : r.pseudonym = p := by simpa using hpred
  have hmem2 : r ∈ dropDupKeepLast (sortListBy ageRowLe rows) :=
    mem_sortListBy.mp hmem
  have hmem3 : r ∈ rows :=
    mem_sortListBy.mp (mem_dropDupKeepLast hmem2)
  have hpair : (sortListBy ageRowLe rows).Pairwise fun a b => ageRowLe a b = true :=
    @pairwise_sortListBy DemoRow ageRowLe
      (fun _ _ _ h1 h2 => ageRowLe_trans h1 h2) ageRowLe_total rows
  refine ⟨hrp, hmem3, ?_, ?_, ?_⟩
  · intro r' hr' hp'
    exact dropDupKeepLast_max hpair hmem2 r' (mem_sortListBy.mpr hr')
      (by rw [hp', hrp])
  · intro x hxp hxs
    unfold fillSex
    rw [if_pos hxs, hxp, h]
  · intro x hxp hxa
    unfold fillAge
    rw [hxa]
    dsimp only
    rw [hxp, h]

/-- C4 witness: the amended theorem applied to the two-record example. -/
theorem C4_dedup_keeps_max_witness :
    (⟨1, "covid1", Cell.str "F", Cell.num 40⟩ : DemoRow).pseudonym = "covid1" ∧
    (⟨1, "covid1", Cell.str "F", Cell.num 40⟩ : DemoRow) ∈
      ([⟨0, "covid1", Cell.str "M", Cell.num 30⟩,
        ⟨1, "covid1", Cell.str "F", Cell.num 40⟩] : List DemoRow) ∧
    (∀ r' ∈ ([⟨0, "covid1", Cell.str "M", Cell.num 30⟩,
        ⟨1, "covid1", Cell.str "F", Cell.num 40⟩] : List DemoRow),
      r'.pseudonym = "covid1" →
      ageRowLe r' ⟨1, "covid1", Cell.str "F", Cell.num 40⟩ = true) ∧
    (∀ x : PatientRec, x.pseudonym = "covid1" → x.sex = .str "Unknown" →
      fillSex x (demoDedup [⟨0, "covid1", Cell.str "M", Cell.num 30⟩,
        ⟨1, "covid1", Cell.str "F", Cell.num 40⟩]) = Cell.str "F") ∧
    (∀ x : PatientRec, x.pseudonym = "covid1" → x.age = .na →
      fillAge x (demoDedup [⟨0, "covid1", Cell.str "M", Cell.num 30⟩,
        ⟨1, "covid1", Cell.str "F", Cell.num 40⟩]) = Cell.num 40) :=
  C4_dedup_keeps_max
    [⟨0, "covid1", Cell.str "M", Cell.num 30⟩,
     ⟨1, "covid1", Cell.str "F", Cell.num 40⟩]
    "covid1" ⟨1, "covid1", Cell.str "F", Cell.num 40⟩ (by decide)

/-! ## C9: a second pipeline run does not alter the cleaned columns

The development below characterises each stage of the first run (which
columns it writes, framed over the rest), shows that the second run repeats
every write with the value the column already holds, and concludes that the
two outputs agree on every column lookup. -/

theorem dfFind_append (df l : Df) (c : String) :
    dfFind (df ++ l) c =
      match dfFind df c with
      | some v => some v
      | none => dfFind l c := by
  induction df with
  | nil => simp [dfFind]
  | cons p t ih =>
    obtain ⟨n, col⟩ := p
    by_cases hn : n = c <;> simp [dfFind, hn, ih]

theorem dfFind_append_left {df : Df} {c : String} {v : Col} (l : Df)
    (h : dfFind df c = some v) : dfFind (df ++ l) c = some v := by
  rw [dfFind_append, h]

theorem dfFind_append_right {df : Df} {c : String} (l : Df)
    (h : dfFind df c = none) : dfFind (df ++ l) c = dfFind l c := by
  rw [dfFind_append, h]

theorem dfSet_append_of_absent {df : Df} {c : String} (v : Col)
    (h : dfFind df c = none) : dfSet df c v = df ++ [(c, v)] := by
  induction df with
  | nil => rfl
  | cons p t ih =>
    obtain ⟨n, col⟩ := p
    by_cases hn : n = c
    · rw [dfFind, if_pos hn] at h
      exact absurd h (by simp)
    · rw [dfFind, if_neg hn] at h
      simp [dfSet, hn, ih h]

theorem dfSet_comm {df : Df} {c c' : String} (v v' : Col) (h : c ≠ c')
    (hc : (dfFind df c).isSome = true) :
    dfSet (dfSet df c v) c' v' = dfSet (dfSet df c' v') c v := by
  induction df with
  | nil => simp [dfFind] at hc
  | cons p t ih =>
    obtain ⟨n, col⟩ := p
    by_cases hn : n = c
    · rw [dfSet, if_pos hn, dfSet, if_neg (fun hh : n = c' => h (hn ▸ hh)),
        dfSet, if_neg (fun hh : n = c' => h (hn ▸ hh)), dfSet, if_pos hn]
    · rw [dfFind, if_neg hn] at hc
      by_cases hn' : n = c'
      · rw [dfSet, if_neg hn, dfSet, if_pos hn', dfSet, if_pos hn',
          dfSet, if_neg hn]
      · rw [dfSet, if_neg hn, dfSet, if_neg hn', dfSet, if_neg hn',
          dfSet, if_neg hn, ih hc]

/-- After `rename a b` (with `a ≠ b`) no column is labelled `a`. -/
theorem dfFind_dfRename_source {df : Df} {a b : String} (h : a ≠ b) :
    dfFind (dfRename df a b) a = none := by
  induction df with
  | nil => rfl
  | cons p t ih =>
    obtain ⟨n, col⟩ := p
    simp only [dfRename, List.map_cons] at ih ⊢
    by_cases hn : n = a
    · rw [if_pos hn]
      show dfFind ((b, col) :: _) a = none
      rw [dfFind, if_neg (fun hh : b = a => h hh.symm)]
      exact ih
    · rw [if_neg hn]
      show dfFind ((n, col) :: _) a = none
      rw [dfFind, if_neg hn]
      exact ih

/-- The first column labelled either `a` or `b`; `dfFind` at `b` after
`rename a b` returns exactly this. -/
def dfFind2 : Df → String → String → Option Col
  | [], _, _ => none
  | (n, col) :: t, a, b => if n = a || n = b then some col else dfFind2 t a b

theorem dfFind_dfRename_target (df : Df) (a b : String) :
    dfFind (dfRename df a b) b = dfFind2 df a b := by
  induction df with
  | nil => rfl
  | cons p t ih =>
    obtain ⟨n, col⟩ := p
    simp only [dfRename, List.map_cons] at ih ⊢
    by_cases hn : n = a
    · rw [if_pos hn]
      show dfFind ((b, col) :: _) b = _
      rw [dfFind, if_pos rfl, dfFind2, if_pos (by simp [hn])]
    · rw [if_neg hn]
      show dfFind ((n, col) :: _) b = _
      rw [dfFind, dfFind2]
      by_cases hb : n = b
      · rw [if_pos hb, if_pos (by simp [hb])]
      · rw [if_neg hb, if_neg (by simp [hn, hb]), ih]

theorem dfContains_dfFind_some {df : Df} {c : String}
    (h : dfContains df c = true) : ∃ v, dfFind df c = some v := by
  unfold dfContains at h
  cases hf : dfFind df c with
  | none => rw [hf] at h; exact absurd h (by simp)
  | some v => exact ⟨v, rfl⟩

/-! ### Generic lemmas about a stage's column loop -/

/-- Frame: a loop whose writes all avoid `c` leaves `c`'s lookup alone. -/
theorem foldlM_applyStep_frame {g : String → String} {f : String → Col → Option Col}
    {L : List String} {d d' : Df}
    (h : L.foldlM (applyStep g f) d = some d') {c : String}
    (hc : ∀ n ∈ L, g n ≠ c) : dfFind d' c = dfFind d c := by
  induction L generalizing d with
  | nil => simp only [List.foldlM_nil] at h; rw [← Option.some_injective _ h]
  | cons n T ih =>
    rw [List.foldlM_cons] at h
    unfold applyStep at h
    cases hn : dfFind d n with
    | none =>
      rw [hn] at h
      dsimp only at h
      exact ih h (fun m hm => hc m (List.mem_cons_of_mem n hm))
    | some cl =>
      rw [hn] at h
      dsimp only at h
      cases hf : f n cl with
      | none => rw [hf] at h; exact absurd h (by simp)
      | some v =>
        rw [hf] at h
        simp only [Option.map_some', Option.some_bind] at h
        rw [ih h (fun m hm => hc m (List.mem_cons_of_mem n hm))]
        exact dfFind_dfSet_ne d (g n) c v
          (fun hh => hc n (List.mem_cons_self n T) hh.symm)

/-- The value a stage loop leaves in a written column: for `n₀` among the
processed names (with `g` injective at `n₀` over the list, and no write
hitting a read), the final lookup at `g n₀` is the transform of the
original column. -/
theorem foldlM_applyStep_write {g : String → String} {f : String → Col → Option Col}
    {L : List String} {n₀ : String} {cl v : Col} {d₀ : Df} :
    ∀ {d d' : Df},
    L.foldlM (applyStep g f) d = some d' →
    (∀ n ∈ L, dfFind d n = dfFind d₀ n) →
    (∀ m ∈ L, ∀ n ∈ L, m ≠ n → g m ≠ n) →
    n₀ ∈ L →
    (∀ m ∈ L, g m = g n₀ → m = n₀) →
    L.Nodup →
    dfFind d₀ n₀ = some cl → f n₀ cl = some v →
    dfFind d' (g n₀) = some v := by
  induction L with
  | nil => intro d d' _ _ _ hn; exact absurd hn (by simp)
  | cons n T ih =>
    intro d d' h hinv hsep hn hinj hnodup hcl hv
    rw [List.foldlM_cons] at h
    unfold applyStep at h
    rw [List.nodup_cons] at hnodup
    rcases List.mem_cons.mp hn with rfl | hmem
    · rw [hinv n₀ (List.mem_cons_self n₀ T), hcl] at h
      dsimp only at h
      rw [hv] at h
      simp only [Option.map_some', Option.some_bind] at h
      rw [foldlM_applyStep_frame h (fun m hm hgm => by
        have hmn : m = n₀ := hinj m (List.mem_cons_of_mem n₀ hm) hgm
        subst hmn
        exact absurd hm hnodup.1)]
      exact dfFind_dfSet_self d (g n₀) v
    · have hT : ∀ m ∈ T, ∀ k ∈ T, m ≠ k → g m ≠ k := fun m hm k hk hmk =>
        hsep m (List.mem_cons_of_mem n hm) k (List.mem_cons_of_mem n hk) hmk
      have hinjT : ∀ m ∈ T, g m = g n₀ → m = n₀ := fun m hm =>
        hinj m (List.mem_cons_of_mem n hm)
      cases hdn : dfFind d n with
      | none =>
        rw [hdn] at h
        dsimp only at h
        exact ih h (fun m hm => hinv m (List.mem_cons_of_mem n hm)) hT hmem
          hinjT hnodup.2 hcl hv
      | some cl' =>
        rw [hdn] at h
        dsimp only at h
        cases hf : f n cl' with
        | none => rw [hf] at h; exact absurd h (by simp)
        | some v' =>
          rw [hf] at h
          simp only [Option.map_some', Option.some_bind] at h
          refine ih h (fun m hm => ?_) hT hmem hinjT hnodup.2 hcl hv
          rw [dfFind_dfSet_ne d (g n) m v'
            (fun hh => hsep n (List.mem_cons_self n T) m
              (List.mem_cons_of_mem n hm) (fun he => hnodup.1 (he ▸ hm)) hh.symm)]
          exact hinv m (List.mem_cons_of_mem n hm)

/-- A stage loop each of whose writes (on the source columns that are
present) re-writes the value the target column already holds returns the
frame unchanged. -/
theorem foldlM_applyStep_noop {g : String → String} {f : String → Col → Option Col}
    {L : List String} {d : Df}
    (hfix : ∀ n ∈ L, ∀ cl, dfFind d n = some cl → ∃ v, f n cl = some v ∧
      dfFind d (g n) = some v) :
    L.foldlM (applyStep g f) d = some d := by
  induction L with
  | nil => rfl
  | cons n T ih =>
    rw [List.foldlM_cons]
    unfold applyStep
    cases hcl : dfFind d n with
    | none =>
      dsimp only
      exact ih (fun m hm => hfix m (List.mem_cons_of_mem n hm))
    | some cl =>
      obtain ⟨v, hv, hgn⟩ := hfix n (List.mem_cons_self n T) cl hcl
      dsimp only
      rw [hv]
      simp only [Option.map_some', Option.some_bind]
      rw [dfSet_eq_self d (g n) v hgn]
      exact ih (fun m hm => hfix m (List.mem_cons_of_mem n hm))

/-- Lookup in a frame extended by a single differently-labelled column. -/
theorem dfFind_append_single_ne (df : Df) {x a : String} (v : Col) (h : x ≠ a) :
    dfFind (df ++ [(a, v)]) x = dfFind df x := by
  rw [dfFind_append]
  cases hf : dfFind df x with
  | some w => rfl
  | none =>
    show dfFind [(a, v)] x = none
    rw [dfFind, if_neg (fun hh : a = x => h hh.symm)]
    rfl

/-- `dfSet` at a label absent from the prefix acts on the suffix. -/
theorem dfSet_append_left {df : Df} {c : String} (l : Df) (v : Col)
    (h : dfFind df c = none) : dfSet (df ++ l) c v = df ++ dfSet l c v := by
  induction df with
  | nil => rfl
  | cons p t ih =>
    obtain ⟨n, col⟩ := p
    rw [dfFind] at h
    by_cases hn : n = c
    · rw [if_pos hn] at h; exact absurd h (by simp)
    · rw [if_neg hn] at h
      show dfSet ((n, col) :: (t ++ l)) c v = (n, col) :: (t ++ dfSet l c v)
      rw [dfSet, if_neg hn, ih h]

/-- Renaming an absent label is the identity. -/
theorem dfRename_eq_self {df : Df} {a : String} (b : String)
    (h : dfFind df a = none) : dfRename df a b = df := by
  induction df with
  | nil => rfl
  | cons p t ih =>
    obtain ⟨n, col⟩ := p
    rw [dfFind] at h
    by_cases hn : n = a
    · rw [if_pos hn] at h; exact absurd h (by simp)
    · rw [if_neg hn] at h
      have ht := ih h
      simp only [dfRename, List.map_cons] at ht ⊢
      rw [ht, if_neg hn]

theorem dfRename_append (d e : Df) (a b : String) :
    dfRename (d ++ e) a b = dfRename d a b ++ dfRename e a b :=
  List.map_append _ d e

/-- After `_fix_headers` no column is labelled `cxr_severity_3`. -/
theorem fixHeaders_no_cs3 (d : Df) :
    dfFind (fixHeaders d) "cxr_severity_3" = none := by
  unfold fixHeaders
  cases hf : dfContains d "cxr_severity_3" with
  | false =>
    rw [if_neg Bool.false_ne_true]
    unfold dfContains at hf
    cases h2 : dfFind d "cxr_severity_3" with
    | none => rfl
    | some v => rw [h2] at hf; exact absurd hf (by simp)
  | true =>
    rw [if_pos rfl]
    exact dfFind_dfRename_source (by decide)

/-- A loop whose per-cell transform is total never fails. -/
theorem foldlM_applyStep_total_of_total {g : String → String}
    {f : String → Col → Option Col} (hf : ∀ n cl, (f n cl).isSome = true)
    (L : List String) (d : Df) :
    ∃ d', L.foldlM (applyStep g f) d = some d' := by
  induction L generalizing d with
  | nil => exact ⟨d, rfl⟩
  | cons n T ih =>
    rw [List.foldlM_cons]
    unfold applyStep
    cases hn : dfFind d n with
    | none => dsimp only; exact ih d
    | some cl =>
      dsimp only
      obtain ⟨v, hv⟩ := Option.isSome_iff_exists.mp (hf n cl)
      rw [hv]
      simp only [Option.map_some', Option.some_bind]
      exact ih _

/-- A loop whose writes never hit a different pending read, and whose
transform succeeds on every present source column, never fails. -/
theorem foldlM_applyStep_total {g : String → String}
    {f : String → Col → Option Col} :
    ∀ {L : List String} {d : Df},
    (∀ m ∈ L, ∀ n ∈ L, g m = n → m = n) → L.Nodup →
    (∀ n ∈ L, ∀ cl, dfFind d n = some cl → (f n cl).isSome = true) →
    ∃ d', L.foldlM (applyStep g f) d = some d' := by
  intro L
  induction L with
  | nil => intro d _ _ _; exact ⟨d, rfl⟩
  | cons n T ih =>
    intro d hsep hN hf
    rw [List.nodup_cons] at hN
    rw [List.foldlM_cons]
    unfold applyStep
    cases hn : dfFind d n with
    | none =>
      dsimp only
      exact ih
        (fun m hm k hk =>
          hsep m (List.mem_cons_of_mem _ hm) k (List.mem_cons_of_mem _ hk))
        hN.2 (fun m hm => hf m (List.mem_cons_of_mem _ hm))
    | some cl =>
      dsimp only
      obtain ⟨v, hv⟩ :=
        Option.isSome_iff_exists.mp (hf n (List.mem_cons_self n T) cl hn)
      rw [hv]
      simp only [Option.map_some', Option.some_bind]
      refine ih
        (fun m hm k hk =>
          hsep m (List.mem_cons_of_mem _ hm) k (List.mem_cons_of_mem _ hk))
        hN.2 ?_
      intro m hm cl' hcl'
      have hgn : g n ≠ m := fun he => by
        have hnm : n = m :=
          hsep n (List.mem_cons_self n T) m (List.mem_cons_of_mem _ hm) he
        exact hN.1 (hnm ▸ hm)
      rw [dfFind_dfSet_ne d (g n) m v (fun hh => hgn hh.symm)] at hcl'
      exact hf m (List.mem_cons_of_mem _ hm) cl' hcl'

/-- A stage loop whose writes are all value no-ops except possibly at one
exceptional source name `e` (whose write target no processed name reads and
no other processed name writes): the frame is unchanged, or receives
exactly the single exceptional write. -/
theorem foldlM_applyStep_noop_except {g : String → String}
    {f : String → Col → Option Col} {e : String} :
    ∀ {L : List String} {d : Df},
    (∀ n ∈ L, n ≠ e → ∀ cl, dfFind d n = some cl →
      ∃ v, f n cl = some v ∧ dfFind d (g n) = some v) →
    (∀ cl, dfFind d e = some cl → (f e cl).isSome = true) →
    (∀ n ∈ L, n ≠ g e) →
    (∀ n ∈ L, n ≠ e → g n ≠ g e) →
    L.Nodup →
    ∃ r, L.foldlM (applyStep g f) d = some r ∧
      (r = d ∨ ∃ cl v, dfFind d e = some cl ∧ f e cl = some v ∧
        r = dfSet d (g e) v) := by
  intro L
  induction L with
  | nil => intro d _ _ _ _ _; exact ⟨d, rfl, Or.inl rfl⟩
  | cons n T ih =>
    intro d hfix hee hraw hinj hN
    rw [List.nodup_cons] at hN
    rw [List.foldlM_cons]
    unfold applyStep
    by_cases hne : n = e
    · subst hne
      cases hcl : dfFind d n with
      | none =>
        dsimp only
        have hrest : T.foldlM (applyStep g f) d = some d :=
          foldlM_applyStep_noop (fun m hm cl hm' =>
            hfix m (List.mem_cons_of_mem _ hm)
              (fun he => hN.1 (he ▸ hm)) cl hm')
        exact ⟨d, hrest, Or.inl rfl⟩
      | some cl =>
        obtain ⟨v, hv⟩ := Option.isSome_iff_exists.mp (hee cl hcl)
        dsimp only
        rw [hv]
        simp only [Option.map_some', Option.some_bind]
        have hrest : T.foldlM (applyStep g f) (dfSet d (g n) v) =
            some (dfSet d (g n) v) := by
          apply foldlM_applyStep_noop
          intro m hm cl' hm'
          have hmne : m ≠ n := fun he => hN.1 (he ▸ hm)
          rw [dfFind_dfSet_ne d (g n) m v
            (fun hh => (hraw m (List.mem_cons_of_mem _ hm)) hh)] at hm'
          obtain ⟨w, hw, hgw⟩ := hfix m (List.mem_cons_of_mem _ hm) hmne cl' hm'
          refine ⟨w, hw, ?_⟩
          rw [dfFind_dfSet_ne d (g n) (g m) v
            (fun hh => (hinj m (List.mem_cons_of_mem _ hm) hmne) hh)]
          exact hgw
        exact ⟨dfSet d (g n) v, hrest, Or.inr ⟨cl, v, rfl, hv, rfl⟩⟩
    · cases hcl : dfFind d n with
      | none =>
        dsimp only
        exact ih (fun m hm => hfix m (List.mem_cons_of_mem _ hm)) hee
          (fun m hm => hraw m (List.mem_cons_of_mem _ hm))
          (fun m hm => hinj m (List.mem_cons_of_mem _ hm)) hN.2
      | some cl =>
        obtain ⟨v, hv, hgv⟩ := hfix n (List.mem_cons_self n T) hne cl hcl
        dsimp only
        rw [hv]
        simp only [Option.map_some', Option.some_bind]
        rw [dfSet_eq_self d (g n) v hgv]
        exact ih (fun m hm => hfix m (List.mem_cons_of_mem _ hm)) hee
          (fun m hm => hraw m (List.mem_cons_of_mem _ hm))
          (fun m hm => hinj m (List.mem_cons_of_mem _ hm)) hN.2

/-! ### Idempotence and totality of the cell-level clip maps -/

theorem clipTempCell_idem {c c' : Cell} (h : clipTempCell c = some c') :
    clipTempCell c' = some c' := by
  cases c with
  | na =>
    simp only [clipTempCell] at h
    rw [← Option.some_injective _ h]
    rfl
  | num q =>
    simp only [clipTempCell] at h
    by_cases hq : 25 ≤ q ∧ q ≤ 45
    · rw [if_pos hq] at h
      rw [← Option.some_injective _ h]
      simp only [clipTempCell]
      rw [if_pos hq]
    · rw [if_neg hq] at h
      rw [← Option.some_injective _ h]
      rfl
  | int n =>
    simp only [clipTempCell] at h
    by_cases hq : 25 ≤ n ∧ n ≤ 45
    · rw [if_pos hq] at h
      rw [← Option.some_injective _ h]
      simp only [clipTempCell]
      rw [if_pos hq]
    · rw [if_neg hq] at h
      rw [← Option.some_injective _ h]
      rfl
  | bool b =>
    simp only [clipTempCell] at h
    rw [← Option.some_injective _ h]
    rfl
  | str s => exact absurd h (by simp [clipTempCell])
  | date y m d => exact absurd h (by simp [clipTempCell])

theorem clipRangeCell_idem {c c' : Cell} (h : clipRangeCell c = some c') :
    clipRangeCell c' = some c' := by
  cases c with
  | na =>
    simp only [clipRangeCell] at h
    rw [← Option.some_injective _ h]
    rfl
  | num q =>
    simp only [clipRangeCell] at h
    by_cases hq : 0 ≤ q ∧ q ≤ 100
    · rw [if_pos hq] at h
      rw [← Option.some_injective _ h]
      simp only [clipRangeCell]
      rw [if_pos hq]
    · rw [if_neg hq] at h
      rw [← Option.some_injective _ h]
      rfl
  | int n =>
    simp only [clipRangeCell] at h
    by_cases hq : 0 ≤ n ∧ n ≤ 100
    · rw [if_pos hq] at h
      rw [← Option.some_injective _ h]
      simp only [clipRangeCell]
      rw [if_pos hq]
    · rw [if_neg hq] at h
      rw [← Option.some_injective _ h]
      rfl
  | bool b =>
    simp only [clipRangeCell] at h
    rw [← Option.some_injective _ h]
    rfl
  | str s => exact absurd h (by simp [clipRangeCell])
  | date y m d => exact absurd h (by simp [clipRangeCell])

theorem clipTempCell_coerce (k : String) (c : Cell) :
    (clipTempCell (coerceCell k c)).isSome = true := by
  unfold coerceCell
  cases extractClinicalValues (pyStr c) k with
  | none => rfl
  | some q => rfl

theorem clipRangeCell_coerce (k : String) (c : Cell) :
    (clipRangeCell (coerceCell k c)).isSome = true := by
  unfold coerceCell
  cases extractClinicalValues (pyStr c) k with
  | none => rfl
  | some q => rfl

theorem mapM_some_of_forall {φ : Cell → Option Cell} :
    ∀ {l : Col}, (∀ a ∈ l, (φ a).isSome = true) → ∃ w, l.mapM φ = some w := by
  intro l
  induction l with
  | nil => intro _; exact ⟨[], rfl⟩
  | cons a t ih =>
    intro h
    obtain ⟨b, hb⟩ := Option.isSome_iff_exists.mp (h a (List.mem_cons_self a t))
    obtain ⟨w, hw⟩ := ih (fun x hx => h x (List.mem_cons_of_mem _ hx))
    exact ⟨b :: w, by rw [List.mapM_cons, hb, hw]; rfl⟩

/-- A cell map that fixes its outputs is idempotent on `mapM`. -/
theorem mapM_clip_idem {φ : Cell → Option Cell}
    (hφ : ∀ a b, φ a = some b → φ b = some b) :
    ∀ {l w : Col}, l.mapM φ = some w → w.mapM φ = some w := by
  intro l
  induction l with
  | nil =>
    intro w h
    rw [show ([] : Col).mapM φ = some [] from rfl] at h
    rw [← Option.some_injective _ h]
    rfl
  | cons a t ih =>
    intro w h
    rw [List.mapM_cons] at h
    cases ha : φ a with
    | none => rw [ha] at h; exact absurd h (by simp)
    | some b =>
      rw [ha] at h
      cases ht : t.mapM φ with
      | none => rw [ht] at h; exact absurd h (by simp)
      | some ws =>
        rw [ht] at h
        have h' : some (b :: ws) = some w := h
        rw [← Option.some_injective _ h']
        rw [List.mapM_cons, hφ a b ha, ih ht]
        rfl

theorem fillnaCell_idem (a b : Cell) :
    fillnaCell (fillnaCell a b) b = fillnaCell a b := by
  cases a <;> cases b <;> rfl

theorem zipFill_idem : ∀ (a b : Col), zipFill (zipFill a b) b = zipFill a b := by
  intro a
  induction a with
  | nil => intro b; rfl
  | cons x t ih =>
    intro b
    cases b with
    | nil => rfl
    | cons y s =>
      show fillnaCell (fillnaCell x y) y :: zipFill (zipFill t s) s
        = fillnaCell x y :: zipFill t s
      rw [fillnaCell_idem, ih]

/-! ### Per-stage characterizations of a pipeline run, and the no-op lemmas
for a second run on an already-cleaned frame -/

/-- `_remap_ethnicity` succeeds exactly when `Ethnicity` is present; each
dtype branch's outcome. -/
theorem remapEthnicity_cases {m : EthMap} {d : Df} {p : EthMap × Df}
    (h : remapEthnicity m d = some p) :
    ∃ col, dfFind d "Ethnicity" = some col ∧ p.1 = ethUpdatedMap m col ∧
      ((colHasStrDtype col = true ∧
        p.2 = dfSet d "ethnicity"
          (col.map (ethReplaceCell (ethUpdatedMap m col)))) ∨
       (colHasStrDtype col = false ∧ p.2 = d)) := by
  unfold remapEthnicity at h
  cases hc : dfFind d "Ethnicity" with
  | none => rw [hc] at h; exact absurd h (by simp)
  | some col =>
    rw [hc] at h
    dsimp only at h
    refine ⟨col, rfl, ?_⟩
    cases hd : colHasStrDtype col with
    | true =>
      rw [hd, if_pos rfl] at h
      have hp := (Option.some_injective _ h).symm
      exact ⟨by rw [hp], Or.inl ⟨rfl, by rw [hp]⟩⟩
    | false =>
      rw [hd, if_neg Bool.false_ne_true] at h
      have hp := (Option.some_injective _ h).symm
      exact ⟨by rw [hp], Or.inr ⟨rfl, by rw [hp]⟩⟩

theorem remapSex_cases {d d' : Df} (h : remapSex d = some d') :
    ∃ col, dfFind d "Sex" = some col ∧
      ((colHasStrDtype col = true ∧ d' = dfSet d "sex" (col.map sexCell)) ∨
       (colHasStrDtype col = false ∧ d' = d)) := by
  unfold remapSex at h
  cases hc : dfFind d "Sex" with
  | none => rw [hc] at h; exact absurd h (by simp)
  | some col =>
    rw [hc] at h
    dsimp only at h
    refine ⟨col, rfl, ?_⟩
    cases hd : colHasStrDtype col with
    | true =>
      rw [hd, if_pos rfl] at h
      exact Or.inl ⟨rfl, (Option.some_injective _ h).symm⟩
    | false =>
      rw [hd, if_neg Bool.false_ne_true] at h
      exact Or.inr ⟨rfl, (Option.some_injective _ h).symm⟩

/-- Second-run `_remap_ethnicity`: with the map already extended by the same
column and the cleaned `ethnicity` column already in place, the stage
rewrites the same values and leaves the frame unchanged. -/
theorem remapEthnicity_noop {m0 m1 : EthMap} {H : Df} {ecol : Col}
    (hE : dfFind H "Ethnicity" = some ecol)
    (hm : m1 = ethUpdatedMap m0 ecol)
    (hval : colHasStrDtype ecol = true →
      dfFind H "ethnicity" = some (ecol.map (ethReplaceCell m1))) :
    remapEthnicity m1 H = some (ethUpdatedMap m1 ecol, H) := by
  unfold remapEthnicity
  rw [hE]
  dsimp only
  cases hd : colHasStrDtype ecol with
  | false => rw [if_neg Bool.false_ne_true]
  | true =>
    rw [if_pos rfl]
    have hmap : ecol.map (ethReplaceCell (ethUpdatedMap m1 ecol)) =
        ecol.map (ethReplaceCell m1) := by
      apply List.map_congr_left
      intro c hc
      rw [hm]
      exact ethReplaceCell_stable m0 ecol ecol c hc
    rw [hmap, dfSet_eq_self H "ethnicity" _ (hval hd)]

/-- Second-run `_remap_sex` leaves an already-cleaned frame unchanged. -/
theorem remapSex_noop {H : Df} {scol : Col}
    (hS : dfFind H "Sex" = some scol)
    (hval : colHasStrDtype scol = true →
      dfFind H "sex" = some (scol.map sexCell)) :
    remapSex H = some H := by
  unfold remapSex
  rw [hS]
  dsimp only
  cases hd : colHasStrDtype scol with
  | false => rw [if_neg Bool.false_ne_true]
  | true => rw [if_pos rfl, dfSet_eq_self H "sex" _ (hval hd)]

/-- Lookup elsewhere after an optional-write step (`if col in df` guarding a
single map-write). -/
theorem dfFind_optSet_ne (d0 : Df) (raw tgt : String) (φ : Cell → Cell)
    {x : String} (hne : x ≠ tgt) :
    dfFind (match dfFind d0 raw with
      | some cl => dfSet d0 tgt (cl.map φ)
      | none => d0) x = dfFind d0 x := by
  cases h0 : dfFind d0 raw with
  | some cl =>
    dsimp only
    exact dfFind_dfSet_ne d0 tgt x _ hne
  | none => rfl

/-- Lookup at the target of an optional-write step whose source is present. -/
theorem dfFind_optSet_self (d0 : Df) (raw tgt : String) (φ : Cell → Cell)
    {rc : Col} (hr : dfFind d0 raw = some rc) :
    dfFind (match dfFind d0 raw with
      | some cl => dfSet d0 tgt (cl.map φ)
      | none => d0) tgt = some (rc.map φ) := by
  rw [hr]
  exact dfFind_dfSet_self d0 tgt _

/-- An optional-write step with an absent source is the identity. -/
theorem optSet_of_none (d0 : Df) (raw tgt : String) (φ : Cell → Cell)
    (hr : dfFind d0 raw = none) :
    (match dfFind d0 raw with
      | some cl => dfSet d0 tgt (cl.map φ)
      | none => d0) = d0 := by
  rw [hr]

/-- The cleaned names of the clinical columns are pairwise injective. -/
theorem clinInj : ∀ m ∈ clinicalColumns, ∀ n ∈ clinicalColumns,
    cleanName m = cleanName n → m = n := by decide

/-- No clinical-column write hits a raw clinical read. -/
theorem clinSep : ∀ m ∈ clinicalColumns, ∀ n ∈ clinicalColumns,
    cleanName m ≠ n := by decide

theorem clinNodup : clinicalColumns.Nodup := by decide

theorem clinNotSpecial : ∀ m ∈ clinicalColumns, cleanName m ≠ "systolic_bp" ∧
    cleanName m ≠ "diastolic_bp" ∧ cleanName m ≠ "age" := by decide

/-- `_coerce_numeric_columns` never fails. -/
theorem coerce_total (d : Df) : ∃ d', coerceNumericColumns d = some d' := by
  obtain ⟨e, he⟩ := @foldlM_applyStep_total_of_total cleanName
    (fun _ cl => some (cl.map (coerceCell "single"))) (fun _ _ => rfl)
    (clinicalColumns.filter (dfContains d)) d
  unfold coerceNumericColumns applyCols
  rw [he]
  simp only [Option.some_bind]
  exact ⟨_, rfl⟩

/-- `_coerce_numeric_columns` leaves any column it does not write alone. -/
theorem coerce_frame {d d' : Df} (h : coerceNumericColumns d = some d')
    {x : String} (hx1 : ∀ c ∈ clinicalColumns, cleanName c ≠ x)
    (hx2 : x ≠ "systolic_bp") (hx3 : x ≠ "diastolic_bp") (hx4 : x ≠ "age") :
    dfFind d' x = dfFind d x := by
  unfold coerceNumericColumns at h
  cases happ : applyCols clinicalColumns cleanName
      (fun _ cl => some (cl.map (coerceCell "single"))) d with
  | none => rw [happ] at h; exact absurd h (by simp)
  | some e =>
    rw [happ] at h
    simp only [Option.some_bind] at h
    have hd' := (Option.some_injective _ h).symm
    have hloop : dfFind e x = dfFind d x := by
      unfold applyCols at happ
      exact foldlM_applyStep_frame happ (fun n hn =>
        hx1 n (List.mem_of_mem_filter hn))
    rw [hd', dfFind_optSet_ne _ "Age" "age" ageCell hx4,
      dfFind_optSet_ne _ "Diastolic BP" "diastolic_bp" (coerceCell "diastolic") hx3,
      dfFind_optSet_ne _ "Systolic BP" "systolic_bp" (coerceCell "systolic") hx2]
    exact hloop

/-- The coerced value of a present clinical column. -/
theorem coerce_clin {d d' : Df} (h : coerceNumericColumns d = some d')
    {c : String} {rc : Col} (hc : c ∈ clinicalColumns)
    (hr : dfFind d c = some rc) :
    dfFind d' (cleanName c) = some (rc.map (coerceCell "single")) := by
  unfold coerceNumericColumns at h
  cases happ : applyCols clinicalColumns cleanName
      (fun _ cl => some (cl.map (coerceCell "single"))) d with
  | none => rw [happ] at h; exact absurd h (by simp)
  | some e =>
    rw [happ] at h
    simp only [Option.some_bind] at h
    have hd' := (Option.some_injective _ h).symm
    unfold applyCols at happ
    have hcmem : c ∈ clinicalColumns.filter (dfContains d) :=
      List.mem_filter.mpr ⟨hc, by unfold dfContains; rw [hr]; rfl⟩
    have hwrite : dfFind e (cleanName c) = some (rc.map (coerceCell "single")) :=
      foldlM_applyStep_write happ (fun n _ => rfl)
        (fun m hm n hn _ =>
          clinSep m (List.mem_of_mem_filter hm) n (List.mem_of_mem_filter hn))
        hcmem
        (fun m hm he => clinInj m (List.mem_of_mem_filter hm) c hc he)
        (clinNodup.filter _) hr rfl
    have hns := clinNotSpecial c hc
    rw [hd', dfFind_optSet_ne _ "Age" "age" ageCell hns.2.2,
      dfFind_optSet_ne _ "Diastolic BP" "diastolic_bp" (coerceCell "diastolic")
        hns.2.1,
      dfFind_optSet_ne _ "Systolic BP" "systolic_bp" (coerceCell "systolic")
        hns.1]
    exact hwrite

/-- An absent clinical column's target is untouched. -/
theorem coerce_clin_absent {d d' : Df} (h : coerceNumericColumns d = some d')
    {c : String} (hc : c ∈ clinicalColumns) (hr : dfFind d c = none) :
    dfFind d' (cleanName c) = dfFind d (cleanName c) := by
  unfold coerceNumericColumns at h
  cases happ : applyCols clinicalColumns cleanName
      (fun _ cl => some (cl.map (coerceCell "single"))) d with
  | none => rw [happ] at h; exact absurd h (by simp)
  | some e =>
    rw [happ] at h
    simp only [Option.some_bind] at h
    have hd' := (Option.some_injective _ h).symm
    unfold applyCols at happ
    have hloop : dfFind e (cleanName c) = dfFind d (cleanName c) := by
      refine foldlM_applyStep_frame happ (fun n hn hEq => ?_)
      have hpres := (List.mem_filter.mp hn).2
      have hnc : n = c := clinInj n (List.mem_of_mem_filter hn) c hc hEq
      rw [hnc] at hpres
      unfold dfContains at hpres
      rw [hr] at hpres
      exact absurd hpres (by simp)
    have hns := clinNotSpecial c hc
    rw [hd', dfFind_optSet_ne _ "Age" "age" ageCell hns.2.2,
      dfFind_optSet_ne _ "Diastolic BP" "diastolic_bp" (coerceCell "diastolic")
        hns.2.1,
      dfFind_optSet_ne _ "Systolic BP" "systolic_bp" (coerceCell "systolic")
        hns.1]
    exact hloop

theorem clinNotRaw : ∀ m ∈ clinicalColumns, cleanName m ≠ "Systolic BP" ∧
    cleanName m ≠ "Diastolic BP" ∧ cleanName m ≠ "Age" := by decide

/-- The systolic write of `_coerce_numeric_columns`. -/
theorem coerce_sys {d d' : Df} (h : coerceNumericColumns d = some d') :
    (∀ rc, dfFind d "Systolic BP" = some rc →
      dfFind d' "systolic_bp" = some (rc.map (coerceCell "systolic"))) ∧
    (dfFind d "Systolic BP" = none →
      dfFind d' "systolic_bp" = dfFind d "systolic_bp") := by
  unfold coerceNumericColumns at h
  cases happ : applyCols clinicalColumns cleanName
      (fun _ cl => some (cl.map (coerceCell "single"))) d with
  | none => rw [happ] at h; exact absurd h (by simp)
  | some e =>
    rw [happ] at h
    simp only [Option.some_bind] at h
    have hd' := (Option.some_injective _ h).symm
    unfold applyCols at happ
    have hrawe : dfFind e "Systolic BP" = dfFind d "Systolic BP" :=
      foldlM_applyStep_frame happ (fun n hn =>
        (clinNotRaw n (List.mem_of_mem_filter hn)).1)
    have hsbe : dfFind e "systolic_bp" = dfFind d "systolic_bp" :=
      foldlM_applyStep_frame happ (fun n hn =>
        (clinNotSpecial n (List.mem_of_mem_filter hn)).1)
    constructor
    · intro rc hrc
      rw [hd', dfFind_optSet_ne _ "Age" "age" ageCell (by decide),
        dfFind_optSet_ne _ "Diastolic BP" "diastolic_bp" (coerceCell "diastolic")
          (by decide)]
      exact dfFind_optSet_self e "Systolic BP" "systolic_bp"
        (coerceCell "systolic") (hrawe.trans hrc)
    · intro hrc
      rw [hd', dfFind_optSet_ne _ "Age" "age" ageCell (by decide),
        dfFind_optSet_ne _ "Diastolic BP" "diastolic_bp" (coerceCell "diastolic")
          (by decide),
        optSet_of_none e "Systolic BP" "systolic_bp" (coerceCell "systolic")
          (hrawe.trans hrc)]
      exact hsbe

/-- The diastolic write of `_coerce_numeric_columns`. -/
theorem coerce_dia {d d' : Df} (h : coerceNumericColumns d = some d') :
    (∀ rc, dfFind d "Diastolic BP" = some rc →
      dfFind d' "diastolic_bp" = some (rc.map (coerceCell "diastolic"))) ∧
    (dfFind d "Diastolic BP" = none →
      dfFind d' "diastolic_bp" = dfFind d "diastolic_bp") := by
  unfold coerceNumericColumns at h
  cases happ : applyCols clinicalColumns cleanName
      (fun _ cl => some (cl.map (coerceCell "single"))) d with
  | none => rw [happ] at h; exact absurd h (by simp)
  | some e =>
    rw [happ] at h
    simp only [Option.some_bind] at h
    have hd' := (Option.some_injective _ h).symm
    unfold applyCols at happ
    have hrawe : dfFind e "Diastolic BP" = dfFind d "Diastolic BP" :=
      foldlM_applyStep_frame happ (fun n hn =>
        (clinNotRaw n (List.mem_of_mem_filter hn)).2.1)
    have hdbe : dfFind e "diastolic_bp" = dfFind d "diastolic_bp" :=
      foldlM_applyStep_frame happ (fun n hn =>
        (clinNotSpecial n (List.mem_of_mem_filter hn)).2.1)
    have hm1raw : dfFind (match dfFind e "Systolic BP" with
        | some cl => dfSet e "systolic_bp" (cl.map (coerceCell "systolic"))
        | none => e) "Diastolic BP" = dfFind d "Diastolic BP" := by
      rw [dfFind_optSet_ne e "Systolic BP" "systolic_bp" (coerceCell "systolic")
        (by decide)]
      exact hrawe
    have hm1db : dfFind (match dfFind e "Systolic BP" with
        | some cl => dfSet e "systolic_bp" (cl.map (coerceCell "systolic"))
        | none => e) "diastolic_bp" = dfFind d "diastolic_bp" := by
      rw [dfFind_optSet_ne e "Systolic BP" "systolic_bp" (coerceCell "systolic")
        (by decide)]
      exact hdbe
    constructor
    · intro rc hrc
      rw [hd', dfFind_optSet_ne _ "Age" "age" ageCell (by decide)]
      exact dfFind_optSet_self _ "Diastolic BP" "diastolic_bp"
        (coerceCell "diastolic") (hm1raw.trans hrc)
    · intro hrc
      rw [hd', dfFind_optSet_ne _ "Age" "age" ageCell (by decide),
        optSet_of_none _ "Diastolic BP" "diastolic_bp" (coerceCell "diastolic")
          (hm1raw.trans hrc)]
      exact hm1db

/-- The age write of `_coerce_numeric_columns`. -/
theorem coerce_age {d d' : Df} (h : coerceNumericColumns d = some d') :
    (∀ rc, dfFind d "Age" = some rc →
      dfFind d' "age" = some (rc.map ageCell)) ∧
    (dfFind d "Age" = none → dfFind d' "age" = dfFind d "age") := by
  unfold coerceNumericColumns at h
  cases happ : applyCols clinicalColumns cleanName
      (fun _ cl => some (cl.map (coerceCell "single"))) d with
  | none => rw [happ] at h; exact absurd h (by simp)
  | some e =>
    rw [happ] at h
    simp only [Option.some_bind] at h
    have hd' := (Option.some_injective _ h).symm
    unfold applyCols at happ
    have hrawe : dfFind e "Age" = dfFind d "Age" :=
      foldlM_applyStep_frame happ (fun n hn =>
        (clinNotRaw n (List.mem_of_mem_filter hn)).2.2)
    have hagee : dfFind e "age" = dfFind d "age" :=
      foldlM_applyStep_frame happ (fun n hn =>
        (clinNotSpecial n (List.mem_of_mem_filter hn)).2.2)
    have hm2raw : dfFind (match dfFind (match dfFind e "Systolic BP" with
        | some cl => dfSet e "systolic_bp" (cl.map (coerceCell "systolic"))
        | none => e) "Diastolic BP" with
        | some cl => dfSet (match dfFind e "Systolic BP" with
            | some cl => dfSet e "systolic_bp" (cl.map (coerceCell "systolic"))
            | none => e) "diastolic_bp" (cl.map (coerceCell "diastolic"))
        | none => (match dfFind e "Systolic BP" with
            | some cl => dfSet e "systolic_bp" (cl.map (coerceCell "systolic"))
            | none => e)) "Age" = dfFind d "Age" := by
      rw [dfFind_optSet_ne _ "Diastolic BP" "diastolic_bp"
          (coerceCell "diastolic") (by decide),
        dfFind_optSet_ne e "Systolic BP" "systolic_bp" (coerceCell "systolic")
          (by decide)]
      exact hrawe
    have hm2age : dfFind (match dfFind (match dfFind e "Systolic BP" with
        | some cl => dfSet e "systolic_bp" (cl.map (coerceCell "systolic"))
        | none => e) "Diastolic BP" with
        | some cl => dfSet (match dfFind e "Systolic BP" with
            | some cl => dfSet e "systolic_bp" (cl.map (coerceCell "systolic"))
            | none => e) "diastolic_bp" (cl.map (coerceCell "diastolic"))
        | none => (match dfFind e "Systolic BP" with
            | some cl => dfSet e "systolic_bp" (cl.map (coerceCell "systolic"))
            | none => e)) "age" = dfFind d "age" := by
      rw [dfFind_optSet_ne _ "Diastolic BP" "diastolic_bp"
          (coerceCell "diastolic") (by decide),
        dfFind_optSet_ne e "Systolic BP" "systolic_bp" (coerceCell "systolic")
          (by decide)]
      exact hagee
    constructor
    · intro rc hrc
      rw [hd']
      exact dfFind_optSet_self _ "Age" "age" ageCell (hm2raw.trans hrc)
    · intro hrc
      rw [hd', optSet_of_none _ "Age" "age" ageCell (hm2raw.trans hrc)]
      exact hm2age

/-- Loop success implies the transform succeeded on every processed present
column. -/
theorem foldlM_applyStep_success {g : String → String}
    {f : String → Col → Option Col} {d₀ : Df} :
    ∀ {L : List String} {d d' : Df},
    L.foldlM (applyStep g f) d = some d' →
    (∀ n ∈ L, dfFind d n = dfFind d₀ n) →
    (∀ m ∈ L, ∀ n ∈ L, m ≠ n → g m ≠ n) →
    L.Nodup →
    ∀ n₀ ∈ L, ∀ cl, dfFind d₀ n₀ = some cl → (f n₀ cl).isSome = true := by
  intro L
  induction L with
  | nil => intro d d' _ _ _ _ n₀ hn; exact absurd hn (by simp)
  | cons n T ih =>
    intro d d' h hinv hsep hN n₀ hn cl hcl
    rw [List.nodup_cons] at hN
    rw [List.foldlM_cons] at h
    unfold applyStep at h
    rcases List.mem_cons.mp hn with rfl | hmem
    · rw [hinv n₀ (List.mem_cons_self n₀ T), hcl] at h
      dsimp only at h
      cases hf : f n₀ cl with
      | none => rw [hf] at h; exact absurd h (by simp)
      | some v => rfl
    · cases hdn : dfFind d n with
      | none =>
        rw [hdn] at h
        dsimp only at h
        exact ih h (fun m hm => hinv m (List.mem_cons_of_mem n hm))
          (fun m hm k hk hmk => hsep m (List.mem_cons_of_mem n hm) k
            (List.mem_cons_of_mem n hk) hmk)
          hN.2 n₀ hmem cl hcl
      | some cl' =>
        rw [hdn] at h
        dsimp only at h
        cases hf : f n cl' with
        | none => rw [hf] at h; exact absurd h (by simp)
        | some v =>
          rw [hf] at h
          simp only [Option.map_some', Option.some_bind] at h
          refine ih h (fun m hm => ?_)
            (fun m hm k hk hmk => hsep m (List.mem_cons_of_mem n hm) k
              (List.mem_cons_of_mem n hk) hmk)
            hN.2 n₀ hmem cl hcl
          rw [dfFind_dfSet_ne d (g n) m v
            (fun hh => hsep n (List.mem_cons_self n T) m
              (List.mem_cons_of_mem n hm) (fun he => hN.1 (he ▸ hm)) hh.symm)]
          exact hinv m (List.mem_cons_of_mem n hm)

theorem cols100Nodup : cols100range.Nodup := by decide

theorem cols100NotTemp : ∀ c ∈ cols100range,
    c ≠ "temperature_on_admission" := by decide

/-- `_clip_numeric_values` leaves any column it does not write alone. -/
theorem clip_frame {d d' : Df} (h : clipNumericValues d = some d')
    {x : String} (hx1 : x ≠ "temperature_on_admission")
    (hx2 : x ∉ cols100range) :
    dfFind d' x = dfFind d x := by
  unfold clipNumericValues at h
  cases htemp : dfFind d "temperature_on_admission" with
  | none =>
    rw [htemp] at h
    dsimp only at h
    unfold applyCols at h
    exact foldlM_applyStep_frame h (fun n hn he =>
      hx2 ((show n = x from he) ▸ List.mem_of_mem_filter hn))
  | some cl =>
    rw [htemp] at h
    dsimp only at h
    cases hmap : cl.mapM clipTempCell with
    | none => rw [hmap] at h; exact absurd h (by simp)
    | some w =>
      rw [hmap] at h
      simp only [Option.map_some', Option.some_bind] at h
      unfold applyCols at h
      rw [foldlM_applyStep_frame h (fun n hn he =>
        hx2 ((show n = x from he) ▸ List.mem_of_mem_filter hn))]
      exact dfFind_dfSet_ne d _ x w hx1

/-- The clipped value of a present `temperature_on_admission` column. -/
theorem clip_temp_present {d d' : Df} (h : clipNumericValues d = some d')
    {cl : Col} (htemp : dfFind d "temperature_on_admission" = some cl) :
    ∃ w, cl.mapM clipTempCell = some w ∧
      dfFind d' "temperature_on_admission" = some w := by
  unfold clipNumericValues at h
  rw [htemp] at h
  dsimp only at h
  cases hmap : cl.mapM clipTempCell with
  | none => rw [hmap] at h; exact absurd h (by simp)
  | some w =>
    rw [hmap] at h
    simp only [Option.map_some', Option.some_bind] at h
    unfold applyCols at h
    refine ⟨w, rfl, ?_⟩
    rw [foldlM_applyStep_frame h (fun n hn he =>
      (cols100NotTemp n (List.mem_of_mem_filter hn)) he)]
    exact dfFind_dfSet_self d _ w

theorem clip_temp_absent {d d' : Df} (h : clipNumericValues d = some d')
    (htemp : dfFind d "temperature_on_admission" = none) :
    dfFind d' "temperature_on_admission" = none := by
  unfold clipNumericValues at h
  rw [htemp] at h
  dsimp only at h
  unfold applyCols at h
  rw [foldlM_applyStep_frame h (fun n hn he =>
    (cols100NotTemp n (List.mem_of_mem_filter hn)) he)]
  exact htemp

/-- The 0-100 clip loop's effect on one of its present columns. -/
theorem clip_range_loop {e0 d' : Df} {c : String} {cl : Col}
    (hloop : (cols100range.filter (dfContains e0)).foldlM
      (applyStep id (fun _ cl => cl.mapM clipRangeCell)) e0 = some d')
    (hc : c ∈ cols100range) (he0c : dfFind e0 c = some cl) :
    ∃ w, cl.mapM clipRangeCell = some w ∧ dfFind d' c = some w := by
  have hmem : c ∈ cols100range.filter (dfContains e0) :=
    List.mem_filter.mpr ⟨hc, by unfold dfContains; rw [he0c]; rfl⟩
  have hsucc := @foldlM_applyStep_success id
    (fun _ cl => cl.mapM clipRangeCell) e0 _ e0 d' hloop (fun n _ => rfl)
    (fun m _ n _ hmn => hmn) (cols100Nodup.filter _) c hmem cl he0c
  obtain ⟨w, hw⟩ := Option.isSome_iff_exists.mp hsucc
  refine ⟨w, hw, ?_⟩
  exact foldlM_applyStep_write hloop (fun n _ => rfl)
    (fun m _ n _ hmn => hmn) hmem (fun m _ he => he)
    (cols100Nodup.filter _) he0c hw

/-- The clipped value of a present 0-100-range column. -/
theorem clip_range_present {d d' : Df} (h : clipNumericValues d = some d')
    {c : String} {cl : Col} (hc : c ∈ cols100range)
    (hr : dfFind d c = some cl) :
    ∃ w, cl.mapM clipRangeCell = some w ∧ dfFind d' c = some w := by
  unfold clipNumericValues at h
  cases htemp : dfFind d "temperature_on_admission" with
  | none =>
    rw [htemp] at h
    dsimp only at h
    unfold applyCols at h
    exact clip_range_loop h hc hr
  | some tcl =>
    rw [htemp] at h
    dsimp only at h
    cases hmap : tcl.mapM clipTempCell with
    | none => rw [hmap] at h; exact absurd h (by simp)
    | some w0 =>
      rw [hmap] at h
      simp only [Option.map_some', Option.some_bind] at h
      unfold applyCols at h
      refine clip_range_loop h hc ?_
      rw [dfFind_dfSet_ne d _ c w0 (cols100NotTemp c hc)]
      exact hr

/-- An absent 0-100-range column stays absent. -/
theorem clip_range_absent {d d' : Df} (h : clipNumericValues d = some d')
    {c : String} (hc : c ∈ cols100range) (hr : dfFind d c = none) :
    dfFind d' c = none := by
  unfold clipNumericValues at h
  have hct := cols100NotTemp c hc
  cases htemp : dfFind d "temperature_on_admission" with
  | none =>
    rw [htemp] at h
    dsimp only at h
    unfold applyCols at h
    have hcfun : ∀ n ∈ cols100range.filter (dfContains d), ¬(id n = c) := by
      intro n hn he
      have hpres := (List.mem_filter.mp hn).2
      rw [show n = c from he] at hpres
      unfold dfContains at hpres
      rw [hr] at hpres
      exact absurd hpres (by simp)
    rw [foldlM_applyStep_frame h hcfun]
    exact hr
  | some tcl =>
    rw [htemp] at h
    dsimp only at h
    cases hmap : tcl.mapM clipTempCell with
    | none => rw [hmap] at h; exact absurd h (by simp)
    | some w0 =>
      rw [hmap] at h
      simp only [Option.map_some', Option.some_bind] at h
      unfold applyCols at h
      have he0 : dfFind (dfSet d "temperature_on_admission" w0) c = none := by
        rw [dfFind_dfSet_ne d _ c w0 hct]; exact hr
      have hcfun : ∀ n ∈ cols100range.filter
          (dfContains (dfSet d "temperature_on_admission" w0)), ¬(id n = c) := by
        intro n hn he
        have hpres := (List.mem_filter.mp hn).2
        rw [show n = c from he] at hpres
        unfold dfContains at hpres
        rw [he0] at hpres
        exact absurd hpres (by simp)
      rw [foldlM_applyStep_frame h hcfun]
      exact he0

/-- `_clip_numeric_values` succeeds when the cell-level clips succeed on the
present target columns. -/
theorem clip_total_of {d : Df}
    (h1 : ∀ cl, dfFind d "temperature_on_admission" = some cl →
      (cl.mapM clipTempCell).isSome = true)
    (h2 : ∀ c ∈ cols100range, ∀ cl, dfFind d c = some cl →
      (cl.mapM clipRangeCell).isSome = true) :
    ∃ d', clipNumericValues d = some d' := by
  unfold clipNumericValues
  cases htemp : dfFind d "temperature_on_admission" with
  | none =>
    dsimp only
    unfold applyCols
    exact foldlM_applyStep_total (fun m _ n _ he => he) (cols100Nodup.filter _)
      (fun n hn cl hcl => h2 n (List.mem_of_mem_filter hn) cl hcl)
  | some cl =>
    obtain ⟨w, hw⟩ := Option.isSome_iff_exists.mp (h1 cl htemp)
    dsimp only
    rw [hw]
    simp only [Option.map_some', Option.some_bind]
    unfold applyCols
    refine foldlM_applyStep_total (fun m _ n _ he => he)
      (cols100Nodup.filter _) ?_
    intro n hn cl' hcl'
    have hn' := List.mem_of_mem_filter hn
    rw [dfFind_dfSet_ne d _ n w (cols100NotTemp n hn')] at hcl'
    exact h2 n hn' cl' hcl'

theorem mapM_clipTemp_coerce (rc : Col) :
    ∃ w, (rc.map (coerceCell "single")).mapM clipTempCell = some w :=
  mapM_some_of_forall (fun a ha => by
    obtain ⟨b, _, rfl⟩ := List.mem_map.mp ha
    exact clipTempCell_coerce "single" b)

theorem mapM_clipRange_coerce (rc : Col) :
    ∃ w, (rc.map (coerceCell "single")).mapM clipRangeCell = some w :=
  mapM_some_of_forall (fun a ha => by
    obtain ⟨b, _, rfl⟩ := List.mem_map.mp ha
    exact clipRangeCell_coerce "single" b)

/-- One coerce-then-clip column pair of the second run: the final lookup
equals the already-cleaned frame's. -/
theorem clip_pair {D X Y : Df} {raw tgt : String} {φclip : Cell → Option Cell}
    (hXp : ∀ rc, dfFind D raw = some rc →
      dfFind X tgt = some (rc.map (coerceCell "single")))
    (hXa : dfFind D raw = none → dfFind X tgt = dfFind D tgt)
    (hYp : ∀ cl, dfFind X tgt = some cl →
      ∃ w, cl.mapM φclip = some w ∧ dfFind Y tgt = some w)
    (hYa : dfFind X tgt = none → dfFind Y tgt = none)
    (hB : ∀ rc, dfFind D raw = some rc →
      ∃ w, (rc.map (coerceCell "single")).mapM φclip = some w ∧
        dfFind D tgt = some w)
    (hC : dfFind D raw = none → ∀ cl, dfFind D tgt = some cl →
      cl.mapM φclip = some cl) :
    dfFind Y tgt = dfFind D tgt := by
  cases hraw : dfFind D raw with
  | some rc =>
    have hXt := hXp rc hraw
    obtain ⟨w, hw, hYt⟩ := hYp _ hXt
    obtain ⟨w', hw', hDt⟩ := hB rc hraw
    rw [hw] at hw'
    rw [hYt, hDt]
    exact congrArg some (Option.some_injective _ hw')
  | none =>
    have hXt := hXa hraw
    cases hDt : dfFind D tgt with
    | none => rw [hYa (hXt.trans hDt)]
    | some cl =>
      obtain ⟨w, hw, hYt⟩ := hYp cl (hXt.trans hDt)
      have hfix := hC hraw cl hDt
      rw [hfix] at hw
      rw [hYt]
      exact congrArg some (Option.some_injective _ hw).symm

/-- The second run's `_coerce_numeric_columns` followed by
`_clip_numeric_values` restores every lookup of the already-cleaned
frame. -/
theorem coerce_clip_second {D : Df}
    (hA : ∀ c ∈ clinicalColumns,
      cleanName c ≠ "temperature_on_admission" → cleanName c ∉ cols100range →
      ∀ rc, dfFind D c = some rc →
        dfFind D (cleanName c) = some (rc.map (coerceCell "single")))
    (hBt : ∀ rc, dfFind D "Temperature on admission" = some rc →
      ∃ w, (rc.map (coerceCell "single")).mapM clipTempCell = some w ∧
        dfFind D "temperature_on_admission" = some w)
    (hCt : dfFind D "Temperature on admission" = none →
      ∀ cl, dfFind D "temperature_on_admission" = some cl →
        cl.mapM clipTempCell = some cl)
    (hBf : ∀ rc, dfFind D "Fibrinogen  if d-dimer not performed" = some rc →
      ∃ w, (rc.map (coerceCell "single")).mapM clipRangeCell = some w ∧
        dfFind D "fibrinogen__if_d-dimer_not_performed" = some w)
    (hCf : dfFind D "Fibrinogen  if d-dimer not performed" = none →
      ∀ cl, dfFind D "fibrinogen__if_d-dimer_not_performed" = some cl →
        cl.mapM clipRangeCell = some cl)
    (hBu : ∀ rc, dfFind D "Urea on admission" = some rc →
      ∃ w, (rc.map (coerceCell "single")).mapM clipRangeCell = some w ∧
        dfFind D "urea_on_admission" = some w)
    (hCu : dfFind D "Urea on admission" = none →
      ∀ cl, dfFind D "urea_on_admission" = some cl →
        cl.mapM clipRangeCell = some cl)
    (hBo : ∀ rc, dfFind D "O2 saturation" = some rc →
      ∃ w, (rc.map (coerceCell "single")).mapM clipRangeCell = some w ∧
        dfFind D "o2_saturation" = some w)
    (hCo : dfFind D "O2 saturation" = none →
      ∀ cl, dfFind D "o2_saturation" = some cl →
        cl.mapM clipRangeCell = some cl)
    (hDs : ∀ rc, dfFind D "Systolic BP" = some rc →
      dfFind D "systolic_bp" = some (rc.map (coerceCell "systolic")))
    (hDd : ∀ rc, dfFind D "Diastolic BP" = some rc →
      dfFind D "diastolic_bp" = some (rc.map (coerceCell "diastolic")))
    (hDa : ∀ rc, dfFind D "Age" = some rc →
      dfFind D "age" = some (rc.map ageCell)) :
    ∃ X Y, coerceNumericColumns D = some X ∧ clipNumericValues X = some Y ∧
      ∀ x, dfFind Y x = dfFind D x := by
  obtain ⟨X, hX⟩ := coerce_total D
  have hXtp : ∀ rc, dfFind D "Temperature on admission" = some rc →
      dfFind X "temperature_on_admission" =
        some (rc.map (coerceCell "single")) :=
    fun rc hrc => coerce_clin hX (by decide) hrc
  have hXta : dfFind D "Temperature on admission" = none →
      dfFind X "temperature_on_admission" =
        dfFind D "temperature_on_admission" :=
    fun hrc => coerce_clin_absent hX (by decide) hrc
  have hXfp : ∀ rc, dfFind D "Fibrinogen  if d-dimer not performed" = some rc →
      dfFind X "fibrinogen__if_d-dimer_not_performed" =
        some (rc.map (coerceCell "single")) :=
    fun rc hrc => coerce_clin hX (by decide) hrc
  have hXfa : dfFind D "Fibrinogen  if d-dimer not performed" = none →
      dfFind X "fibrinogen__if_d-dimer_not_performed" =
        dfFind D "fibrinogen__if_d-dimer_not_performed" :=
    fun hrc => coerce_clin_absent hX (by decide) hrc
  have hXup : ∀ rc, dfFind D "Urea on admission" = some rc →
      dfFind X "urea_on_admission" = some (rc.map (coerceCell "single")) :=
    fun rc hrc => coerce_clin hX (by decide) hrc
  have hXua : dfFind D "Urea on admission" = none →
      dfFind X "urea_on_admission" = dfFind D "urea_on_admission" :=
    fun hrc => coerce_clin_absent hX (by decide) hrc
  have hXop : ∀ rc, dfFind D "O2 saturation" = some rc →
      dfFind X "o2_saturation" = some (rc.map (coerceCell "single")) :=
    fun rc hrc => coerce_clin hX (by decide) hrc
  have hXoa : dfFind D "O2 saturation" = none →
      dfFind X "o2_saturation" = dfFind D "o2_saturation" :=
    fun hrc => coerce_clin_absent hX (by decide) hrc
  have hclip1 : ∀ cl, dfFind X "temperature_on_admission" = some cl →
      (cl.mapM clipTempCell).isSome = true := by
    intro cl hcl
    cases hraw : dfFind D "Temperature on admission" with
    | some rc =>
      rw [hXtp rc hraw] at hcl
      obtain ⟨w, hw⟩ := mapM_clipTemp_coerce rc
      rw [← Option.some_injective _ hcl, hw]
      rfl
    | none =>
      rw [hXta hraw] at hcl
      rw [hCt hraw cl hcl]
      rfl
  have hclip2 : ∀ c ∈ cols100range, ∀ cl, dfFind X c = some cl →
      (cl.mapM clipRangeCell).isSome = true := by
    intro c hc cl hcl
    have hc3 : c = "fibrinogen__if_d-dimer_not_performed" ∨
        c = "urea_on_admission" ∨ c = "o2_saturation" := by
      simpa [cols100range] using hc
    rcases hc3 with rfl | rfl | rfl
    · cases hraw : dfFind D "Fibrinogen  if d-dimer not performed" with
      | some rc =>
        rw [hXfp rc hraw] at hcl
        obtain ⟨w, hw⟩ := mapM_clipRange_coerce rc
        rw [← Option.some_injective _ hcl, hw]
        rfl
      | none =>
        rw [hXfa hraw] at hcl
        rw [hCf hraw cl hcl]
        rfl
    · cases hraw : dfFind D "Urea on admission" with
      | some rc =>
        rw [hXup rc hraw] at hcl
        obtain ⟨w, hw⟩ := mapM_clipRange_coerce rc
        rw [← Option.some_injective _ hcl, hw]
        rfl
      | none =>
        rw [hXua hraw] at hcl
        rw [hCu hraw cl hcl]
        rfl
    · cases hraw : dfFind D "O2 saturation" with
      | some rc =>
        rw [hXop rc hraw] at hcl
        obtain ⟨w, hw⟩ := mapM_clipRange_coerce rc
        rw [← Option.some_injective _ hcl, hw]
        rfl
      | none =>
        rw [hXoa hraw] at hcl
        rw [hCo hraw cl hcl]
        rfl
  obtain ⟨Y, hY⟩ := clip_total_of hclip1 hclip2
  refine ⟨X, Y, hX, hY, ?_⟩
  intro x
  by_cases hxt : x = "temperature_on_admission"
  · subst hxt
    exact clip_pair hXtp hXta (fun cl hcl => clip_temp_present hY hcl)
      (clip_temp_absent hY) hBt hCt
  by_cases hxf : x = "fibrinogen__if_d-dimer_not_performed"
  · subst hxf
    exact clip_pair hXfp hXfa
      (fun cl hcl => clip_range_present hY (by decide) hcl)
      (fun hn => clip_range_absent hY (by decide) hn) hBf hCf
  by_cases hxu : x = "urea_on_admission"
  · subst hxu
    exact clip_pair hXup hXua
      (fun cl hcl => clip_range_present hY (by decide) hcl)
      (fun hn => clip_range_absent hY (by decide) hn) hBu hCu
  by_cases hxo : x = "o2_saturation"
  · subst hxo
    exact clip_pair hXop hXoa
      (fun cl hcl => clip_range_present hY (by decide) hcl)
      (fun hn => clip_range_absent hY (by decide) hn) hBo hCo
  have hxnc : x ∉ cols100range := by
    intro hmem
    have h3 : x = "fibrinogen__if_d-dimer_not_performed" ∨
        x = "urea_on_admission" ∨ x = "o2_saturation" := by
      simpa [cols100range] using hmem
    rcases h3 with h | h | h
    exacts [hxf h, hxu h, hxo h]
  have hYX : dfFind Y x = dfFind X x := clip_frame hY hxt hxnc
  by_cases hclin : x ∈ clinicalColumns.map cleanName
  · obtain ⟨c, hc, rfl⟩ := List.mem_map.mp hclin
    cases hraw : dfFind D c with
    | some rc =>
      rw [hYX, coerce_clin hX hc hraw]
      exact (hA c hc hxt hxnc rc hraw).symm
    | none => rw [hYX, coerce_clin_absent hX hc hraw]
  by_cases hxs : x = "systolic_bp"
  · subst hxs
    cases hraw : dfFind D "Systolic BP" with
    | some rc => rw [hYX, (coerce_sys hX).1 rc hraw, hDs rc hraw]
    | none => rw [hYX]; exact (coerce_sys hX).2 hraw
  by_cases hxd : x = "diastolic_bp"
  · subst hxd
    cases hraw : dfFind D "Diastolic BP" with
    | some rc => rw [hYX, (coerce_dia hX).1 rc hraw, hDd rc hraw]
    | none => rw [hYX]; exact (coerce_dia hX).2 hraw
  by_cases hxa : x = "age"
  · subst hxa
    cases hraw : dfFind D "Age" with
    | some rc => rw [hYX, (coerce_age hX).1 rc hraw, hDa rc hraw]
    | none => rw [hYX]; exact (coerce_age hX).2 hraw
  have h1 : ∀ c ∈ clinicalColumns, cleanName c ≠ x :=
    fun c hc he => hclin (List.mem_map.mpr ⟨c, hc, he⟩)
  rw [hYX, coerce_frame hX h1 hxs hxd hxa]

theorem usNodup : usDateCols.Nodup := by decide

theorem usInj : ∀ m ∈ usDateCols, ∀ n ∈ usDateCols,
    cleanName m = cleanName n → m = n := by decide

theorem usSep : ∀ m ∈ usDateCols, ∀ n ∈ usDateCols, cleanName m ≠ n := by
  decide

theorem usNotSpecial : ∀ m ∈ usDateCols, cleanName m ≠ "swabdate" ∧
    cleanName m ≠ "latest_swab_date" ∧ cleanName m ≠ "SwabDate" := by decide

/-- `_parse_date_columns` leaves any column it does not write alone. -/
theorem dates_frame {d d' : Df} (h : parseDateColumns d = some d')
    {x : String} (hx1 : ∀ c ∈ usDateCols, cleanName c ≠ x)
    (hx2 : x ≠ "swabdate") (hx3 : x ≠ "latest_swab_date") :
    dfFind d' x = dfFind d x := by
  unfold parseDateColumns at h
  cases happ : applyCols usDateCols cleanName
      (fun _ cl => some (cl.map cleanUsDates)) d with
  | none => rw [happ] at h; exact absurd h (by simp)
  | some e =>
    rw [happ] at h
    replace h : (match dfFind e "SwabDate" with
      | none => none
      | some cl =>
        match dfFind (dfSet e "swabdate" (cl.map (toDatetimeCell true)))
            "date_of_positive_covid_swab" with
        | some us => Option.map
            (dfSet (dfSet e "swabdate" (cl.map (toDatetimeCell true)))
              "latest_swab_date")
            (zipWithE cellMax us (cl.map (toDatetimeCell true)))
        | none => some (dfSet e "swabdate" (cl.map (toDatetimeCell true)))) =
        some d' := h
    have hloop : dfFind e x = dfFind d x := by
      unfold applyCols at happ
      exact foldlM_applyStep_frame happ (fun n hn =>
        hx1 n (List.mem_of_mem_filter hn))
    cases hsw : dfFind e "SwabDate" with
    | none => rw [hsw] at h; exact absurd h (by simp)
    | some cl =>
      rw [hsw] at h
      dsimp only at h
      cases hus : dfFind (dfSet e "swabdate" (cl.map (toDatetimeCell true)))
          "date_of_positive_covid_swab" with
      | none =>
        rw [hus] at h
        have hd' := (Option.some_injective _ h).symm
        rw [hd', dfFind_dfSet_ne e _ x _ hx2]
        exact hloop
      | some us =>
        rw [hus] at h
        dsimp only at h
        cases hzip : zipWithE cellMax us (cl.map (toDatetimeCell true)) with
        | none => rw [hzip] at h; exact absurd h (by simp)
        | some lat =>
          rw [hzip] at h
          simp only [Option.map_some'] at h
          have hd' := (Option.some_injective _ h).symm
          rw [hd', dfFind_dfSet_ne _ _ x lat hx3, dfFind_dfSet_ne e _ x _ hx2]
          exact hloop

/-- The parsed value of a present US-format date column. -/
theorem dates_clean {d d' : Df} (h : parseDateColumns d = some d')
    {c : String} {rc : Col} (hc : c ∈ usDateCols) (hr : dfFind d c = some rc) :
    dfFind d' (cleanName c) = some (rc.map cleanUsDates) := by
  unfold parseDateColumns at h
  cases happ : applyCols usDateCols cleanName
      (fun _ cl => some (cl.map cleanUsDates)) d with
  | none => rw [happ] at h; exact absurd h (by simp)
  | some e =>
    rw [happ] at h
    replace h : (match dfFind e "SwabDate" with
      | none => none
      | some cl =>
        match dfFind (dfSet e "swabdate" (cl.map (toDatetimeCell true)))
            "date_of_positive_covid_swab" with
        | some us => Option.map
            (dfSet (dfSet e "swabdate" (cl.map (toDatetimeCell true)))
              "latest_swab_date")
            (zipWithE cellMax us (cl.map (toDatetimeCell true)))
        | none => some (dfSet e "swabdate" (cl.map (toDatetimeCell true)))) =
        some d' := h
    unfold applyCols at happ
    have hcmem : c ∈ usDateCols.filter (dfContains d) :=
      List.mem_filter.mpr ⟨hc, by unfold dfContains; rw [hr]; rfl⟩
    have hwrite : dfFind e (cleanName c) = some (rc.map cleanUsDates) :=
      foldlM_applyStep_write happ (fun n _ => rfl)
        (fun m hm n hn _ =>
          usSep m (List.mem_of_mem_filter hm) n (List.mem_of_mem_filter hn))
        hcmem
        (fun m hm he => usInj m (List.mem_of_mem_filter hm) c hc he)
        (usNodup.filter _) hr rfl
    have hns := usNotSpecial c hc
    cases hsw : dfFind e "SwabDate" with
    | none => rw [hsw] at h; exact absurd h (by simp)
    | some cl =>
      rw [hsw] at h
      dsimp only at h
      cases hus : dfFind (dfSet e "swabdate" (cl.map (toDatetimeCell true)))
          "date_of_positive_covid_swab" with
      | none =>
        rw [hus] at h
        have hd' := (Option.some_injective _ h).symm
        rw [hd', dfFind_dfSet_ne e _ _ _ hns.1]
        exact hwrite
      | some us =>
        rw [hus] at h
        dsimp only at h
        cases hzip : zipWithE cellMax us (cl.map (toDatetimeCell true)) with
        | none => rw [hzip] at h; exact absurd h (by simp)
        | some lat =>
          rw [hzip] at h
          simp only [Option.map_some'] at h
          have hd' := (Option.some_injective _ h).symm
          rw [hd', dfFind_dfSet_ne _ _ _ lat hns.2.1,
            dfFind_dfSet_ne e _ _ _ hns.1]
          exact hwrite

/-- `_parse_date_columns` requires `SwabDate` and parses it day-first. -/
theorem dates_swab {d d' : Df} (h : parseDateColumns d = some d') :
    ∃ rc, dfFind d "SwabDate" = some rc ∧
      dfFind d' "swabdate" = some (rc.map (toDatetimeCell true)) := by
  unfold parseDateColumns at h
  cases happ : applyCols usDateCols cleanName
      (fun _ cl => some (cl.map cleanUsDates)) d with
  | none => rw [happ] at h; exact absurd h (by simp)
  | some e =>
    rw [happ] at h
    replace h : (match dfFind e "SwabDate" with
      | none => none
      | some cl =>
        match dfFind (dfSet e "swabdate" (cl.map (toDatetimeCell true)))
            "date_of_positive_covid_swab" with
        | some us => Option.map
            (dfSet (dfSet e "swabdate" (cl.map (toDatetimeCell true)))
              "latest_swab_date")
            (zipWithE cellMax us (cl.map (toDatetimeCell true)))
        | none => some (dfSet e "swabdate" (cl.map (toDatetimeCell true)))) =
        some d' := h
    have hswraw : dfFind e "SwabDate" = dfFind d "SwabDate" := by
      unfold applyCols at happ
      exact foldlM_applyStep_frame happ (fun n hn =>
        (usNotSpecial n (List.mem_of_mem_filter hn)).2.2)
    cases hsw : dfFind e "SwabDate" with
    | none => rw [hsw] at h; exact absurd h (by simp)
    | some cl =>
      refine ⟨cl, hswraw.symm.trans hsw, ?_⟩
      rw [hsw] at h
      dsimp only at h
      cases hus : dfFind (dfSet e "swabdate" (cl.map (toDatetimeCell true)))
          "date_of_positive_covid_swab" with
      | none =>
        rw [hus] at h
        have hd' := (Option.some_injective _ h).symm
        rw [hd']
        exact dfFind_dfSet_self e _ _
      | some us =>
        rw [hus] at h
        dsimp only at h
        cases hzip : zipWithE cellMax us (cl.map (toDatetimeCell true)) with
        | none => rw [hzip] at h; exact absurd h (by simp)
        | some lat =>
          rw [hzip] at h
          simp only [Option.map_some'] at h
          have hd' := (Option.some_injective _ h).symm
          rw [hd', dfFind_dfSet_ne _ _ _ lat (by decide)]
          exact dfFind_dfSet_self e _ _

/-- The latest-swab-date merge of `_parse_date_columns`, phrased on the
output frame. -/
theorem dates_latest {d d' : Df} (h : parseDateColumns d = some d') :
    ∃ rc, dfFind d "SwabDate" = some rc ∧
      (match dfFind d' "date_of_positive_covid_swab" with
       | some us => ∃ lat,
           zipWithE cellMax us (rc.map (toDatetimeCell true)) = some lat ∧
           dfFind d' "latest_swab_date" = some lat
       | none =>
           dfFind d' "latest_swab_date" = dfFind d "latest_swab_date") := by
  unfold parseDateColumns at h
  cases happ : applyCols usDateCols cleanName
      (fun _ cl => some (cl.map cleanUsDates)) d with
  | none => rw [happ] at h; exact absurd h (by simp)
  | some e =>
    rw [happ] at h
    replace h : (match dfFind e "SwabDate" with
      | none => none
      | some cl =>
        match dfFind (dfSet e "swabdate" (cl.map (toDatetimeCell true)))
            "date_of_positive_covid_swab" with
        | some us => Option.map
            (dfSet (dfSet e "swabdate" (cl.map (toDatetimeCell true)))
              "latest_swab_date")
            (zipWithE cellMax us (cl.map (toDatetimeCell true)))
        | none => some (dfSet e "swabdate" (cl.map (toDatetimeCell true)))) =
        some d' := h
    unfold applyCols at happ
    have hswraw : dfFind e "SwabDate" = dfFind d "SwabDate" :=
      foldlM_applyStep_frame happ (fun n hn =>
        (usNotSpecial n (List.mem_of_mem_filter hn)).2.2)
    have hlatloop : dfFind e "latest_swab_date" = dfFind d "latest_swab_date" :=
      foldlM_applyStep_frame happ (fun n hn =>
        (usNotSpecial n (List.mem_of_mem_filter hn)).2.1)
    cases hsw : dfFind e "SwabDate" with
    | none => rw [hsw] at h; exact absurd h (by simp)
    | some cl =>
      refine ⟨cl, hswraw.symm.trans hsw, ?_⟩
      rw [hsw] at h
      dsimp only at h
      cases hus : dfFind (dfSet e "swabdate" (cl.map (toDatetimeCell true)))
          "date_of_positive_covid_swab" with
      | none =>
        rw [hus] at h
        have hd' := (Option.some_injective _ h).symm
        have hdus : dfFind d' "date_of_positive_covid_swab" = none := by
          rw [hd']
          exact hus
        rw [hdus]
        rw [hd', dfFind_dfSet_ne e _ _ _ (by decide)]
        exact hlatloop
      | some us =>
        rw [hus] at h
        dsimp only at h
        cases hzip : zipWithE cellMax us (cl.map (toDatetimeCell true)) with
        | none => rw [hzip] at h; exact absurd h (by simp)
        | some lat =>
          rw [hzip] at h
          simp only [Option.map_some'] at h
          have hd' := (Option.some_injective _ h).symm
          have hdus : dfFind d' "date_of_positive_covid_swab" = some us := by
            rw [hd', dfFind_dfSet_ne _ _ _ lat (by decide)]
            exact hus
          rw [hdus]
          exact ⟨lat, hzip, by rw [hd']; exact dfFind_dfSet_self _ _ _⟩

/-- Second-run `_parse_date_columns` leaves an already-cleaned frame
unchanged. -/
theorem dates_noop {H : Df}
    (ha : ∀ c ∈ usDateCols, ∀ rc, dfFind H c = some rc →
      dfFind H (cleanName c) = some (rc.map cleanUsDates))
    (hb : ∃ swraw, dfFind H "SwabDate" = some swraw ∧
      dfFind H "swabdate" = some (swraw.map (toDatetimeCell true)) ∧
      (match dfFind H "date_of_positive_covid_swab" with
       | some us => ∃ lat,
           zipWithE cellMax us (swraw.map (toDatetimeCell true)) = some lat ∧
           dfFind H "latest_swab_date" = some lat
       | none => True)) :
    parseDateColumns H = some H := by
  obtain ⟨swraw, hsw, hswv, hlat⟩ := hb
  unfold parseDateColumns applyCols
  rw [foldlM_applyStep_noop (fun n hn cl hcl =>
    ⟨cl.map cleanUsDates, rfl, ha n (List.mem_of_mem_filter hn) cl hcl⟩)]
  show (match dfFind H "SwabDate" with
    | none => none
    | some cl =>
      match dfFind (dfSet H "swabdate" (cl.map (toDatetimeCell true)))
          "date_of_positive_covid_swab" with
      | some us => Option.map
          (dfSet (dfSet H "swabdate" (cl.map (toDatetimeCell true)))
            "latest_swab_date")
          (zipWithE cellMax us (cl.map (toDatetimeCell true)))
      | none => some (dfSet H "swabdate" (cl.map (toDatetimeCell true)))) =
      some H
  rw [hsw]
  dsimp only
  rw [dfSet_eq_self H "swabdate" _ hswv]
  cases hus : dfFind H "date_of_positive_covid_swab" with
  | none => rfl
  | some us =>
    rw [hus] at hlat
    dsimp only at hlat
    obtain ⟨lat, hzip, hlatv⟩ := hlat
    dsimp only
    rw [hzip]
    simp only [Option.map_some']
    rw [dfSet_eq_self H "latest_swab_date" lat hlatv]

theorem binNodup : binaryColumns.Nodup := by decide

theorem binInj : ∀ m ∈ binaryColumns, ∀ n ∈ binaryColumns,
    cleanName m = cleanName n → m = n := by decide

theorem binSep : ∀ m ∈ binaryColumns, ∀ n ∈ binaryColumns,
    cleanName m ≠ n := by decide

theorem binNotRawMerge : ∀ m ∈ binaryColumns,
    cleanName m ≠ "PMH h1pertension" ∧
    cleanName m ≠ "PMH diabetes mellitus type II" ∧
    cleanName m ≠ "PMH diabetes mellitus TYPE II" := by decide

theorem binNotDiab : ∀ m ∈ binaryColumns,
    cleanName m ≠ "pmh_diabetes_mellitus_type_2" := by decide

theorem binRawNotPmh : ∀ n ∈ binaryColumns, n ≠ "pmh_hypertension" := by
  decide

/-- The diabetes-merge tail of `_parse_binary_columns`, decomposed. -/
theorem bin_diab_decomp {f d' : Df}
    (h : (match dfFind f "PMH diabetes mellitus type II" with
      | some d2 =>
        let df1 := dfSet f "pmh_diabetes_mellitus_type_2" d2
        let df2 := match dfFind df1 "PMH diabetes mellitus TYPE II" with
          | some dC =>
            match dfFind df1 "pmh_diabetes_mellitus_type_2" with
            | some cur =>
                dfSet df1 "pmh_diabetes_mellitus_type_2" (zipFill cur dC)
            | none => df1
          | none => df1
        match dfFind df2 "pmh_diabetes_mellitus_type_2" with
        | some cur =>
            some (dfSet df2 "pmh_diabetes_mellitus_type_2" (cur.map binMapCell))
        | none => some df2
      | none => some f) = some d') :
    (dfFind f "PMH diabetes mellitus type II" = none ∧ d' = f) ∨
    (∃ d2, dfFind f "PMH diabetes mellitus type II" = some d2 ∧
      ((dfFind f "PMH diabetes mellitus TYPE II" = none ∧
        d' = dfSet f "pmh_diabetes_mellitus_type_2" (d2.map binMapCell)) ∨
       (∃ dC, dfFind f "PMH diabetes mellitus TYPE II" = some dC ∧
        d' = dfSet f "pmh_diabetes_mellitus_type_2"
          ((zipFill d2 dC).map binMapCell)))) := by
  cases hd2 : dfFind f "PMH diabetes mellitus type II" with
  | none =>
    rw [hd2] at h
    exact Or.inl ⟨rfl, (Option.some_injective _ h).symm⟩
  | some d2 =>
    rw [hd2] at h
    dsimp only at h
    rw [dfFind_dfSet_ne f _ _ d2 (by decide)] at h
    cases hdC : dfFind f "PMH diabetes mellitus TYPE II" with
    | none =>
      rw [hdC] at h
      dsimp only at h
      rw [dfFind_dfSet_self f _ d2] at h
      dsimp only at h
      rw [dfSet_dfSet_same] at h
      exact Or.inr ⟨d2, rfl, Or.inl ⟨rfl, (Option.some_injective _ h).symm⟩⟩
    | some dC =>
      rw [hdC] at h
      dsimp only at h
      rw [dfFind_dfSet_self f _ d2] at h
      dsimp only at h
      rw [dfSet_dfSet_same, dfFind_dfSet_self f _ (zipFill d2 dC)] at h
      dsimp only at h
      rw [dfSet_dfSet_same] at h
      exact Or.inr ⟨d2, rfl, Or.inr ⟨dC, rfl, (Option.some_injective _ h).symm⟩⟩

/-- `_parse_binary_columns`, decomposed into its loop, hypertension merge
and diabetes merge. -/
theorem bin_decomp {d d' : Df} (h : parseBinaryColumns d = some d') :
    ∃ e f, applyCols binaryColumns cleanName
        (fun _ cl => some (cl.map binMapCell)) d = some e ∧
      ((dfFind e "PMH h1pertension" = none ∧ f = e) ∨
       (∃ h1 ph, dfFind e "PMH h1pertension" = some h1 ∧
         dfFind e "pmh_hypertension" = some ph ∧
         f = dfSet e "pmh_hypertension" (zipFill ph (h1.map h1Cell)))) ∧
      ((dfFind f "PMH diabetes mellitus type II" = none ∧ d' = f) ∨
       (∃ d2, dfFind f "PMH diabetes mellitus type II" = some d2 ∧
         ((dfFind f "PMH diabetes mellitus TYPE II" = none ∧
           d' = dfSet f "pmh_diabetes_mellitus_type_2" (d2.map binMapCell)) ∨
          (∃ dC, dfFind f "PMH diabetes mellitus TYPE II" = some dC ∧
           d' = dfSet f "pmh_diabetes_mellitus_type_2"
             ((zipFill d2 dC).map binMapCell))))) := by
  unfold parseBinaryColumns at h
  cases happ : applyCols binaryColumns cleanName
      (fun _ cl => some (cl.map binMapCell)) d with
  | none => rw [happ] at h; exact absurd h (by simp)
  | some e =>
    rw [happ] at h
    rw [Option.bind_eq_bind', Option.some_bind'] at h
    dsimp only at h
    cases hm1 : dfFind e "PMH h1pertension" with
    | none =>
      rw [hm1] at h
      dsimp only at h
      rw [Option.bind_eq_bind', Option.some_bind'] at h
      exact ⟨e, e, rfl, Or.inl ⟨hm1, rfl⟩, bin_diab_decomp h⟩
    | some h1 =>
      rw [hm1] at h
      dsimp only at h
      cases hph : dfFind e "pmh_hypertension" with
      | none => rw [hph] at h; dsimp only at h; exact absurd h (by simp)
      | some ph =>
        rw [hph] at h
        dsimp only at h
        rw [Option.bind_eq_bind', Option.some_bind'] at h
        exact ⟨e, dfSet e "pmh_hypertension" (zipFill ph (h1.map h1Cell)),
          rfl, Or.inr ⟨h1, ph, hm1, hph, rfl⟩, bin_diab_decomp h⟩

/-- `_parse_binary_columns` leaves any column it does not write alone. -/
theorem bin_frame {d d' : Df} (h : parseBinaryColumns d = some d')
    {x : String} (hx1 : ∀ c ∈ binaryColumns, cleanName c ≠ x)
    (hx3 : x ≠ "pmh_diabetes_mellitus_type_2") :
    dfFind d' x = dfFind d x := by
  obtain ⟨e, f, happ, hm, hd⟩ := bin_decomp h
  have hx2 : x ≠ "pmh_hypertension" := fun he =>
    hx1 "PMH hypertension" (by decide) he.symm
  have hef : dfFind e x = dfFind d x := by
    unfold applyCols at happ
    exact foldlM_applyStep_frame happ (fun n hn =>
      hx1 n (List.mem_of_mem_filter hn))
  have hfx : dfFind f x = dfFind e x := by
    rcases hm with ⟨_, rfl⟩ | ⟨h1, ph, _, _, rfl⟩
    · rfl
    · exact dfFind_dfSet_ne e _ x _ hx2
  have hdx : dfFind d' x = dfFind f x := by
    rcases hd with ⟨_, rfl⟩ | ⟨d2, _, hcase⟩
    · rfl
    · rcases hcase with ⟨_, rfl⟩ | ⟨dC, _, rfl⟩
      · exact dfFind_dfSet_ne f _ x _ hx3
      · exact dfFind_dfSet_ne f _ x _ hx3
  exact (hdx.trans hfx).trans hef

/-- The mapped value of a present binary column other than
`PMH hypertension`. -/
theorem bin_clean {d d' : Df} (h : parseBinaryColumns d = some d')
    {c : String} {rc : Col} (hc : c ∈ binaryColumns)
    (hne : c ≠ "PMH hypertension") (hr : dfFind d c = some rc) :
    dfFind d' (cleanName c) = some (rc.map binMapCell) := by
  obtain ⟨e, f, happ, hm, hd⟩ := bin_decomp h
  unfold applyCols at happ
  have hcmem : c ∈ binaryColumns.filter (dfContains d) :=
    List.mem_filter.mpr ⟨hc, by unfold dfContains; rw [hr]; rfl⟩
  have hwrite : dfFind e (cleanName c) = some (rc.map binMapCell) :=
    foldlM_applyStep_write happ (fun n _ => rfl)
      (fun m hm' n hn _ => binSep m (List.mem_of_mem_filter hm') n
        (List.mem_of_mem_filter hn))
      hcmem (fun m hm' he => binInj m (List.mem_of_mem_filter hm') c hc he)
      (binNodup.filter _) hr rfl
  have hnp : cleanName c ≠ "pmh_hypertension" := fun he =>
    hne (binInj c hc "PMH hypertension" (by decide) he)
  have hfx : dfFind f (cleanName c) = some (rc.map binMapCell) := by
    rcases hm with ⟨_, rfl⟩ | ⟨h1, ph, _, _, rfl⟩
    · exact hwrite
    · rw [dfFind_dfSet_ne e _ _ _ hnp]; exact hwrite
  have hnd := binNotDiab c hc
  rcases hd with ⟨_, rfl⟩ | ⟨d2, _, hcase⟩
  · exact hfx
  · rcases hcase with ⟨_, rfl⟩ | ⟨dC, _, rfl⟩
    · rw [dfFind_dfSet_ne f _ _ _ hnd]; exact hfx
    · rw [dfFind_dfSet_ne f _ _ _ hnd]; exact hfx

/-- The `pmh_hypertension` value after `_parse_binary_columns`, in the four
presence configurations of the raw columns. -/
theorem bin_hyp {d d' : Df} (h : parseBinaryColumns d = some d') :
    (dfFind d "PMH h1pertension" = none →
      (∀ rc, dfFind d "PMH hypertension" = some rc →
        dfFind d' "pmh_hypertension" = some (rc.map binMapCell)) ∧
      (dfFind d "PMH hypertension" = none →
        dfFind d' "pmh_hypertension" = dfFind d "pmh_hypertension")) ∧
    (∀ h1c, dfFind d "PMH h1pertension" = some h1c →
      (∀ rc, dfFind d "PMH hypertension" = some rc →
        dfFind d' "pmh_hypertension" =
          some (zipFill (rc.map binMapCell) (h1c.map h1Cell))) ∧
      (dfFind d "PMH hypertension" = none →
        ∃ cur, dfFind d "pmh_hypertension" = some cur ∧
          dfFind d' "pmh_hypertension" =
            some (zipFill cur (h1c.map h1Cell)))) := by
  obtain ⟨e, f, happ, hm, hd⟩ := bin_decomp h
  unfold applyCols at happ
  have hh1e : dfFind e "PMH h1pertension" = dfFind d "PMH h1pertension" :=
    foldlM_applyStep_frame happ (fun n hn =>
      (binNotRawMerge n (List.mem_of_mem_filter hn)).1)
  have hepmh_pres : ∀ rc, dfFind d "PMH hypertension" = some rc →
      dfFind e "pmh_hypertension" = some (rc.map binMapCell) := by
    intro rc hrc
    have hcmem : "PMH hypertension" ∈ binaryColumns.filter (dfContains d) :=
      List.mem_filter.mpr ⟨by decide, by unfold dfContains; rw [hrc]; rfl⟩
    exact foldlM_applyStep_write happ (fun n _ => rfl)
      (fun m hm' n hn _ => binSep m (List.mem_of_mem_filter hm') n
        (List.mem_of_mem_filter hn))
      hcmem
      (fun m hm' he =>
        binInj m (List.mem_of_mem_filter hm') "PMH hypertension" (by decide) he)
      (binNodup.filter _) hrc rfl
  have hepmh_abs : dfFind d "PMH hypertension" = none →
      dfFind e "pmh_hypertension" = dfFind d "pmh_hypertension" := by
    intro hrc
    refine foldlM_applyStep_frame happ (fun n hn hEq => ?_)
    have hpres := (List.mem_filter.mp hn).2
    have hn' : n = "PMH hypertension" :=
      binInj n (List.mem_of_mem_filter hn) "PMH hypertension" (by decide) hEq
    rw [hn'] at hpres
    unfold dfContains at hpres
    rw [hrc] at hpres
    exact absurd hpres (by simp)
  have hdiab : dfFind d' "pmh_hypertension" = dfFind f "pmh_hypertension" := by
    rcases hd with ⟨_, rfl⟩ | ⟨d2, _, hcase⟩
    · rfl
    · rcases hcase with ⟨_, rfl⟩ | ⟨dC, _, rfl⟩ <;>
        exact dfFind_dfSet_ne f _ _ _ (by decide)
  constructor
  · intro hh1
    have hfe : f = e := by
      rcases hm with ⟨_, rfl⟩ | ⟨h1, ph, hm1, _, _⟩
      · rfl
      · rw [hh1e, hh1] at hm1; exact absurd hm1 (by simp)
    subst hfe
    constructor
    · intro rc hrc; rw [hdiab]; exact hepmh_pres rc hrc
    · intro hrc; rw [hdiab]; exact hepmh_abs hrc
  · intro h1c hh1
    rcases hm with ⟨hm1, rfl⟩ | ⟨h1, ph, hm1, hph, rfl⟩
    · rw [hh1e, hh1] at hm1; exact absurd hm1 (by simp)
    · rw [hh1e, hh1] at hm1
      have hh1eq : h1c = h1 := Option.some_injective _ hm1
      subst hh1eq
      constructor
      · intro rc hrc
        have hphv := hepmh_pres rc hrc
        rw [hph] at hphv
        have hpheq : ph = rc.map binMapCell := Option.some_injective _ hphv
        rw [hdiab, dfFind_dfSet_self, hpheq]
      · intro hrc
        have hphv := hepmh_abs hrc
        refine ⟨ph, hphv.symm.trans hph, ?_⟩
        rw [hdiab, dfFind_dfSet_self]

/-- The `pmh_diabetes_mellitus_type_2` value after `_parse_binary_columns`. -/
theorem bin_diab_char {d d' : Df} (h : parseBinaryColumns d = some d') :
    (∀ d2, dfFind d "PMH diabetes mellitus type II" = some d2 →
      dfFind d' "pmh_diabetes_mellitus_type_2" =
        some ((match dfFind d "PMH diabetes mellitus TYPE II" with
               | some dC => zipFill d2 dC
               | none => d2).map binMapCell)) ∧
    (dfFind d "PMH diabetes mellitus type II" = none →
      dfFind d' "pmh_diabetes_mellitus_type_2" =
        dfFind d "pmh_diabetes_mellitus_type_2") := by
  obtain ⟨e, f, happ, hm, hd⟩ := bin_decomp h
  unfold applyCols at happ
  have ht2e : dfFind e "PMH diabetes mellitus type II" =
      dfFind d "PMH diabetes mellitus type II" :=
    foldlM_applyStep_frame happ (fun n hn =>
      (binNotRawMerge n (List.mem_of_mem_filter hn)).2.1)
  have hT2e : dfFind e "PMH diabetes mellitus TYPE II" =
      dfFind d "PMH diabetes mellitus TYPE II" :=
    foldlM_applyStep_frame happ (fun n hn =>
      (binNotRawMerge n (List.mem_of_mem_filter hn)).2.2)
  have hde : dfFind e "pmh_diabetes_mellitus_type_2" =
      dfFind d "pmh_diabetes_mellitus_type_2" :=
    foldlM_applyStep_frame happ (fun n hn =>
      binNotDiab n (List.mem_of_mem_filter hn))
  have ht2f : dfFind f "PMH diabetes mellitus type II" =
      dfFind d "PMH diabetes mellitus type II" := by
    rcases hm with ⟨_, rfl⟩ | ⟨h1, ph, _, _, rfl⟩
    · exact ht2e
    · rw [dfFind_dfSet_ne e _ _ _ (by decide)]; exact ht2e
  have hT2f : dfFind f "PMH diabetes mellitus TYPE II" =
      dfFind d "PMH diabetes mellitus TYPE II" := by
    rcases hm with ⟨_, rfl⟩ | ⟨h1, ph, _, _, rfl⟩
    · exact hT2e
    · rw [dfFind_dfSet_ne e _ _ _ (by decide)]; exact hT2e
  have hdf : dfFind f "pmh_diabetes_mellitus_type_2" =
      dfFind d "pmh_diabetes_mellitus_type_2" := by
    rcases hm with ⟨_, rfl⟩ | ⟨h1, ph, _, _, rfl⟩
    · exact hde
    · rw [dfFind_dfSet_ne e _ _ _ (by decide)]; exact hde
  constructor
  · intro d2 ht2
    rcases hd with ⟨ht2n, rfl⟩ | ⟨d2', ht2', hcase⟩
    · rw [ht2f, ht2] at ht2n; exact absurd ht2n (by simp)
    · have hd2eq : d2' = d2 := by
        rw [ht2f, ht2] at ht2'
        exact (Option.some_injective _ ht2').symm
      subst hd2eq
      rcases hcase with ⟨hT2n, rfl⟩ | ⟨dC, hT2s, rfl⟩
      · have hT2d : dfFind d "PMH diabetes mellitus TYPE II" = none :=
          hT2f.symm.trans hT2n
        rw [dfFind_dfSet_self, hT2d]
      · have hT2d : dfFind d "PMH diabetes mellitus TYPE II" = some dC :=
          hT2f.symm.trans hT2s
        rw [dfFind_dfSet_self, hT2d]
  · intro ht2
    rcases hd with ⟨_, rfl⟩ | ⟨d2, ht2', _⟩
    · exact hdf
    · rw [ht2f, ht2] at ht2'; exact absurd ht2' (by simp)

/-- The diabetes-merge tail is a no-op on an already-cleaned frame. -/
theorem bin_diab_noop {H : Df}
    (hc : ∀ d2, dfFind H "PMH diabetes mellitus type II" = some d2 →
      dfFind H "pmh_diabetes_mellitus_type_2" =
        some ((match dfFind H "PMH diabetes mellitus TYPE II" with
               | some dC => zipFill d2 dC | none => d2).map binMapCell)) :
    (match dfFind H "PMH diabetes mellitus type II" with
      | some d2 =>
        let df1 := dfSet H "pmh_diabetes_mellitus_type_2" d2
        let df2 := match dfFind df1 "PMH diabetes mellitus TYPE II" with
          | some dC =>
            match dfFind df1 "pmh_diabetes_mellitus_type_2" with
            | some cur =>
                dfSet df1 "pmh_diabetes_mellitus_type_2" (zipFill cur dC)
            | none => df1
          | none => df1
        match dfFind df2 "pmh_diabetes_mellitus_type_2" with
        | some cur =>
            some (dfSet df2 "pmh_diabetes_mellitus_type_2" (cur.map binMapCell))
        | none => some df2
      | none => some H) = some H := by
  cases ht2 : dfFind H "PMH diabetes mellitus type II" with
  | none => rfl
  | some d2 =>
    have hcv := hc d2 ht2
    dsimp only
    rw [dfFind_dfSet_ne H _ _ d2 (by decide)]
    cases hT2 : dfFind H "PMH diabetes mellitus TYPE II" with
    | none =>
      rw [hT2] at hcv
      dsimp only at hcv
      dsimp only
      rw [dfFind_dfSet_self H _ d2]
      dsimp only
      rw [dfSet_dfSet_same, dfSet_eq_self H _ _ hcv]
    | some dC =>
      rw [hT2] at hcv
      dsimp only at hcv
      dsimp only
      rw [dfFind_dfSet_self H _ d2]
      dsimp only
      rw [dfSet_dfSet_same, dfFind_dfSet_self H _ (zipFill d2 dC)]
      dsimp only
      rw [dfSet_dfSet_same, dfSet_eq_self H _ _ hcv]

/-- Second-run `_parse_binary_columns` leaves an already-cleaned frame
unchanged. -/
theorem bin_noop {H : Df}
    (ha : ∀ c ∈ binaryColumns, c ≠ "PMH hypertension" → ∀ rc,
      dfFind H c = some rc → dfFind H (cleanName c) = some (rc.map binMapCell))
    (hb1 : dfFind H "PMH h1pertension" = none →
      ∀ rc, dfFind H "PMH hypertension" = some rc →
        dfFind H "pmh_hypertension" = some (rc.map binMapCell))
    (hb2 : ∀ h1c, dfFind H "PMH h1pertension" = some h1c →
      (∀ rc, dfFind H "PMH hypertension" = some rc →
        dfFind H "pmh_hypertension" =
          some (zipFill (rc.map binMapCell) (h1c.map h1Cell))) ∧
      (dfFind H "PMH hypertension" = none →
        ∃ cur, dfFind H "pmh_hypertension" = some cur ∧
          zipFill cur (h1c.map h1Cell) = cur))
    (hc : ∀ d2, dfFind H "PMH diabetes mellitus type II" = some d2 →
      dfFind H "pmh_diabetes_mellitus_type_2" =
        some ((match dfFind H "PMH diabetes mellitus TYPE II" with
               | some dC => zipFill d2 dC | none => d2).map binMapCell)) :
    parseBinaryColumns H = some H := by
  unfold parseBinaryColumns applyCols
  cases hh1 : dfFind H "PMH h1pertension" with
  | none =>
    have hloop : (binaryColumns.filter (dfContains H)).foldlM
        (applyStep cleanName (fun _ cl => some (cl.map binMapCell))) H =
          some H := by
      refine foldlM_applyStep_noop (fun n hn cl hcl =>
        ⟨cl.map binMapCell, rfl, ?_⟩)
      by_cases hnp : n = "PMH hypertension"
      · subst hnp
        exact hb1 hh1 cl hcl
      · exact ha n (List.mem_of_mem_filter hn) hnp cl hcl
    rw [hloop, Option.bind_eq_bind', Option.some_bind']
    dsimp only
    rw [hh1]
    dsimp only
    rw [Option.bind_eq_bind', Option.some_bind']
    exact bin_diab_noop hc
  | some h1c =>
    obtain ⟨hbp, hba⟩ := hb2 h1c hh1
    obtain ⟨r, hloop, hr⟩ := @foldlM_applyStep_noop_except cleanName
      (fun _ cl => some (cl.map binMapCell)) "PMH hypertension"
      (binaryColumns.filter (dfContains H)) H
      (fun n hn hne cl hcl => ⟨cl.map binMapCell, rfl,
        ha n (List.mem_of_mem_filter hn) hne cl hcl⟩)
      (fun cl _ => rfl)
      (fun n hn => binRawNotPmh n (List.mem_of_mem_filter hn))
      (fun n hn hne he => hne (binInj n (List.mem_of_mem_filter hn)
        "PMH hypertension" (by decide) he))
      (binNodup.filter _)
    rw [hloop, Option.bind_eq_bind', Option.some_bind']
    dsimp only
    have hrh1 : dfFind r "PMH h1pertension" = some h1c := by
      rcases hr with rfl | ⟨cl, v, hcl, hv, rfl⟩
      · exact hh1
      · rw [dfFind_dfSet_ne H _ _ v (by decide)]; exact hh1
    rw [hrh1]
    dsimp only
    rcases hr with hre0 | ⟨cl, v, hcl, hv, hre⟩
    · rw [hre0]
      cases hph : dfFind H "PMH hypertension" with
      | some rc =>
        have hcur := hbp rc hph
        rw [hcur]
        dsimp only
        rw [zipFill_idem, dfSet_eq_self H _ _ hcur,
          Option.bind_eq_bind', Option.some_bind']
        exact bin_diab_noop hc
      | none =>
        obtain ⟨cur, hcur, hfix⟩ := hba hph
        rw [hcur]
        dsimp only
        rw [hfix, dfSet_eq_self H _ _ hcur,
          Option.bind_eq_bind', Option.some_bind']
        exact bin_diab_noop hc
    · have hveq : cl.map binMapCell = v := Option.some_injective _ hv
      subst hveq
      rw [show (cleanName "PMH hypertension") = "pmh_hypertension" from rfl]
        at hre
      subst hre
      rw [dfFind_dfSet_self]
      dsimp only
      rw [dfSet_dfSet_same, dfSet_eq_self H _ _ (hbp cl hcl),
        Option.bind_eq_bind', Option.some_bind']
      exact bin_diab_noop hc

theorem schemaKeysNodup : (schemaValues.map Prod.fst).Nodup := by decide

theorem schemaInj : ∀ m ∈ schemaValues.map Prod.fst,
    ∀ n ∈ schemaValues.map Prod.fst, cleanName m = cleanName n → m = n := by
  decide

theorem schemaSep : ∀ m ∈ schemaValues.map Prod.fst,
    ∀ n ∈ schemaValues.map Prod.fst, cleanName m ≠ n := by decide

theorem schemaKeysNotPack : ∀ m ∈ schemaValues.map Prod.fst,
    m ≠ "pack_year_history" ∧ cleanName m ≠ "pack_year_history" := by decide

theorem schemaKeysNotCs3 : ∀ m ∈ schemaValues.map Prod.fst,
    m ≠ "cxr_severity_3" := by decide

/-- `_parse_cat_columns` leaves any column it does not write alone. -/
theorem cat_frame {d d' : Df} (h : parseCatColumns d = some d')
    {x : String} (hx1 : x ≠ "pack_year_history")
    (hx2 : ∀ p ∈ schemaValues, cleanName p.1 ≠ x) :
    dfFind d' x = dfFind d x := by
  unfold parseCatColumns at h
  have hloopframe : ∀ e0 : Df, ((schemaValues.map Prod.fst).filter
        (dfContains e0)).foldlM (applyStep cleanName
        (fun n cl => some (cl.map (schemaCell (schemaLookup n))))) e0 =
        some d' → dfFind d' x = dfFind e0 x := by
    intro e0 hl
    refine foldlM_applyStep_frame hl (fun n hn he => ?_)
    obtain ⟨p, hp, hpe⟩ := List.mem_map.mp (List.mem_of_mem_filter hn)
    exact hx2 p hp (by rw [hpe]; exact he)
  cases hpack : dfFind d "Pack year history" with
  | none =>
    rw [hpack] at h
    simp only [Option.bind_eq_bind', Option.some_bind'] at h
    unfold applyCols at h
    exact hloopframe d h
  | some cl =>
    rw [hpack] at h
    simp only [Option.bind_eq_bind', Option.some_bind'] at h
    cases hdt : colHasStrDtype cl with
    | false =>
      rw [hdt, if_neg Bool.false_ne_true] at h
      exact absurd h (by simp)
    | true =>
      rw [hdt, if_pos rfl] at h
      unfold applyCols at h
      rw [hloopframe _ h]
      exact dfFind_dfSet_ne d _ x _ hx1

/-- The pack-year write of `_parse_cat_columns`. -/
theorem cat_pack {d d' : Df} (h : parseCatColumns d = some d') :
    (∀ cl, dfFind d "Pack year history" = some cl →
      colHasStrDtype cl = true ∧
      dfFind d' "pack_year_history" = some (cl.map extractDigitsCell)) ∧
    (dfFind d "Pack year history" = none →
      dfFind d' "pack_year_history" = dfFind d "pack_year_history") := by
  unfold parseCatColumns at h
  have hloopframe : ∀ e0 : Df, ((schemaValues.map Prod.fst).filter
        (dfContains e0)).foldlM (applyStep cleanName
        (fun n cl => some (cl.map (schemaCell (schemaLookup n))))) e0 =
        some d' → dfFind d' "pack_year_history" =
          dfFind e0 "pack_year_history" := by
    intro e0 hl
    exact foldlM_applyStep_frame hl (fun n hn =>
      (schemaKeysNotPack n (List.mem_of_mem_filter hn)).2)
  cases hpack : dfFind d "Pack year history" with
  | none =>
    rw [hpack] at h
    simp only [Option.bind_eq_bind', Option.some_bind'] at h
    unfold applyCols at h
    exact ⟨fun cl hcl => absurd hcl (by simp), fun _ => hloopframe d h⟩
  | some cl =>
    rw [hpack] at h
    simp only [Option.bind_eq_bind', Option.some_bind'] at h
    cases hdt : colHasStrDtype cl with
    | false =>
      rw [hdt, if_neg Bool.false_ne_true] at h
      exact absurd h (by simp)
    | true =>
      rw [hdt, if_pos rfl] at h
      unfold applyCols at h
      refine ⟨fun cl' hcl' => ?_, fun hn => absurd hn (by simp)⟩
      have hcleq : cl' = cl := (Option.some_injective _ hcl').symm
      subst hcleq
      refine ⟨hdt, ?_⟩
      rw [hloopframe _ h]
      exact dfFind_dfSet_self d _ _

/-- The schema-mapped value of a present category column. -/
theorem cat_schema {d d' : Df} (h : parseCatColumns d = some d')
    {p : String × List String} (hp : p ∈ schemaValues) {rc : Col}
    (hr : dfFind d p.1 = some rc) :
    dfFind d' (cleanName p.1) =
      some (rc.map (schemaCell (schemaLookup p.1))) := by
  unfold parseCatColumns at h
  have hkey : p.1 ∈ schemaValues.map Prod.fst := List.mem_map.mpr ⟨p, hp, rfl⟩
  have hloopwrite : ∀ e0 : Df, dfFind e0 p.1 = some rc →
      ((schemaValues.map Prod.fst).filter (dfContains e0)).foldlM
        (applyStep cleanName
        (fun n cl => some (cl.map (schemaCell (schemaLookup n))))) e0 =
        some d' →
      dfFind d' (cleanName p.1) =
        some (rc.map (schemaCell (schemaLookup p.1))) := by
    intro e0 he0 hl
    have hcmem : p.1 ∈ (schemaValues.map Prod.fst).filter (dfContains e0) :=
      List.mem_filter.mpr ⟨hkey, by unfold dfContains; rw [he0]; rfl⟩
    exact foldlM_applyStep_write hl (fun n _ => rfl)
      (fun m hm' n hn _ => schemaSep m (List.mem_of_mem_filter hm') n
        (List.mem_of_mem_filter hn))
      hcmem
      (fun m hm' he => schemaInj m (List.mem_of_mem_filter hm') p.1 hkey he)
      (schemaKeysNodup.filter _) he0 rfl
  cases hpack : dfFind d "Pack year history" with
  | none =>
    rw [hpack] at h
    simp only [Option.bind_eq_bind', Option.some_bind'] at h
    unfold applyCols at h
    exact hloopwrite d hr h
  | some cl =>
    rw [hpack] at h
    simp only [Option.bind_eq_bind', Option.some_bind'] at h
    cases hdt : colHasStrDtype cl with
    | false =>
      rw [hdt, if_neg Bool.false_ne_true] at h
      exact absurd h (by simp)
    | true =>
      rw [hdt, if_pos rfl] at h
      unfold applyCols at h
      refine hloopwrite _ ?_ h
      rw [dfFind_dfSet_ne d _ _ _ (schemaKeysNotPack p.1 hkey).1]
      exact hr

/-- Second-run `_parse_cat_columns` leaves an already-cleaned frame
unchanged, except for possibly re-appending a fresh `cxr_severity_3`
column (its old incarnation was renamed away by `_fix_headers`). -/
theorem cat_noop_or_append {H : Df}
    (ha : ∀ cl, dfFind H "Pack year history" = some cl →
      colHasStrDtype cl = true ∧
      dfFind H "pack_year_history" = some (cl.map extractDigitsCell))
    (hb : ∀ p ∈ schemaValues, p.1 ≠ "CXR severity 3" → ∀ rc,
      dfFind H p.1 = some rc →
      dfFind H (cleanName p.1) =
        some (rc.map (schemaCell (schemaLookup p.1))))
    (hcs : dfFind H "cxr_severity_3" = none) :
    ∃ r, parseCatColumns H = some r ∧
      (r = H ∨ ∃ v, r = H ++ [("cxr_severity_3", v)]) := by
  have hs : ∃ r, ((schemaValues.map Prod.fst).filter (dfContains H)).foldlM
      (applyStep cleanName
        (fun n cl => some (cl.map (schemaCell (schemaLookup n))))) H =
        some r ∧
      (r = H ∨ ∃ v, r = H ++ [("cxr_severity_3", v)]) := by
    obtain ⟨r, hloop, hr⟩ := @foldlM_applyStep_noop_except cleanName
      (fun n cl => some (cl.map (schemaCell (schemaLookup n))))
      "CXR severity 3"
      ((schemaValues.map Prod.fst).filter (dfContains H)) H
      (fun n hn hne cl hcl => by
        obtain ⟨p, hp, hpe⟩ := List.mem_map.mp (List.mem_of_mem_filter hn)
        refine ⟨cl.map (schemaCell (schemaLookup n)), rfl, ?_⟩
        rw [← hpe]
        exact hb p hp (fun hq => hne (hpe ▸ hq)) cl (hpe.symm ▸ hcl))
      (fun cl _ => rfl)
      (fun n hn => schemaKeysNotCs3 n (List.mem_of_mem_filter hn))
      (fun n hn hne he => hne (schemaInj n (List.mem_of_mem_filter hn)
        "CXR severity 3" (by decide) he))
      (schemaKeysNodup.filter _)
    refine ⟨r, hloop, ?_⟩
    rcases hr with hre | ⟨cl', v, hcl', hv, hre⟩
    · exact Or.inl hre
    · refine Or.inr ⟨v, ?_⟩
      rw [hre, show (cleanName "CXR severity 3") = "cxr_severity_3" from rfl]
      exact dfSet_append_of_absent v hcs
  obtain ⟨r, hloop, hrr⟩ := hs
  refine ⟨r, ?_, hrr⟩
  unfold parseCatColumns applyCols
  cases hpack : dfFind H "Pack year history" with
  | none =>
    simp only [Option.bind_eq_bind', Option.some_bind']
    exact hloop
  | some cl =>
    obtain ⟨hdt, hpv⟩ := ha cl hpack
    simp only [Option.bind_eq_bind', Option.some_bind']
    rw [hdt, if_pos rfl, dfSet_eq_self H _ _ hpv]
    exact hloop

theorem resNodup : resultColumns.Nodup := by decide

theorem resInj : ∀ m ∈ resultColumns, ∀ n ∈ resultColumns,
    cleanName m = cleanName n → m = n := by decide

theorem resSep : ∀ m ∈ resultColumns, ∀ n ∈ resultColumns,
    cleanName m ≠ n := by decide

/-- `_remap_test_result_columns` leaves any column it does not write
alone. -/
theorem test_frame {d d' : Df} (h : remapTestResultColumns d = some d')
    {x : String} (hx : ∀ c ∈ resultColumns, cleanName c ≠ x) :
    dfFind d' x = dfFind d x := by
  unfold remapTestResultColumns applyCols at h
  exact foldlM_applyStep_frame h (fun n hn =>
    hx n (List.mem_of_mem_filter hn))

/-- The remapped value of a present test-result column. -/
theorem test_clean {d d' : Df} (h : remapTestResultColumns d = some d')
    {c : String} {rc : Col} (hc : c ∈ resultColumns)
    (hr : dfFind d c = some rc) :
    dfFind d' (cleanName c) = some (rc.map testResultMapCell) := by
  unfold remapTestResultColumns applyCols at h
  have hcmem : c ∈ resultColumns.filter (dfContains d) :=
    List.mem_filter.mpr ⟨hc, by unfold dfContains; rw [hr]; rfl⟩
  exact foldlM_applyStep_write h (fun n _ => rfl)
    (fun m hm' n hn _ => resSep m (List.mem_of_mem_filter hm') n
      (List.mem_of_mem_filter hn))
    hcmem (fun m hm' he => resInj m (List.mem_of_mem_filter hm') c hc he)
    (resNodup.filter _) hr rfl

/-- Second-run `_remap_test_result_columns` leaves an already-cleaned frame
unchanged. -/
theorem test_noop {H : Df}
    (hfix : ∀ c ∈ resultColumns, ∀ rc, dfFind H c = some rc →
      dfFind H (cleanName c) = some (rc.map testResultMapCell)) :
    remapTestResultColumns H = some H := by
  unfold remapTestResultColumns applyCols
  exact foldlM_applyStep_noop (fun n hn cl hcl =>
    ⟨cl.map testResultMapCell, rfl, hfix n (List.mem_of_mem_filter hn) cl hcl⟩)

/-- `_rescale_fio2` leaves any column other than `fio2` alone. -/
theorem fio2_frame {d d' : Df} (h : rescaleFio2 d = some d')
    {x : String} (hx : x ≠ "fio2") : dfFind d' x = dfFind d x := by
  unfold rescaleFio2 at h
  cases hf : dfFind d "FiO2" with
  | none =>
    rw [hf] at h
    rw [← Option.some_injective _ h]
  | some rc =>
    rw [hf] at h
    dsimp only at h
    cases hm : rc.mapM fiO2Cell with
    | none => rw [hm] at h; exact absurd h (by simp)
    | some w =>
      rw [hm] at h
      simp only [Option.map_some'] at h
      rw [← Option.some_injective _ h]
      exact dfFind_dfSet_ne d _ x w hx

/-- The written value of `_rescale_fio2`. -/
theorem fio2_write {d d' : Df} (h : rescaleFio2 d = some d') :
    (∀ rc, dfFind d "FiO2" = some rc →
      ∃ w, rc.mapM fiO2Cell = some w ∧ dfFind d' "fio2" = some w) ∧
    (dfFind d "FiO2" = none → dfFind d' "fio2" = dfFind d "fio2") := by
  unfold rescaleFio2 at h
  cases hf : dfFind d "FiO2" with
  | none =>
    rw [hf] at h
    rw [← Option.some_injective _ h]
    exact ⟨fun rc hrc => absurd hrc (by simp), fun _ => rfl⟩
  | some rc =>
    rw [hf] at h
    dsimp only at h
    cases hm : rc.mapM fiO2Cell with
    | none => rw [hm] at h; exact absurd h (by simp)
    | some w =>
      rw [hm] at h
      simp only [Option.map_some'] at h
      refine ⟨fun rc' hrc' => ?_, fun hn => absurd hn (by simp)⟩
      have hrceq : rc' = rc := Option.some_injective _ hrc'.symm
      subst hrceq
      refine ⟨w, hm, ?_⟩
      rw [← Option.some_injective _ h]
      exact dfFind_dfSet_self d _ w

/-- Second-run `_rescale_fio2` leaves an already-cleaned frame unchanged. -/
theorem fio2_noop {H : Df}
    (hfix : ∀ rc, dfFind H "FiO2" = some rc →
      ∃ w, rc.mapM fiO2Cell = some w ∧ dfFind H "fio2" = some w) :
    rescaleFio2 H = some H := by
  unfold rescaleFio2
  cases hf : dfFind H "FiO2" with
  | none => rfl
  | some rc =>
    obtain ⟨w, hw, hfv⟩ := hfix rc hf
    dsimp only
    rw [hw]
    simp only [Option.map_some']
    rw [dfSet_eq_self H _ _ hfv]

/-- `_fix_headers` leaves any column other than the renamed pair alone. -/
theorem fix_frame (d : Df) {x : String} (hx1 : x ≠ "cxr_severity_3")
    (hx2 : x ≠ "cxr_severity_2") : dfFind (fixHeaders d) x = dfFind d x := by
  unfold fixHeaders
  cases hc : dfContains d "cxr_severity_3" with
  | false => rw [if_neg Bool.false_ne_true]
  | true => rw [if_pos rfl]; exact dfFind_dfRename_of_ne d _ _ x hx1 hx2

/-- `_remap_ethnicity` leaves any column other than `ethnicity` alone. -/
theorem eth_frame {m : EthMap} {d : Df} {p : EthMap × Df}
    (h : remapEthnicity m d = some p) {x : String} (hx : x ≠ "ethnicity") :
    dfFind p.2 x = dfFind d x := by
  obtain ⟨col, _, _, hbr⟩ := remapEthnicity_cases h
  rcases hbr with ⟨_, hd⟩ | ⟨_, hd⟩
  · rw [hd]; exact dfFind_dfSet_ne d _ x _ hx
  · rw [hd]

/-- `_remap_sex` leaves any column other than `sex` alone. -/
theorem sex_frame {d d' : Df} (h : remapSex d = some d') {x : String}
    (hx : x ≠ "sex") : dfFind d' x = dfFind d x := by
  obtain ⟨col, _, hbr⟩ := remapSex_cases h
  rcases hbr with ⟨_, hd⟩ | ⟨_, hd⟩
  · rw [hd]; exact dfFind_dfSet_ne d _ x _ hx
  · rw [hd]

/-! ### Survival of written columns through the rest of the first run -/

theorem surv9 {d9 df1 : Df} (hdf1 : df1 = fixHeaders d9) {x : String}
    (hx : x ≠ "cxr_severity_3" ∧ x ≠ "cxr_severity_2") :
    dfFind df1 x = dfFind d9 x := by
  rw [hdf1, fix_frame d9 hx.1 hx.2]

theorem surv8 {d8 d9 df1 : Df} (h9 : rescaleFio2 d8 = some d9)
    (hdf1 : df1 = fixHeaders d9) {x : String}
    (hx : x ≠ "fio2" ∧ x ≠ "cxr_severity_3" ∧ x ≠ "cxr_severity_2") :
    dfFind df1 x = dfFind d8 x := by
  rw [surv9 hdf1 hx.2, fio2_frame h9 hx.1]

theorem surv7 {d7 d8 d9 df1 : Df} (h8 : remapTestResultColumns d7 = some d8)
    (h9 : rescaleFio2 d8 = some d9) (hdf1 : df1 = fixHeaders d9) {x : String}
    (hx : (∀ c ∈ resultColumns, cleanName c ≠ x) ∧ x ≠ "fio2" ∧
      x ≠ "cxr_severity_3" ∧ x ≠ "cxr_severity_2") :
    dfFind df1 x = dfFind d7 x := by
  rw [surv8 h9 hdf1 hx.2, test_frame h8 hx.1]

theorem surv6 {d6 d7 d8 d9 df1 : Df} (h7 : parseCatColumns d6 = some d7)
    (h8 : remapTestResultColumns d7 = some d8) (h9 : rescaleFio2 d8 = some d9)
    (hdf1 : df1 = fixHeaders d9) {x : String}
    (hx : x ≠ "pack_year_history" ∧
      (∀ p ∈ schemaValues, cleanName p.1 ≠ x) ∧
      (∀ c ∈ resultColumns, cleanName c ≠ x) ∧ x ≠ "fio2" ∧
      x ≠ "cxr_severity_3" ∧ x ≠ "cxr_severity_2") :
    dfFind df1 x = dfFind d6 x := by
  rw [surv7 h8 h9 hdf1 hx.2.2, cat_frame h7 hx.1 hx.2.1]

theorem surv5 {d5 d6 d7 d8 d9 df1 : Df} (h6 : parseBinaryColumns d5 = some d6)
    (h7 : parseCatColumns d6 = some d7)
    (h8 : remapTestResultColumns d7 = some d8) (h9 : rescaleFio2 d8 = some d9)
    (hdf1 : df1 = fixHeaders d9) {x : String}
    (hx : (∀ c ∈ binaryColumns, cleanName c ≠ x) ∧
      x ≠ "pmh_diabetes_mellitus_type_2" ∧ x ≠ "pack_year_history" ∧
      (∀ p ∈ schemaValues, cleanName p.1 ≠ x) ∧
      (∀ c ∈ resultColumns, cleanName c ≠ x) ∧ x ≠ "fio2" ∧
      x ≠ "cxr_severity_3" ∧ x ≠ "cxr_severity_2") :
    dfFind df1 x = dfFind d5 x := by
  rw [surv6 h7 h8 h9 hdf1 hx.2.2, bin_frame h6 hx.1 hx.2.1]

theorem surv4 {d4 d5 d6 d7 d8 d9 df1 : Df} (h5 : parseDateColumns d4 = some d5)
    (h6 : parseBinaryColumns d5 = some d6) (h7 : parseCatColumns d6 = some d7)
    (h8 : remapTestResultColumns d7 = some d8) (h9 : rescaleFio2 d8 = some d9)
    (hdf1 : df1 = fixHeaders d9) {x : String}
    (hx : (∀ c ∈ usDateCols, cleanName c ≠ x) ∧ x ≠ "swabdate" ∧
      x ≠ "latest_swab_date" ∧
      (∀ c ∈ binaryColumns, cleanName c ≠ x) ∧
      x ≠ "pmh_diabetes_mellitus_type_2" ∧ x ≠ "pack_year_history" ∧
      (∀ p ∈ schemaValues, cleanName p.1 ≠ x) ∧
      (∀ c ∈ resultColumns, cleanName c ≠ x) ∧ x ≠ "fio2" ∧
      x ≠ "cxr_severity_3" ∧ x ≠ "cxr_severity_2") :
    dfFind df1 x = dfFind d4 x := by
  rw [surv5 h6 h7 h8 h9 hdf1 hx.2.2.2, dates_frame h5 hx.1 hx.2.1 hx.2.2.1]

theorem surv3 {d3 d4 d5 d6 d7 d8 d9 df1 : Df}
    (h4 : clipNumericValues d3 = some d4) (h5 : parseDateColumns d4 = some d5)
    (h6 : parseBinaryColumns d5 = some d6) (h7 : parseCatColumns d6 = some d7)
    (h8 : remapTestResultColumns d7 = some d8) (h9 : rescaleFio2 d8 = some d9)
    (hdf1 : df1 = fixHeaders d9) {x : String}
    (hx : x ≠ "temperature_on_admission" ∧ ¬(x ∈ cols100range) ∧
      ((∀ c ∈ usDateCols, cleanName c ≠ x) ∧ x ≠ "swabdate" ∧
      x ≠ "latest_swab_date" ∧
      (∀ c ∈ binaryColumns, cleanName c ≠ x) ∧
      x ≠ "pmh_diabetes_mellitus_type_2" ∧ x ≠ "pack_year_history" ∧
      (∀ p ∈ schemaValues, cleanName p.1 ≠ x) ∧
      (∀ c ∈ resultColumns, cleanName c ≠ x) ∧ x ≠ "fio2" ∧
      x ≠ "cxr_severity_3" ∧ x ≠ "cxr_severity_2")) :
    dfFind df1 x = dfFind d3 x := by
  rw [surv4 h5 h6 h7 h8 h9 hdf1 hx.2.2, clip_frame h4 hx.1 hx.2.1]

theorem surv2 {d2 d3 d4 d5 d6 d7 d8 d9 df1 : Df}
    (h3 : coerceNumericColumns d2 = some d3)
    (h4 : clipNumericValues d3 = some d4) (h5 : parseDateColumns d4 = some d5)
    (h6 : parseBinaryColumns d5 = some d6) (h7 : parseCatColumns d6 = some d7)
    (h8 : remapTestResultColumns d7 = some d8) (h9 : rescaleFio2 d8 = some d9)
    (hdf1 : df1 = fixHeaders d9) {x : String}
    (hx : (∀ c ∈ clinicalColumns, cleanName c ≠ x) ∧ x ≠ "systolic_bp" ∧
      x ≠ "diastolic_bp" ∧ x ≠ "age" ∧
      (x ≠ "temperature_on_admission" ∧ ¬(x ∈ cols100range) ∧
      ((∀ c ∈ usDateCols, cleanName c ≠ x) ∧ x ≠ "swabdate" ∧
      x ≠ "latest_swab_date" ∧
      (∀ c ∈ binaryColumns, cleanName c ≠ x) ∧
      x ≠ "pmh_diabetes_mellitus_type_2" ∧ x ≠ "pack_year_history" ∧
      (∀ p ∈ schemaValues, cleanName p.1 ≠ x) ∧
      (∀ c ∈ resultColumns, cleanName c ≠ x) ∧ x ≠ "fio2" ∧
      x ≠ "cxr_severity_3" ∧ x ≠ "cxr_severity_2"))) :
    dfFind df1 x = dfFind d2 x := by
  rw [surv3 h4 h5 h6 h7 h8 h9 hdf1 hx.2.2.2.2,
    coerce_frame h3 hx.1 hx.2.1 hx.2.2.1 hx.2.2.2.1]

/-! ### Name-disjointness families, decided over the concrete column lists -/

theorem famClinRaw : ∀ c ∈ clinicalColumns, c ≠ "ethnicity" ∧ c ≠ "sex" ∧
      ((∀ b ∈ clinicalColumns, cleanName b ≠ c) ∧ c ≠ "systolic_bp" ∧
      c ≠ "diastolic_bp" ∧ c ≠ "age" ∧
      (c ≠ "temperature_on_admission" ∧ ¬(c ∈ cols100range) ∧
      ((∀ b ∈ usDateCols, cleanName b ≠ c) ∧ c ≠ "swabdate" ∧
      c ≠ "latest_swab_date" ∧
      (∀ b ∈ binaryColumns, cleanName b ≠ c) ∧
      c ≠ "pmh_diabetes_mellitus_type_2" ∧ c ≠ "pack_year_history" ∧
      (∀ p ∈ schemaValues, cleanName p.1 ≠ c) ∧
      (∀ b ∈ resultColumns, cleanName b ≠ c) ∧ c ≠ "fio2" ∧
      c ≠ "cxr_severity_3" ∧ c ≠ "cxr_severity_2"))) := by decide

theorem famDateRaw : ∀ c ∈ usDateCols, c ≠ "ethnicity" ∧ c ≠ "sex" ∧
      ((∀ b ∈ clinicalColumns, cleanName b ≠ c) ∧ c ≠ "systolic_bp" ∧
      c ≠ "diastolic_bp" ∧ c ≠ "age" ∧
      (c ≠ "temperature_on_admission" ∧ ¬(c ∈ cols100range) ∧
      ((∀ b ∈ usDateCols, cleanName b ≠ c) ∧ c ≠ "swabdate" ∧
      c ≠ "latest_swab_date" ∧
      (∀ b ∈ binaryColumns, cleanName b ≠ c) ∧
      c ≠ "pmh_diabetes_mellitus_type_2" ∧ c ≠ "pack_year_history" ∧
      (∀ p ∈ schemaValues, cleanName p.1 ≠ c) ∧
      (∀ b ∈ resultColumns, cleanName b ≠ c) ∧ c ≠ "fio2" ∧
      c ≠ "cxr_severity_3" ∧ c ≠ "cxr_severity_2"))) := by decide

theorem famBinRaw : ∀ c ∈ binaryColumns, c ≠ "ethnicity" ∧ c ≠ "sex" ∧
      ((∀ b ∈ clinicalColumns, cleanName b ≠ c) ∧ c ≠ "systolic_bp" ∧
      c ≠ "diastolic_bp" ∧ c ≠ "age" ∧
      (c ≠ "temperature_on_admission" ∧ ¬(c ∈ cols100range) ∧
      ((∀ b ∈ usDateCols, cleanName b ≠ c) ∧ c ≠ "swabdate" ∧
      c ≠ "latest_swab_date" ∧
      (∀ b ∈ binaryColumns, cleanName b ≠ c) ∧
      c ≠ "pmh_diabetes_mellitus_type_2" ∧ c ≠ "pack_year_history" ∧
      (∀ p ∈ schemaValues, cleanName p.1 ≠ c) ∧
      (∀ b ∈ resultColumns, cleanName b ≠ c) ∧ c ≠ "fio2" ∧
      c ≠ "cxr_severity_3" ∧ c ≠ "cxr_severity_2"))) := by decide

theorem famResRaw : ∀ c ∈ resultColumns, c ≠ "ethnicity" ∧ c ≠ "sex" ∧
      ((∀ b ∈ clinicalColumns, cleanName b ≠ c) ∧ c ≠ "systolic_bp" ∧
      c ≠ "diastolic_bp" ∧ c ≠ "age" ∧
      (c ≠ "temperature_on_admission" ∧ ¬(c ∈ cols100range) ∧
      ((∀ b ∈ usDateCols, cleanName b ≠ c) ∧ c ≠ "swabdate" ∧
      c ≠ "latest_swab_date" ∧
      (∀ b ∈ binaryColumns, cleanName b ≠ c) ∧
      c ≠ "pmh_diabetes_mellitus_type_2" ∧ c ≠ "pack_year_history" ∧
      (∀ p ∈ schemaValues, cleanName p.1 ≠ c) ∧
      (∀ b ∈ resultColumns, cleanName b ≠ c) ∧ c ≠ "fio2" ∧
      c ≠ "cxr_severity_3" ∧ c ≠ "cxr_severity_2"))) := by decide

theorem famSchemaRaw : ∀ p ∈ schemaValues, p.1 ≠ "ethnicity" ∧ p.1 ≠ "sex" ∧
      ((∀ b ∈ clinicalColumns, cleanName b ≠ p.1) ∧ p.1 ≠ "systolic_bp" ∧
      p.1 ≠ "diastolic_bp" ∧ p.1 ≠ "age" ∧
      (p.1 ≠ "temperature_on_admission" ∧ ¬(p.1 ∈ cols100range) ∧
      ((∀ b ∈ usDateCols, cleanName b ≠ p.1) ∧ p.1 ≠ "swabdate" ∧
      p.1 ≠ "latest_swab_date" ∧
      (∀ b ∈ binaryColumns, cleanName b ≠ p.1) ∧
      p.1 ≠ "pmh_diabetes_mellitus_type_2" ∧ p.1 ≠ "pack_year_history" ∧
      (∀ q ∈ schemaValues, cleanName q.1 ≠ p.1) ∧
      (∀ b ∈ resultColumns, cleanName b ≠ p.1) ∧ p.1 ≠ "fio2" ∧
      p.1 ≠ "cxr_severity_3" ∧ p.1 ≠ "cxr_severity_2"))) := by decide

theorem famClinTgt : ∀ c ∈ clinicalColumns,
      (∀ b ∈ usDateCols, cleanName b ≠ (cleanName c)) ∧ (cleanName c) ≠ "swabdate" ∧
      (cleanName c) ≠ "latest_swab_date" ∧
      (∀ b ∈ binaryColumns, cleanName b ≠ (cleanName c)) ∧
      (cleanName c) ≠ "pmh_diabetes_mellitus_type_2" ∧ (cleanName c) ≠ "pack_year_history" ∧
      (∀ p ∈ schemaValues, cleanName p.1 ≠ (cleanName c)) ∧
      (∀ b ∈ resultColumns, cleanName b ≠ (cleanName c)) ∧ (cleanName c) ≠ "fio2" ∧
      (cleanName c) ≠ "cxr_severity_3" ∧ (cleanName c) ≠ "cxr_severity_2" := by decide

theorem famDateTgt : ∀ c ∈ usDateCols,
      (∀ b ∈ binaryColumns, cleanName b ≠ (cleanName c)) ∧
      (cleanName c) ≠ "pmh_diabetes_mellitus_type_2" ∧ (cleanName c) ≠ "pack_year_history" ∧
      (∀ p ∈ schemaValues, cleanName p.1 ≠ (cleanName c)) ∧
      (∀ b ∈ resultColumns, cleanName b ≠ (cleanName c)) ∧ (cleanName c) ≠ "fio2" ∧
      (cleanName c) ≠ "cxr_severity_3" ∧ (cleanName c) ≠ "cxr_severity_2" := by decide

theorem famBinTgt : ∀ c ∈ binaryColumns,
      (cleanName c) ≠ "pack_year_history" ∧
      (∀ p ∈ schemaValues, cleanName p.1 ≠ (cleanName c)) ∧
      (∀ b ∈ resultColumns, cleanName b ≠ (cleanName c)) ∧ (cleanName c) ≠ "fio2" ∧
      (cleanName c) ≠ "cxr_severity_3" ∧ (cleanName c) ≠ "cxr_severity_2" := by decide

theorem famSchemaTgt : ∀ p ∈ schemaValues, p.1 ≠ "CXR severity 3" →
      (∀ b ∈ resultColumns, cleanName b ≠ (cleanName p.1)) ∧ (cleanName p.1) ≠ "fio2" ∧
      (cleanName p.1) ≠ "cxr_severity_3" ∧ (cleanName p.1) ≠ "cxr_severity_2" := by decide

theorem famResTgt : ∀ c ∈ resultColumns,
      (cleanName c) ≠ "fio2" ∧ (cleanName c) ≠ "cxr_severity_3" ∧ (cleanName c) ≠ "cxr_severity_2" := by decide

theorem famResNotCs3 : ∀ c ∈ resultColumns, c ≠ "cxr_severity_3" ∧
    cleanName c ≠ "cxr_severity_3" := by decide

theorem famSchemaNotCs3 : ∀ p ∈ schemaValues, p.1 ≠ "cxr_severity_3" := by
  decide

/-! ### Decomposition of a successful full run of the pipeline -/

theorem cleanDataDf_decomp {m0 m1 : EthMap} {df df1 : Df}
    (h : cleanDataDf m0 df = some (m1, df1)) :
    ∃ m1' d1 d2 d3 d4 d5 d6 d7 d8 d9,
      remapEthnicity m0 df = some (m1', d1) ∧
      remapSex d1 = some d2 ∧
      coerceNumericColumns d2 = some d3 ∧
      clipNumericValues d3 = some d4 ∧
      parseDateColumns d4 = some d5 ∧
      parseBinaryColumns d5 = some d6 ∧
      parseCatColumns d6 = some d7 ∧
      remapTestResultColumns d7 = some d8 ∧
      rescaleFio2 d8 = some d9 ∧
      m1 = m1' ∧ df1 = fixHeaders d9 := by
  unfold cleanDataDf at h
  simp only [Option.bind_eq_bind'] at h
  rw [Option.bind_eq_some] at h
  obtain ⟨⟨m1', d1⟩, h1, h⟩ := h
  dsimp only at h
  rw [Option.bind_eq_some] at h
  obtain ⟨d2, h2, h⟩ := h
  rw [Option.bind_eq_some] at h
  obtain ⟨d3, h3, h⟩ := h
  rw [Option.bind_eq_some] at h
  obtain ⟨d4, h4, h⟩ := h
  rw [Option.bind_eq_some] at h
  obtain ⟨d5, h5, h⟩ := h
  rw [Option.bind_eq_some] at h
  obtain ⟨d6, h6, h⟩ := h
  rw [Option.bind_eq_some] at h
  obtain ⟨d7, h7, h⟩ := h
  rw [Option.bind_eq_some] at h
  obtain ⟨d8, h8, h⟩ := h
  rw [Option.bind_eq_some] at h
  obtain ⟨d9, h9, h⟩ := h
  simp only [Option.pure_def, Option.some.injEq, Prod.mk.injEq] at h
  exact ⟨m1', d1, d2, d3, d4, d5, d6, d7, d8, d9, h1, h2, h3, h4, h5, h6,
    h7, h8, h9, h.1.symm, h.2.symm⟩

/-- C9: for every input record set on which the full pipeline succeeds,
running the full pipeline a second time on the output of the first run also
succeeds and does not alter the value of any column present in that output:
every lookup that succeeds on the first run's result returns the same column
from the second run's result (full-pipeline idempotence of values on cleaned
columns; idempotence of the whole record set is not claimed). -/
theorem C9_second_run_preserves_cleaned (m0 m1 : EthMap) (df df1 : Df)
    (h : cleanDataDf m0 df = some (m1, df1)) :
    ∃ m2 df2, cleanDataDf m1 df1 = some (m2, df2) ∧
      ∀ c v, dfFind df1 c = some v → dfFind df2 c = some v := by
  obtain ⟨m1', d1, d2, d3, d4, d5, d6, d7, d8, d9, h1, h2, h3, h4, h5, h6,
    h7, h8, h9, hm1eq, hdf1⟩ := cleanDataDf_decomp h
  -- ### stage 1: the ethnicity remap is a value-level no-op on `df1`
  obtain ⟨ecol, hE0, hmeq, hEbr⟩ := remapEthnicity_cases h1
  have hmeq' : m1' = ethUpdatedMap m0 ecol := hmeq
  have hm1v : m1 = ethUpdatedMap m0 ecol := hm1eq.trans hmeq'
  have hE1 : dfFind df1 "Ethnicity" = some ecol := by
    rw [surv2 h3 h4 h5 h6 h7 h8 h9 hdf1 (by decide), sex_frame h2 (by decide)]
    have hd1f : dfFind d1 "Ethnicity" = dfFind df "Ethnicity" :=
      eth_frame h1 (by decide)
    rw [hd1f]
    exact hE0
  have hethval : colHasStrDtype ecol = true →
      dfFind df1 "ethnicity" = some (ecol.map (ethReplaceCell m1)) := by
    intro hdt
    rcases hEbr with ⟨_, hd⟩ | ⟨hdt', _⟩
    · have hd1e : d1 = dfSet df "ethnicity"
          (ecol.map (ethReplaceCell (ethUpdatedMap m0 ecol))) := hd
      rw [surv2 h3 h4 h5 h6 h7 h8 h9 hdf1 (by decide),
        sex_frame h2 (by decide), hd1e, dfFind_dfSet_self, hm1v]
    · rw [hdt'] at hdt
      exact absurd hdt (by simp)
  have hrun1 : remapEthnicity m1 df1 = some (ethUpdatedMap m1 ecol, df1) :=
    remapEthnicity_noop hE1 hm1v hethval
  -- ### stage 2: the sex remap is a no-op on `df1`
  obtain ⟨scol, hS0, hSbr⟩ := remapSex_cases h2
  have hS1 : dfFind df1 "Sex" = some scol := by
    rw [surv2 h3 h4 h5 h6 h7 h8 h9 hdf1 (by decide), sex_frame h2 (by decide)]
    exact hS0
  have hsexval : colHasStrDtype scol = true →
      dfFind df1 "sex" = some (scol.map sexCell) := by
    intro hdt
    rcases hSbr with ⟨_, hd⟩ | ⟨hdt', _⟩
    · rw [surv2 h3 h4 h5 h6 h7 h8 h9 hdf1 (by decide), hd, dfFind_dfSet_self]
    · rw [hdt'] at hdt
      exact absurd hdt (by simp)
  have hrun2 : remapSex df1 = some df1 := remapSex_noop hS1 hsexval
  -- ### stages 3-4: coercion and clipping rewrite the stored values
  have hA : ∀ c ∈ clinicalColumns,
      cleanName c ≠ "temperature_on_admission" →
      cleanName c ∉ cols100range →
      ∀ rc, dfFind df1 c = some rc →
        dfFind df1 (cleanName c) = some (rc.map (coerceCell "single")) := by
    intro c hc hn1 hn2 rc hrc
    obtain ⟨he, hs, hX2⟩ := famClinRaw c hc
    have hraw2 : dfFind d2 c = some rc := by
      rw [← surv2 h3 h4 h5 h6 h7 h8 h9 hdf1 hX2]
      exact hrc
    rw [surv3 h4 h5 h6 h7 h8 h9 hdf1 ⟨hn1, hn2, famClinTgt c hc⟩]
    exact coerce_clin h3 hc hraw2
  have hBt : ∀ rc, dfFind df1 "Temperature on admission" = some rc →
      ∃ w, (rc.map (coerceCell "single")).mapM clipTempCell = some w ∧
        dfFind df1 "temperature_on_admission" = some w := by
    intro rc hrc
    have hraw2 : dfFind d2 "Temperature on admission" = some rc := by
      rw [← surv2 h3 h4 h5 h6 h7 h8 h9 hdf1 (by decide)]
      exact hrc
    have hw3 : dfFind d3 "temperature_on_admission" =
        some (rc.map (coerceCell "single")) :=
      coerce_clin h3 (by decide) hraw2
    obtain ⟨w, hw, hw4⟩ := clip_temp_present h4 hw3
    refine ⟨w, hw, ?_⟩
    rw [surv4 h5 h6 h7 h8 h9 hdf1 (by decide)]
    exact hw4
  have hCt : dfFind df1 "Temperature on admission" = none →
      ∀ cl, dfFind df1 "temperature_on_admission" = some cl →
        cl.mapM clipTempCell = some cl := by
    intro hrawn cl hcl
    have hraw2 : dfFind d2 "Temperature on admission" = none := by
      rw [← surv2 h3 h4 h5 h6 h7 h8 h9 hdf1 (by decide)]
      exact hrawn
    have h4v : dfFind d4 "temperature_on_admission" = some cl := by
      rw [← surv4 h5 h6 h7 h8 h9 hdf1 (by decide)]
      exact hcl
    cases h3t : dfFind d3 "temperature_on_admission" with
    | none =>
      rw [clip_temp_absent h4 h3t] at h4v
      exact absurd h4v (by simp)
    | some cl0 =>
      obtain ⟨w, hw, hw4⟩ := clip_temp_present h4 h3t
      rw [hw4] at h4v
      have hweq : w = cl := Option.some_injective _ h4v
      subst hweq
      exact mapM_clip_idem (fun a b hb => clipTempCell_idem hb) hw
  have hBf : ∀ rc,
      dfFind df1 "Fibrinogen  if d-dimer not performed" = some rc →
      ∃ w, (rc.map (coerceCell "single")).mapM clipRangeCell = some w ∧
        dfFind df1 "fibrinogen__if_d-dimer_not_performed" = some w := by
    intro rc hrc
    have hraw2 : dfFind d2 "Fibrinogen  if d-dimer not performed" =
        some rc := by
      rw [← surv2 h3 h4 h5 h6 h7 h8 h9 hdf1 (by decide)]
      exact hrc
    have hw3 : dfFind d3 "fibrinogen__if_d-dimer_not_performed" =
        some (rc.map (coerceCell "single")) :=
      coerce_clin h3 (by decide) hraw2
    obtain ⟨w, hw, hw4⟩ := clip_range_present h4 (by decide) hw3
    refine ⟨w, hw, ?_⟩
    rw [surv4 h5 h6 h7 h8 h9 hdf1 (by decide)]
    exact hw4
  have hCf : dfFind df1 "Fibrinogen  if d-dimer not performed" = none →
      ∀ cl, dfFind df1 "fibrinogen__if_d-dimer_not_performed" = some cl →
        cl.mapM clipRangeCell = some cl := by
    intro hrawn cl hcl
    have hraw2 : dfFind d2 "Fibrinogen  if d-dimer not performed" = none := by
      rw [← surv2 h3 h4 h5 h6 h7 h8 h9 hdf1 (by decide)]
      exact hrawn
    have h4v : dfFind d4 "fibrinogen__if_d-dimer_not_performed" =
        some cl := by
      rw [← surv4 h5 h6 h7 h8 h9 hdf1 (by decide)]
      exact hcl
    cases h3t : dfFind d3 "fibrinogen__if_d-dimer_not_performed" with
    | none =>
      rw [clip_range_absent h4 (by decide) h3t] at h4v
      exact absurd h4v (by simp)
    | some cl0 =>
      obtain ⟨w, hw, hw4⟩ := clip_range_present h4 (by decide) h3t
      rw [hw4] at h4v
      have hweq : w = cl := Option.some_injective _ h4v
      subst hweq
      exact mapM_clip_idem (fun a b hb => clipRangeCell_idem hb) hw
  have hBu : ∀ rc, dfFind df1 "Urea on admission" = some rc →
      ∃ w, (rc.map (coerceCell "single")).mapM clipRangeCell = some w ∧
        dfFind df1 "urea_on_admission" = some w := by
    intro rc hrc
    have hraw2 : dfFind d2 "Urea on admission" = some rc := by
      rw [← surv2 h3 h4 h5 h6 h7 h8 h9 hdf1 (by decide)]
      exact hrc
    have hw3 : dfFind d3 "urea_on_admission" =
        some (rc.map (coerceCell "single")) :=
      coerce_clin h3 (by decide) hraw2
    obtain ⟨w, hw, hw4⟩ := clip_range_present h4 (by decide) hw3
    refine ⟨w, hw, ?_⟩
    rw [surv4 h5 h6 h7 h8 h9 hdf1 (by decide)]
    exact hw4
  have hCu : dfFind df1 "Urea on admission" = none →
      ∀ cl, dfFind df1 "urea_on_admission" = some cl →
        cl.mapM clipRangeCell = some cl := by
    intro hrawn cl hcl
    have hraw2 : dfFind d2 "Urea on admission" = none := by
      rw [← surv2 h3 h4 h5 h6 h7 h8 h9 hdf1 (by decide)]
      exact hrawn
    have h4v : dfFind d4 "urea_on_admission" = some cl := by
      rw [← surv4 h5 h6 h7 h8 h9 hdf1 (by decide)]
      exact hcl
    cases h3t : dfFind d3 "urea_on_admission" with
    | none =>
      rw [clip_range_absent h4 (by decide) h3t] at h4v
      exact absurd h4v (by simp)
    | some cl0 =>
      obtain ⟨w, hw, hw4⟩ := clip_range_present h4 (by decide) h3t
      rw [hw4] at h4v
      have hweq : w = cl := Option.some_injective _ h4v
      subst hweq
      exact mapM_clip_idem (fun a b hb => clipRangeCell_idem hb) hw
  have hBo : ∀ rc, dfFind df1 "O2 saturation" = some rc →
      ∃ w, (rc.map (coerceCell "single")).mapM clipRangeCell = some w ∧
        dfFind df1 "o2_saturation" = some w := by
    intro rc hrc
    have hraw2 : dfFind d2 "O2 saturation" = some rc := by
      rw [← surv2 h3 h4 h5 h6 h7 h8 h9 hdf1 (by decide)]
      exact hrc
    have hw3 : dfFind d3 "o2_saturation" =
        some (rc.map (coerceCell "single")) :=
      coerce_clin h3 (by decide) hraw2
    obtain ⟨w, hw, hw4⟩ := clip_range_present h4 (by decide) hw3
    refine ⟨w, hw, ?_⟩
    rw [surv4 h5 h6 h7 h8 h9 hdf1 (by decide)]
    exact hw4
  have hCo : dfFind df1 "O2 saturation" = none →
      ∀ cl, dfFind df1 "o2_saturation" = some cl →
        cl.mapM clipRangeCell = some cl := by
    intro hrawn cl hcl
    have hraw2 : dfFind d2 "O2 saturation" = none := by
      rw [← surv2 h3 h4 h5 h6 h7 h8 h9 hdf1 (by decide)]
      exact hrawn
    have h4v : dfFind d4 "o2_saturation" = some cl := by
      rw [← surv4 h5 h6 h7 h8 h9 hdf1 (by decide)]
      exact hcl
    cases h3t : dfFind d3 "o2_saturation" with
    | none =>
      rw [clip_range_absent h4 (by decide) h3t] at h4v
      exact absurd h4v (by simp)
    | some cl0 =>
      obtain ⟨w, hw, hw4⟩ := clip_range_present h4 (by decide) h3t
      rw [hw4] at h4v
      have hweq : w = cl := Option.some_injective _ h4v
      subst hweq
      exact mapM_clip_idem (fun a b hb => clipRangeCell_idem hb) hw
  have hDs : ∀ rc, dfFind df1 "Systolic BP" = some rc →
      dfFind df1 "systolic_bp" = some (rc.map (coerceCell "systolic")) := by
    intro rc hrc
    have hraw2 : dfFind d2 "Systolic BP" = some rc := by
      rw [← surv2 h3 h4 h5 h6 h7 h8 h9 hdf1 (by decide)]
      exact hrc
    rw [surv3 h4 h5 h6 h7 h8 h9 hdf1 (by decide)]
    exact (coerce_sys h3).1 rc hraw2
  have hDd : ∀ rc, dfFind df1 "Diastolic BP" = some rc →
      dfFind df1 "diastolic_bp" = some (rc.map (coerceCell "diastolic")) := by
    intro rc hrc
    have hraw2 : dfFind d2 "Diastolic BP" = some rc := by
      rw [← surv2 h3 h4 h5 h6 h7 h8 h9 hdf1 (by decide)]
      exact hrc
    rw [surv3 h4 h5 h6 h7 h8 h9 hdf1 (by decide)]
    exact (coerce_dia h3).1 rc hraw2
  have hDa : ∀ rc, dfFind df1 "Age" = some rc →
      dfFind df1 "age" = some (rc.map ageCell) := by
    intro rc hrc
    have hraw2 : dfFind d2 "Age" = some rc := by
      rw [← surv2 h3 h4 h5 h6 h7 h8 h9 hdf1 (by decide)]
      exact hrc
    rw [surv3 h4 h5 h6 h7 h8 h9 hdf1 (by decide)]
    exact (coerce_age h3).1 rc hraw2
  obtain ⟨X, Y, hX, hY, hYeq⟩ :=
    coerce_clip_second hA hBt hCt hBf hCf hBu hCu hBo hCo hDs hDd hDa
  -- ### stage 5: the date stage is a no-op on `Y`
  have hrun5 : parseDateColumns Y = some Y := by
    apply dates_noop
    · intro c hc rc hrc
      rw [hYeq c] at hrc
      rw [hYeq (cleanName c)]
      obtain ⟨he, hs, a1, a2, a3, a4, a5, a6, b1, b2, b3, b4, b5, b6, b7,
        b8, b9, b10, b11⟩ := famDateRaw c hc
      have hraw4 : dfFind d4 c = some rc := by
        rw [← surv4 h5 h6 h7 h8 h9 hdf1
          ⟨b1, b2, b3, b4, b5, b6, b7, b8, b9, b10, b11⟩]
        exact hrc
      rw [surv5 h6 h7 h8 h9 hdf1 (famDateTgt c hc)]
      exact dates_clean h5 hc hraw4
    · obtain ⟨swraw, hsw5raw, hswv5⟩ := dates_swab h5
      obtain ⟨swraw', hsw5raw', hlat5⟩ := dates_latest h5
      have hsw_eq : swraw' = swraw :=
        Option.some_injective _ (hsw5raw'.symm.trans hsw5raw)
      rw [hsw_eq] at hlat5
      refine ⟨swraw, ?_, ?_, ?_⟩
      · rw [hYeq "SwabDate", surv4 h5 h6 h7 h8 h9 hdf1 (by decide)]
        exact hsw5raw
      · rw [hYeq "swabdate", surv5 h6 h7 h8 h9 hdf1 (by decide)]
        exact hswv5
      · have hdop : dfFind Y "date_of_positive_covid_swab" =
            dfFind d5 "date_of_positive_covid_swab" := by
          rw [hYeq "date_of_positive_covid_swab"]
          exact surv5 h6 h7 h8 h9 hdf1 (by decide)
        rw [hdop]
        cases hus : dfFind d5 "date_of_positive_covid_swab" with
        | none => exact trivial
        | some us =>
          rw [hus] at hlat5
          dsimp only at hlat5
          obtain ⟨lat, hzip, hlatv5⟩ := hlat5
          refine ⟨lat, hzip, ?_⟩
          rw [hYeq "latest_swab_date", surv5 h6 h7 h8 h9 hdf1 (by decide)]
          exact hlatv5
  -- ### stage 6: the binary stage is a no-op on `Y`
  have hrun6 : parseBinaryColumns Y = some Y := by
    apply bin_noop
    · intro c hc hne rc hrc
      rw [hYeq c] at hrc
      rw [hYeq (cleanName c)]
      obtain ⟨he, hs, a1, a2, a3, a4, a5, a6, b1, b2, b3, b4, b5, b6, b7,
        b8, b9, b10, b11⟩ := famBinRaw c hc
      have hraw5 : dfFind d5 c = some rc := by
        rw [← surv5 h6 h7 h8 h9 hdf1 ⟨b4, b5, b6, b7, b8, b9, b10, b11⟩]
        exact hrc
      rw [surv6 h7 h8 h9 hdf1 (famBinTgt c hc)]
      exact bin_clean h6 hc hne hraw5
    · intro hh1 rc hrc
      rw [hYeq "PMH h1pertension"] at hh1
      rw [hYeq "PMH hypertension"] at hrc
      rw [hYeq "pmh_hypertension"]
      have hh1d5 : dfFind d5 "PMH h1pertension" = none := by
        rw [← surv5 h6 h7 h8 h9 hdf1 (by decide)]
        exact hh1
      have hrcd5 : dfFind d5 "PMH hypertension" = some rc := by
        rw [← surv5 h6 h7 h8 h9 hdf1 (by decide)]
        exact hrc
      rw [surv6 h7 h8 h9 hdf1 (by decide)]
      exact ((bin_hyp h6).1 hh1d5).1 rc hrcd5
    · intro h1c hh1
      rw [hYeq "PMH h1pertension"] at hh1
      have hh1d5 : dfFind d5 "PMH h1pertension" = some h1c := by
        rw [← surv5 h6 h7 h8 h9 hdf1 (by decide)]
        exact hh1
      obtain ⟨hbp, hba⟩ := (bin_hyp h6).2 h1c hh1d5
      constructor
      · intro rc hrc
        rw [hYeq "PMH hypertension"] at hrc
        rw [hYeq "pmh_hypertension", surv6 h7 h8 h9 hdf1 (by decide)]
        refine hbp rc ?_
        rw [← surv5 h6 h7 h8 h9 hdf1 (by decide)]
        exact hrc
      · intro hrc
        rw [hYeq "PMH hypertension"] at hrc
        have hrcd5 : dfFind d5 "PMH hypertension" = none := by
          rw [← surv5 h6 h7 h8 h9 hdf1 (by decide)]
          exact hrc
        obtain ⟨cur, hcur5, hd6v⟩ := hba hrcd5
        refine ⟨zipFill cur (h1c.map h1Cell), ?_,
          zipFill_idem cur (h1c.map h1Cell)⟩
        rw [hYeq "pmh_hypertension", surv6 h7 h8 h9 hdf1 (by decide)]
        exact hd6v
    · intro d2c hd2
      rw [hYeq "PMH diabetes mellitus type II"] at hd2
      have hd2d5 : dfFind d5 "PMH diabetes mellitus type II" = some d2c := by
        rw [← surv5 h6 h7 h8 h9 hdf1 (by decide)]
        exact hd2
      have hw6 := (bin_diab_char h6).1 d2c hd2d5
      have hT2 : dfFind Y "PMH diabetes mellitus TYPE II" =
          dfFind d5 "PMH diabetes mellitus TYPE II" := by
        rw [hYeq "PMH diabetes mellitus TYPE II"]
        exact surv5 h6 h7 h8 h9 hdf1 (by decide)
      rw [hYeq "pmh_diabetes_mellitus_type_2",
        surv6 h7 h8 h9 hdf1 (by decide), hT2]
      exact hw6
  -- ### stage 7: the categorical stage at most re-appends `cxr_severity_3`
  have hcsY : dfFind Y "cxr_severity_3" = none := by
    rw [hYeq "cxr_severity_3", hdf1]
    exact fixHeaders_no_cs3 d9
  have hcatA : ∀ cl, dfFind Y "Pack year history" = some cl →
      colHasStrDtype cl = true ∧
      dfFind Y "pack_year_history" = some (cl.map extractDigitsCell) := by
    intro cl hcl
    rw [hYeq "Pack year history"] at hcl
    have hcl6 : dfFind d6 "Pack year history" = some cl := by
      rw [← surv6 h7 h8 h9 hdf1 (by decide)]
      exact hcl
    obtain ⟨hdt, hw7⟩ := (cat_pack h7).1 cl hcl6
    refine ⟨hdt, ?_⟩
    rw [hYeq "pack_year_history", surv7 h8 h9 hdf1 (by decide)]
    exact hw7
  have hcatB : ∀ p ∈ schemaValues, p.1 ≠ "CXR severity 3" → ∀ rc,
      dfFind Y p.1 = some rc →
      dfFind Y (cleanName p.1) =
        some (rc.map (schemaCell (schemaLookup p.1))) := by
    intro p hp hne rc hrc
    rw [hYeq p.1] at hrc
    obtain ⟨he, hs, a1, a2, a3, a4, a5, a6, b1, b2, b3, b4, b5, b6, b7,
      b8, b9, b10, b11⟩ := famSchemaRaw p hp
    have hrc6 : dfFind d6 p.1 = some rc := by
      rw [← surv6 h7 h8 h9 hdf1 ⟨b6, b7, b8, b9, b10, b11⟩]
      exact hrc
    rw [hYeq (cleanName p.1), surv7 h8 h9 hdf1 (famSchemaTgt p hp hne)]
    exact cat_schema h7 hp hrc6
  obtain ⟨r, hrun7, hrr⟩ := cat_noop_or_append hcatA hcatB hcsY
  have hrfind : ∀ x : String, x ≠ "cxr_severity_3" →
      dfFind r x = dfFind Y x := by
    intro x hx
    rcases hrr with hre | ⟨v, hre⟩
    · rw [hre]
    · rw [hre]
      exact dfFind_append_single_ne Y v hx
  -- ### stage 8: the test-result stage is a no-op on `r`
  have hrun8 : remapTestResultColumns r = some r := by
    apply test_noop
    intro c hc rc hrc
    rw [hrfind c (famResNotCs3 c hc).1, hYeq c] at hrc
    obtain ⟨he, hs, a1, a2, a3, a4, a5, a6, b1, b2, b3, b4, b5, b6, b7,
      b8, b9, b10, b11⟩ := famResRaw c hc
    have hrc7 : dfFind d7 c = some rc := by
      rw [← surv7 h8 h9 hdf1 ⟨b8, b9, b10, b11⟩]
      exact hrc
    rw [hrfind (cleanName c) (famResNotCs3 c hc).2, hYeq (cleanName c),
      surv8 h9 hdf1 (famResTgt c hc)]
    exact test_clean h8 hc hrc7
  -- ### stage 9: the FiO2 stage is a no-op on `r`
  have hrun9 : rescaleFio2 r = some r := by
    apply fio2_noop
    intro rc hrc
    rw [hrfind "FiO2" (by decide), hYeq "FiO2"] at hrc
    have hrc8 : dfFind d8 "FiO2" = some rc := by
      rw [← surv8 h9 hdf1 (by decide)]
      exact hrc
    obtain ⟨w, hw, hw9⟩ := (fio2_write h9).1 rc hrc8
    refine ⟨w, hw, ?_⟩
    rw [hrfind "fio2" (by decide), hYeq "fio2", surv9 hdf1 (by decide)]
    exact hw9
  -- ### run the second pipeline end to end
  have hpipe : cleanDataDf m1 df1 =
      some (ethUpdatedMap m1 ecol, fixHeaders r) := by
    unfold cleanDataDf
    rw [hrun1]
    simp only [Option.bind_eq_bind', Option.some_bind']
    rw [hrun2]
    simp only [Option.bind_eq_bind', Option.some_bind']
    rw [hX]
    simp only [Option.bind_eq_bind', Option.some_bind']
    rw [hY]
    simp only [Option.bind_eq_bind', Option.some_bind']
    rw [hrun5]
    simp only [Option.bind_eq_bind', Option.some_bind']
    rw [hrun6]
    simp only [Option.bind_eq_bind', Option.some_bind']
    rw [hrun7]
    simp only [Option.bind_eq_bind', Option.some_bind']
    rw [hrun8]
    simp only [Option.bind_eq_bind', Option.some_bind']
    rw [hrun9]
    simp only [Option.bind_eq_bind', Option.some_bind', Option.pure_def]
  -- ### the final header fix either returns `Y` or appends `cxr_severity_2`
  rcases hrr with hre | ⟨v0, hre⟩
  · have hfixr : fixHeaders r = Y := by
      rw [hre]
      unfold fixHeaders
      have hcont : dfContains Y "cxr_severity_3" = false := by
        unfold dfContains
        rw [hcsY]
        rfl
      rw [hcont, if_neg Bool.false_ne_true]
    rw [hfixr] at hpipe
    refine ⟨ethUpdatedMap m1 ecol, Y, hpipe, ?_⟩
    intro c v hv
    rw [hYeq c]
    exact hv
  · have hfixr : fixHeaders r = Y ++ [("cxr_severity_2", v0)] := by
      rw [hre]
      unfold fixHeaders
      have hcont : dfContains (Y ++ [("cxr_severity_3", v0)])
          "cxr_severity_3" = true := by
        unfold dfContains
        rw [dfFind_append_right _ hcsY]
        rfl
      rw [hcont, if_pos rfl, dfRename_append,
        dfRename_eq_self "cxr_severity_2" hcsY]
      rfl
    rw [hfixr] at hpipe
    refine ⟨ethUpdatedMap m1 ecol, Y ++ [("cxr_severity_2", v0)], hpipe, ?_⟩
    intro c v hv
    exact dfFind_append_left _ ((hYeq c) ▸ hv)

/-- Witness for C9 at a concrete three-column frame: the first run succeeds
and produces the cleaned frame shown, and the theorem then yields a
successful, value-preserving second run. -/
theorem C9_second_run_preserves_cleaned_witness :
    cleanDataDf (fun _ => none)
      [("Ethnicity", [Cell.str "White"]), ("Sex", [Cell.str "F"]),
       ("SwabDate", [Cell.str "01/02/2020"])] =
      some (ethUpdatedMap (fun _ => none) [Cell.str "White"],
      [("Ethnicity", [Cell.str "White"]), ("Sex", [Cell.str "F"]),
       ("SwabDate", [Cell.str "01/02/2020"]),
       ("ethnicity", [Cell.str "White"]), ("sex", [Cell.str "F"]),
       ("swabdate", [Cell.date 2020 2 1])]) ∧
    ∃ m2 df2, cleanDataDf (ethUpdatedMap (fun _ => none) [Cell.str "White"])
      [("Ethnicity", [Cell.str "White"]), ("Sex", [Cell.str "F"]),
       ("SwabDate", [Cell.str "01/02/2020"]),
       ("ethnicity", [Cell.str "White"]), ("sex", [Cell.str "F"]),
       ("swabdate", [Cell.date 2020 2 1])] = some (m2, df2) ∧
      ∀ c v, dfFind
      [("Ethnicity", [Cell.str "White"]), ("Sex", [Cell.str "F"]),
       ("SwabDate", [Cell.str "01/02/2020"]),
       ("ethnicity", [Cell.str "White"]), ("sex", [Cell.str "F"]),
       ("swabdate", [Cell.date 2020 2 1])] c = some v → dfFind df2 c = some v :=
  ⟨by rfl, C9_second_run_preserves_cleaned (fun _ => none)
    (ethUpdatedMap (fun _ => none) [Cell.str "White"])
    [("Ethnicity", [Cell.str "White"]), ("Sex", [Cell.str "F"]),
       ("SwabDate", [Cell.str "01/02/2020"])]
    [("Ethnicity", [Cell.str "White"]), ("Sex", [Cell.str "F"]),
       ("SwabDate", [Cell.str "01/02/2020"]),
       ("ethnicity", [Cell.str "White"]), ("sex", [Cell.str "F"]),
       ("swabdate", [Cell.date 2020 2 1])]
    (by rfl)⟩

end NCCID
